import Mathlib

/-!
# Payment gateway: transaction pipeline and settlement engine

A shallow embedding of the Go services of the repository
(`internal/service`, `internal/db/repo`, `internal/bus/rabbitmq`,
`cmd/settlement-worker`) as state-passing functions, followed by theorems
about them.

Modelling conventions.

* The Postgres database is a record of tables (`DB`); every statement sent to
  it is appended to `DB.log`, also when the driver reports an error.  The
  error a driver call returns is an input of the model (a field of the
  environment record of the operation, `none` = the call succeeds); a
  statement that returns an error changes no table.
* The message bus is seen through the calls made to `Publish`: each call is
  recorded in `World.bus` together with the error the bus returned for it.
* `uuid.New()` and `time.Now()` are inputs of the model (environment fields).
* Library functions (`encoding/json`, the non-ASCII part of
  `strings.ToUpper`) are fields of `Runtime`; the theorems hold for every
  `Runtime`.
* Go `int64`/`int` values are `Int`; the embedded code does no arithmetic on
  them (only comparisons), so no wrap-around is involved.
-/

namespace PaymentGateway

/-! ## Basic values -/

/-- Wire bytes (`[]byte`). -/
abbrev Bytes := String

/-- Instants (`time.Time`), as a number of ticks. -/
abbrev Time := Nat

/-- The type `uuid.UUID`: sixteen bytes, read as one big-endian number. -/
structure UUID where
  val : Nat
deriving DecidableEq, Repr

/-- The value `uuid.Nil`. -/
def UUID.Nil : UUID := ⟨0⟩

/-- One lower-case hexadecimal digit. -/
def hexDigit (n : Nat) : Char :=
  if n < 10 then Char.ofNat (48 + n) else Char.ofNat (87 + n)

/-- Byte `i` (0 is the first) of a UUID. -/
def UUID.byte (u : UUID) (i : Nat) : Nat := u.val / 256 ^ (15 - i) % 256

/-- Two hexadecimal digits of byte `i`. -/
def UUID.hex (u : UUID) (i : Nat) : List Char :=
  [hexDigit (u.byte i / 16), hexDigit (u.byte i % 16)]

/-- The method `UUID.String()`: the form xxxxxxxx-xxxx-xxxx-xxxx-xxxxxxxxxxxx. -/
def UUID.String (u : UUID) : String :=
  String.mk
    (u.hex 0 ++ u.hex 1 ++ u.hex 2 ++ u.hex 3 ++ ['-'] ++
     u.hex 4 ++ u.hex 5 ++ ['-'] ++
     u.hex 6 ++ u.hex 7 ++ ['-'] ++
     u.hex 8 ++ u.hex 9 ++ ['-'] ++
     u.hex 10 ++ u.hex 11 ++ u.hex 12 ++ u.hex 13 ++ u.hex 14 ++ u.hex 15)

/-- JSON documents, as far as the services build them. -/
inductive Json where
  | null
  | str (s : String)
  | num (n : Int)
  | time (t : Time)
  | obj (fields : List (String × Json))

/-- Field lookup in a JSON object. -/
def Json.get (k : String) : Json → Option Json
  | .obj fields => (fields.find? (fun kv => kv.1 == k)).map (fun kv => kv.2)
  | _ => none

/-- A Go `map[string]any` holding JSON values. -/
abbrev JsonMap := List (String × Json)

/-- Go `error` values. -/
inductive Error where
  /-- The sentinel `ErrInvalidAmount = errors.New("invalid amount")`. -/
  | ErrInvalidAmount
  /-- The sentinel `ErrInvalidCurrency = errors.New("unsupported currency")`. -/
  | ErrInvalidCurrency
  /-- The sentinel `sql.ErrNoRows`. -/
  | ErrNoRows
  /-- An error value made by a library: `database/sql`, `amqp`, `encoding/json`. -/
  | lib (msg : String)
  /-- `fmt.Errorf(msg)` without a wrapped error. -/
  | errorf (msg : String)
  /-- `fmt.Errorf(msg + ": %w", inner)`. -/
  | wrap (msg : String) (inner : Error)
deriving DecidableEq, Repr

/-- The error a library call returns for a given fault input. -/
def libErr (fault : Option String) : Option Error := fault.map Error.lib

/-! ## Library functions taken as parameters -/

/-- The payload of a `settlement.requested` message (`SettlementPayload`). -/
structure SettlementPayload where
  TransactionID : UUID
  Routing : Option JsonMap
  RequestedAt : Time

/-- Library functions the services call. -/
structure Runtime where
  /-- The function `unicode.ToUpper` on runes outside ASCII. -/
  unicodeToUpper : Char → Char
  /-- The function `json.Marshal` on the documents the services build. -/
  Marshal : Json → Bytes
  /-- The call `json.Unmarshal(payload, &sp)` for `sp : SettlementPayload`. -/
  UnmarshalSettlementPayload : Bytes → Except String SettlementPayload

/-- The function `strings.ToUpper` on valid UTF-8: strings of ASCII bytes are
upper-cased byte by byte (returned as they are when they hold no lower-case
letter), other strings rune by rune with `unicode.ToUpper`. -/
def ToUpper (rt : Runtime) (s : String) : String :=
  let isASCII := s.data.all (fun c => decide (c.toNat < 128))
  let hasLower := s.data.any (fun c => decide ('a' ≤ c ∧ c ≤ 'z'))
  if isASCII then
    if !hasLower then s
    else String.mk (s.data.map (fun c => if 'a' ≤ c ∧ c ≤ 'z' then Char.ofNat (c.toNat - 32) else c))
  else String.mk (s.data.map rt.unicodeToUpper)

/-! ## Data model (`internal/model`) -/

/-- The struct `model.Transaction`; `Metadata = none` is the nil map. -/
structure Transaction where
  ID : UUID
  Amount : Int
  Currency : String
  UserID : UUID
  MerchantID : UUID
  Status : String
  Metadata : Option JsonMap
  CreatedAt : Time
  UpdatedAt : Time

def TransactionStatusPending : String := "pending"
def TransactionStatusCompleted : String := "completed"
def TransactionStatusFailed : String := "failed"
def TransactionStatusCancelled : String := "cancelled"

/-- The struct `model.Settlements`. -/
structure Settlements where
  ID : UUID
  MerchantAccountID : UUID
  ExternalReference : String
  Status : String
  Amount : Int
  Metadata : Option JsonMap
  Attempts : Int
  CreatedAt : Time
  UpdatedAt : Time

def SettlementPending : String := "pending"
def SettlementSuccess : String := "success"
def SettlementFailed : String := "failed"

def AccountTypeUser : String := "user"
def AccountTypeMerchant : String := "merchant"
def AccountTypeSystem : String := "system"

/-- The struct `model.Accounts`. -/
structure Accounts where
  ID : UUID
  OwnerID : UUID
  AccountType : String
  Currency : String
  CreatedAt : Time
  UpdatedAt : Time

/-- A row of table `accounts`: the columns of `model.Accounts` and `owner_type`. -/
structure AccountRow where
  id : UUID
  owner_id : UUID
  owner_type : String
  account_type : String
  currency : String
  created_at : Time
  updated_at : Time

/-- The struct `dto.CreateTransactionDTO`. -/
structure CreateTransactionDTO where
  Amount : Int
  Currency : String
  UserID : UUID
  MerchantID : UUID
  Metadata : Option JsonMap

/-- JSON encoding of a `model.Transaction` (its `json` struct tags, in field order). -/
def Transaction.toJson (t : Transaction) : Json :=
  .obj [("id", .str t.ID.String),
        ("amount", .num t.Amount),
        ("currency", .str t.Currency),
        ("user_id", .str t.UserID.String),
        ("merchant_id", .str t.MerchantID.String),
        ("status", .str t.Status),
        ("metadata", match t.Metadata with | some m => .obj m | none => .null),
        ("created_at", .time t.CreatedAt),
        ("updated_at", .time t.UpdatedAt)]

/-! ## The database and the bus -/

/-- Statements sent to the database. -/
inductive DbCall where
  | insertTransaction (row : Transaction)
  | updateTransactionStatus (id : UUID) (status : String)
  | selectTransaction (id : UUID)
  | selectAccount (ownerID : UUID) (accountType : String)
  | insertAccount (row : AccountRow)
  | insertSettlement (row : Settlements)
  | listTransactions (limit offset : Int)
  | listSettlements (limit offset : Int)

/-- The tables of the Postgres database and the statements sent so far. -/
structure DB where
  transactions : List Transaction
  settlements : List Settlements
  accounts : List AccountRow
  log : List DbCall

/-- The database after statement `c` was sent to it (before its effect, if any). -/
def DB.logged (db : DB) (c : DbCall) : DB :=
  { db with log := db.log ++ [c] }

/-- A message on the bus. -/
structure Message where
  topic : String
  key : String
  payload : Bytes
deriving DecidableEq, Repr

/-- One call of `bus.Publish` and the error the bus returned (`none` = accepted). -/
structure Publication where
  msg : Message
  err : Option Error
deriving DecidableEq, Repr

/-- The world the services act on. -/
structure World where
  db : DB
  /-- Calls of `Publish`, oldest first. -/
  bus : List Publication
  /-- Messages the broker dead-lettered after a negative ack without requeue. -/
  deadLetters : List Message

/-- The call `bus.Publish(ctx, topic, key, payload)` on the `bus.Bus` interface: the
call is recorded with the key as the caller passed it and the error the bus
returned. -/
def Publish (topic key : String) (payload : Bytes) (fault : Option String)
    (w : World) : World × Option Error :=
  ({ w with bus := w.bus ++ [⟨⟨topic, key, payload⟩, libErr fault⟩] }, libErr fault)

/-! ## Transaction store (`internal/db/repo/transaction_repo.go`) -/

/-- The method `PostgresTransactionRepository.CreateTransaction`: nil metadata is
stored as `{}`.  Metadata values are JSON documents, so `json.Marshal` of
them returns no error. -/
def PostgresTransactionRepository.CreateTransaction (tx : Transaction)
    (fault : Option String) (db : DB) : DB × Option Error :=
  let metadataJSON : JsonMap := match tx.Metadata with
    | some m => m
    | none => []
  let db1 := db.logged (.insertTransaction tx)
  match fault with
  | some e => (db1, some (.lib e))
  | none =>
    ({ db1 with transactions := db1.transactions ++ [{ tx with Metadata := some metadataJSON }] },
     none)

/-- The method `PostgresTransactionRepository.UpdateStatus`:
`UPDATE transactions SET status = $1, updated_at = NOW() WHERE id = $2`. -/
def PostgresTransactionRepository.UpdateStatus (id : UUID) (status : String)
    (dbNow : Time) (fault : Option String) (db : DB) : DB × Option Error :=
  let db1 := db.logged (.updateTransactionStatus id status)
  match fault with
  | some e => (db1, some (.lib e))
  | none =>
    ({ db1 with transactions := db1.transactions.map (fun t =>
          if t.ID = id then { t with Status := status, UpdatedAt := dbNow } else t) },
     none)

/-- The result of `QueryRowContext(...).Scan(...)`: the driver's error if it reports
one, `sql.ErrNoRows` when no row matches, the first matching row otherwise. -/
def QueryRowScan {α : Type} (found : Option α) (fault : Option String) : Except Error α :=
  match fault with
  | some e => .error (.lib e)
  | none =>
    match found with
    | none => .error .ErrNoRows
    | some r => .ok r

/-- The method `PostgresTransactionRepository.GetByID`: no row is `(nil, nil)`.  The
stored metadata is a JSON object, so its `json.Unmarshal` returns no error. -/
def PostgresTransactionRepository.GetByID (id : UUID) (fault : Option String)
    (db : DB) : DB × Option Transaction × Option Error :=
  let db1 := db.logged (.selectTransaction id)
  match QueryRowScan (db1.transactions.find? (fun t => t.ID = id)) fault with
  | .error .ErrNoRows => (db1, none, none)
  | .error err => (db1, none, some err)
  | .ok t => (db1, some t, none)

/-! ## Transaction service (`internal/service/transaction_service.go`) -/

/-- The map `allowedCurrencies`; an absent key reads as `false`. -/
def allowedCurrencies (c : String) : Bool := c = "NGN"

/-- The struct `TransactionService`: `bus = false` is a nil bus. -/
structure TransactionService where
  bus : Bool

/-- Inputs of one `CreateTransaction` call that the program does not control. -/
structure CreateEnv where
  /-- Value of `uuid.New()`. -/
  newID : UUID
  /-- Value of the first `time.Now().UTC()`. -/
  createdAt : Time
  /-- Value of the second `time.Now().UTC()`. -/
  updatedAt : Time
  /-- Error of the store's insert. -/
  insertFault : Option String
  /-- Error of `bus.Publish` inside the goroutine. -/
  publishFault : Option String

/-- The transaction value `CreateTransaction` builds (`tx := &model.Transaction{...}`),
with the metadata map made when the input has none. -/
def TransactionService.newTransaction (rt : Runtime) (input : CreateTransactionDTO)
    (env : CreateEnv) : Transaction :=
  let metadata : JsonMap := match input.Metadata with
    | some m => m
    | none => []
  { ID := env.newID,
    Amount := input.Amount,
    Currency := ToUpper rt input.Currency,
    UserID := input.UserID,
    MerchantID := input.MerchantID,
    Status := TransactionStatusPending,
    Metadata := some metadata,
    CreatedAt := env.createdAt,
    UpdatedAt := env.updatedAt }

/-- The method `TransactionService.CreateTransaction`.  The goroutine that publishes
`transaction.created` is run right after the insert; its error is dropped. -/
def TransactionService.CreateTransaction (rt : Runtime) (s : TransactionService)
    (input : CreateTransactionDTO) (env : CreateEnv) (w : World) :
    World × UUID × Option Error :=
  if input.Amount ≤ 0 then (w, UUID.Nil, some .ErrInvalidAmount)
  else if !allowedCurrencies (ToUpper rt input.Currency) then
    (w, UUID.Nil, some .ErrInvalidCurrency)
  else
    let tx := TransactionService.newTransaction rt input env
    match PostgresTransactionRepository.CreateTransaction tx env.insertFault w.db with
    | (db1, some err) => ({ w with db := db1 }, UUID.Nil, some err)
    | (db1, none) =>
      let w1 := { w with db := db1 }
      let w2 :=
        if s.bus then
          (Publish "transaction.created" tx.ID.String (rt.Marshal tx.toJson) env.publishFault w1).1
        else w1
      (w2, tx.ID, none)

/-! ## Account store (`internal/db/repo/account_repo.go`) -/

/-- The columns `GetByOwnerID` scans from a row. -/
def AccountRow.toAccounts (r : AccountRow) : Accounts :=
  { ID := r.id, OwnerID := r.owner_id, AccountType := r.account_type,
    Currency := r.currency, CreatedAt := r.created_at, UpdatedAt := r.updated_at }

/-- The method `PostgresAccountRepository.GetByOwnerID`:
`SELECT ... WHERE owner_id = $1 AND account_type = $2 LIMIT 1`. -/
def PostgresAccountRepository.GetByOwnerID (ownerID : UUID) (accountType : String)
    (fault : Option String) (db : DB) : DB × Option Accounts × Option Error :=
  let db1 := db.logged (.selectAccount ownerID accountType)
  match QueryRowScan
      (db1.accounts.find? (fun r => r.owner_id = ownerID ∧ r.account_type = accountType))
      fault with
  | .error .ErrNoRows => (db1, none, none)
  | .error err => (db1, none, some err)
  | .ok r => (db1, some r.toAccounts, none)

/-- Inputs of one `GetOrCreateMerchantAccount` call that the program does not control. -/
structure AccountEnv where
  /-- Error of the lookup query. -/
  lookupFault : Option String
  /-- Value of `uuid.New()`. -/
  newID : UUID
  /-- Value of `NOW()` in the insert. -/
  dbNow : Time
  /-- Error of the insert. -/
  insertFault : Option String

/-- The method `PostgresAccountRepository.GetOrCreateMerchantAccount`. -/
def PostgresAccountRepository.GetOrCreateMerchantAccount (merchantID : UUID)
    (currency : String) (env : AccountEnv) (db : DB) : DB × Option Accounts × Option Error :=
  match PostgresAccountRepository.GetByOwnerID merchantID AccountTypeMerchant env.lookupFault db with
  | (db1, account, err) =>
    if err ≠ none ∧ err ≠ some .ErrNoRows then (db1, none, err)
    else
      match account with
      | some a => (db1, some a, none)
      | none =>
        let newAccount : Accounts :=
          { ID := env.newID, OwnerID := merchantID, AccountType := AccountTypeMerchant,
            Currency := currency, CreatedAt := 0, UpdatedAt := 0 }
        let row : AccountRow :=
          { id := newAccount.ID, owner_id := newAccount.OwnerID, owner_type := "merchant",
            account_type := newAccount.AccountType, currency := newAccount.Currency,
            created_at := env.dbNow, updated_at := env.dbNow }
        let db2 := db1.logged (.insertAccount row)
        match env.insertFault with
        | some e => (db2, none, some (.lib e))
        | none =>
          ({ db2 with accounts := db2.accounts ++ [row] },
           some { newAccount with CreatedAt := row.created_at, UpdatedAt := row.updated_at },
           none)

/-! ## Settlement store (`internal/db/repo/settlement_repo.go`) -/

/-- The method `PostgresSettlementRepository.CreateSettlementAttempt`.  The metadata
is a map of JSON documents, so `json.Marshal` of it returns no error. -/
def PostgresSettlementRepository.CreateSettlementAttempt (s : Settlements)
    (fault : Option String) (db : DB) : DB × Option Error :=
  let db1 := db.logged (.insertSettlement s)
  match fault with
  | some e => (db1, some (.lib e))
  | none => ({ db1 with settlements := db1.settlements ++ [s] }, none)

/-! ## Contexts -/

/-- Values stored in a `context.Context`. -/
inductive CtxValue where
  | int (n : Int)
  | int64 (n : Int)
  | str (s : String)
deriving DecidableEq, Repr

/-- A `context.Context`, as far as its values go. -/
structure Context where
  values : List (String × CtxValue)

/-- The function `context.Background()`. -/
def Context.Background : Context := ⟨[]⟩

/-- The function `context.WithValue(ctx, key, val)`. -/
def Context.WithValue (ctx : Context) (key : String) (val : CtxValue) : Context :=
  ⟨(key, val) :: ctx.values⟩

/-- The method `ctx.Value(key)`. -/
def Context.Value (ctx : Context) (key : String) : Option CtxValue :=
  (ctx.values.find? (fun kv => kv.1 == key)).map (fun kv => kv.2)

/-! ## Settlement service (`internal/service/settlement_service.go`) -/

/-- How a call of a handler ends: it returns an `error` (`none` is nil) or panics. -/
inductive Outcome where
  | returned (err : Option Error)
  | panicked
deriving DecidableEq, Repr

/-- The struct `SettlementService`: `bus = false` is a nil bus; the three repositories
are the Postgres ones over the database of the world. -/
structure SettlementService where
  bus : Bool

/-- Inputs of one `ProcessSettlement` call that the program does not control. -/
structure SettleEnv where
  /-- Error of the publish to the dead-letter topic. -/
  dlqPublishFault : Option String
  /-- Error of `txRepo.GetByID`. -/
  fetchFault : Option String
  /-- Inputs of `accountRepo.GetOrCreateMerchantAccount`. -/
  account : AccountEnv
  /-- Value of `uuid.New()` for the settlement. -/
  settlementID : UUID
  /-- Values of the two `time.Now().UTC()` of the settlement. -/
  createdAt : Time
  updatedAt : Time
  /-- Error of `settlementRepo.CreateSettlementAttempt`. -/
  insertFault : Option String
  /-- Value of `NOW()` in the status update. -/
  dbNow : Time
  /-- Error of `txRepo.UpdateStatus`. -/
  updateFault : Option String
  /-- Value of `time.Now().UTC()` in the outcome event. -/
  eventAt : Time
  /-- Error of the publish of the outcome event. -/
  publishFault : Option String

/-- The constant `maxRetries` of `ProcessSettlement`. -/
def maxRetries : Int := 3

/-- The method `simulateSettlementProcessing`. -/
def SettlementService.simulateSettlementProcessing (_s : SettlementService)
    (_settlement : Settlements) : Bool :=
  true

/-- The map `completedPayload` of `ProcessSettlement`. -/
def completedPayload (tx : Transaction) (settlement : Settlements) (at_ : Time) : Json :=
  .obj [("transaction_id", .str tx.ID.String),
        ("settlement_id", .str settlement.ID.String),
        ("status", .str "completed"),
        ("completed_at", .time at_)]

/-- The map `failedPayload` of `ProcessSettlement`. -/
def failedPayload (tx : Transaction) (settlement : Settlements) (at_ : Time) : Json :=
  .obj [("transaction_id", .str tx.ID.String),
        ("settlement_id", .str settlement.ID.String),
        ("status", .str "failed"),
        ("failed_at", .time at_)]

/-- The settlement row `ProcessSettlement` builds. -/
def newSettlement (sp : SettlementPayload) (tx : Transaction) (merchantAccount : Accounts)
    (env : SettleEnv) : Settlements :=
  { ID := env.settlementID,
    MerchantAccountID := merchantAccount.ID,
    ExternalReference := sp.TransactionID.String,
    Status := SettlementPending,
    Amount := tx.Amount,
    Metadata := some [("routing", match sp.Routing with | some m => .obj m | none => .null),
                      ("requested_at", .time sp.RequestedAt)],
    Attempts := 1,
    CreatedAt := env.createdAt,
    UpdatedAt := env.updatedAt }

/-- The retry count `ProcessSettlement` reads from its context:
`ctx.Value("retry_count").(int)`, 0 when absent or not an `int`. -/
def retryCountOf (ctx : Context) : Int :=
  match ctx.Value "retry_count" with
  | some (.int rc) => rc
  | _ => 0

/-- The part of `ProcessSettlement` after the settlement row is stored: the simulated
attempt, the status update and the outcome event. -/
def SettlementService.finishAttempt (rt : Runtime) (s : SettlementService)
    (tx : Transaction) (settlement : Settlements) (env : SettleEnv) (w : World) :
    World × Outcome :=
  if s.simulateSettlementProcessing settlement then
    match PostgresTransactionRepository.UpdateStatus tx.ID "completed" env.dbNow env.updateFault w.db with
    | (db1, some err) => ({ w with db := db1 }, .returned (some err))
    | (db1, none) =>
      let w1 := { w with db := db1 }
      let w2 :=
        if s.bus then
          (Publish "settlement.completed" tx.ID.String
            (rt.Marshal (completedPayload tx settlement env.eventAt)) env.publishFault w1).1
        else w1
      (w2, .returned none)
  else
    match PostgresTransactionRepository.UpdateStatus tx.ID "failed" env.dbNow env.updateFault w.db with
    | (db1, some err) => ({ w with db := db1 }, .returned (some err))
    | (db1, none) =>
      let w1 := { w with db := db1 }
      let w2 :=
        if s.bus then
          (Publish "settlement.failed" tx.ID.String
            (rt.Marshal (failedPayload tx settlement env.eventAt)) env.publishFault w1).1
        else w1
      (w2, .returned none)

/-- The method `SettlementService.ProcessSettlement`.  Dereferencing the nil
transaction of an absent row (`tx.MerchantID`) panics. -/
def SettlementService.ProcessSettlement (rt : Runtime) (s : SettlementService)
    (ctx : Context) (payload : Bytes) (env : SettleEnv) (w : World) : World × Outcome :=
  match rt.UnmarshalSettlementPayload payload with
  | .error e => (w, .returned (some (.wrap "invalid settlement payload" (.lib e))))
  | .ok sp =>
    let retryCount := retryCountOf ctx
    if retryCount ≥ maxRetries then
      let w1 :=
        if s.bus then
          (Publish "dlq.settlement.requested" sp.TransactionID.String payload
            env.dlqPublishFault w).1
        else w
      (w1, .returned (some (.errorf "settlement failed permanently after 3 retries")))
    else
      match PostgresTransactionRepository.GetByID sp.TransactionID env.fetchFault w.db with
      | (db1, _, some err) =>
        ({ w with db := db1 }, .returned (some (.wrap "failed to fetch transaction" err)))
      | (db1, none, none) => ({ w with db := db1 }, .panicked)
      | (db1, some tx, none) =>
        match PostgresAccountRepository.GetOrCreateMerchantAccount tx.MerchantID tx.Currency
            env.account db1 with
        | (db2, _, some err) =>
          ({ w with db := db2 },
           .returned (some (.wrap "failed to get/create merchant account" err)))
        | (db2, none, none) => ({ w with db := db2 }, .panicked)
        | (db2, some merchantAccount, none) =>
          let settlement := newSettlement sp tx merchantAccount env
          match PostgresSettlementRepository.CreateSettlementAttempt settlement
              env.insertFault db2 with
          | (db3, some err) =>
            ({ w with db := db3 },
             .returned (some (.wrap "failed to create settlement attempt" err)))
          | (db3, none) => s.finishAttempt rt tx settlement env { w with db := db3 }

/-! ## RabbitMQ bus: the dispatch loop of `Subscribe` (`internal/bus/rabbitmq/bus_rmq.go`) -/

/-- Values of an `amqp.Table`. -/
inductive AmqpValue where
  | int64 (n : Int)
  | int32 (n : Int)
  | str (s : String)
  | list (xs : List AmqpValue)
  | table (t : List (String × AmqpValue))

/-- An `amqp.Table`. -/
abbrev AmqpTable := List (String × AmqpValue)

/-- Indexing of a Go map. -/
def AmqpTable.get (t : AmqpTable) (k : String) : Option AmqpValue :=
  (t.find? (fun kv => kv.1 == k)).map (fun kv => kv.2)

/-- An `amqp.Delivery`; `Headers = none` is the nil table. -/
structure Delivery where
  Headers : Option AmqpTable
  RoutingKey : String
  Body : Bytes

/-- The retry count the dispatch loop derives from the `x-death` header. -/
def Delivery.retryCount (m : Delivery) : Int :=
  match m.Headers with
  | none => 0
  | some h =>
    match AmqpTable.get h "x-death" with
    | some (.list (.table death :: _)) =>
      match AmqpTable.get death "count" with
      | some (.int64 count) => count
      | _ => 0
    | _ => 0

/-- A `bus.HandlerFn`, with the inputs `ε` its body needs from the environment. -/
abbrev HandlerFn (ε : Type) := Context → String → String → Bytes → ε → World → World × Outcome

/-- How the dispatch loop settles a delivery: `m.Ack(false)` or `m.Nack(false, requeue)`. -/
inductive Settle where
  | ack
  | nack (requeue : Bool)
deriving DecidableEq, Repr

/-- One iteration of the dispatch loop of `RabbitMQBus.Subscribe`; a panic of the
handler leaves the delivery unsettled (`none`). -/
def RabbitMQBus.dispatch {ε : Type} (topic : String) (handler : HandlerFn ε) (m : Delivery)
    (env : ε) (w : World) : World × Option Settle :=
  let msgCtx := Context.Background
  let retryCount := m.retryCount
  let msgCtx := msgCtx.WithValue "retry_count" (.int retryCount)
  match handler msgCtx topic m.RoutingKey m.Body env w with
  | (w1, .returned (some _)) =>
    if retryCount ≥ 3 then (w1, some (.nack false)) else (w1, some (.nack true))
  | (w1, .returned none) => (w1, some .ack)
  | (w1, .panicked) => (w1, none)

/-- The broker's reaction to the settling of a delivery from the consumer queue of
`topic`, which `Subscribe` declares with `x-dead-letter-exchange = "dlq." + topic`:
a negative ack without requeue dead-letters the message to that exchange with
its routing key and body; an ack drops it; a requeue keeps it for redelivery. -/
def brokerSettle (topic : String) (m : Delivery) (st : Option Settle) (w : World) : World :=
  match st with
  | some (.nack false) =>
    { w with deadLetters := w.deadLetters ++ [⟨"dlq." ++ topic, m.RoutingKey, m.Body⟩] }
  | _ => w

/-- One delivery: the dispatch loop runs the handler and settles, the broker reacts. -/
def RabbitMQBus.deliver {ε : Type} (topic : String) (handler : HandlerFn ε) (m : Delivery)
    (env : ε) (w : World) : World :=
  let r := RabbitMQBus.dispatch topic handler m env w
  brokerSettle topic m r.2 r.1

/-- The messages that reached exchange `topic`: accepted publishes, then dead letters. -/
def World.arrived (w : World) (topic : String) : List Message :=
  ((w.bus.filter (fun p => p.err = none ∧ p.msg.topic = topic)).map (fun p => p.msg)) ++
    w.deadLetters.filter (fun m => m.topic = topic)

/-- The calls of `Publish` made on `topic`, oldest first. -/
def World.publishedOn (w : World) (topic : String) : List Publication :=
  w.bus.filter (fun p => p.msg.topic = topic)

/-! ## Settlement worker (`cmd/settlement-worker/main.go`, `cmd/api/main.go`) -/

/-- The handler the settlement worker subscribes to `settlement.requested`:
`return settlementService.ProcessSettlement(context.Background(), payload)`. -/
def settlementRequestedHandler (rt : Runtime) (settlementService : SettlementService) :
    HandlerFn SettleEnv :=
  fun _ctx _topic _key payload env w =>
    settlementService.ProcessSettlement rt Context.Background payload env w

/-- The settlement service the worker builds: it is given the RabbitMQ bus. -/
def workerSettlementService : SettlementService := { bus := true }

/-- Whether a handler call returned a non-nil error. -/
def Outcome.isFailure : Outcome → Bool
  | .returned (some _) => true
  | _ => false

/-- The context the dispatch loop hands to the handler for delivery `m`. -/
def Delivery.msgCtx (m : Delivery) : Context :=
  Context.Background.WithValue "retry_count" (.int m.retryCount)

/-- The outcome of the worker's handler on delivery `m` of `settlement.requested`, as
the dispatch loop calls it. -/
def settlementWorkerOutcome (rt : Runtime) (m : Delivery) (env : SettleEnv) (w : World) :
    Outcome :=
  (settlementRequestedHandler rt workerSettlementService m.msgCtx "settlement.requested"
    m.RoutingKey m.Body env w).2

/-- The settlement worker consuming delivery `m` of `settlement.requested`. -/
def settlementWorkerDeliver (rt : Runtime) (m : Delivery) (env : SettleEnv) (w : World) :
    World :=
  RabbitMQBus.deliver "settlement.requested"
    (settlementRequestedHandler rt workerSettlementService) m env w

/-- The settlement worker consuming deliveries one after the other, each with the
environment inputs of its handler call. -/
def settlementWorkerRun (rt : Runtime) : List (Delivery × SettleEnv) → World → World
  | [], w => w
  | (m, env) :: rest, w => settlementWorkerRun rt rest (settlementWorkerDeliver rt m env w)

/-! ## Routing service (`internal/service/routing_service.go`) -/

/-- The function `unicode.IsSpace`: the runes with the Unicode White_Space property. -/
def isSpace (c : Char) : Bool :=
  decide (c.toNat ∈ [0x09, 0x0A, 0x0B, 0x0C, 0x0D, 0x20, 0x85, 0xA0, 0x1680, 0x2028, 0x2029,
    0x202F, 0x205F, 0x3000]) || (decide (0x2000 ≤ c.toNat) && decide (c.toNat ≤ 0x200A))

/-- The function `strings.TrimSpace` on valid UTF-8: leading and trailing white space
removed. -/
def TrimSpace (s : String) : String :=
  String.mk ((s.data.dropWhile isSpace).reverse.dropWhile isSpace).reverse

/-- The function `uuid.Parse` of the UUID library, taken as a parameter. -/
structure UuidLib where
  Parse : String → Except String UUID

/-- The struct `RoutingService`: `bus = false` is a nil bus; the repository is the
Postgres one over the database of the world. -/
structure RoutingService where
  bus : Bool

/-- Inputs of one `ProcessTransaction` call that the program does not control. -/
structure RouteEnv where
  /-- Value of `NOW()` in the status update. -/
  dbNow : Time
  /-- Error of `repo.UpdateStatus`. -/
  updateFault : Option String
  /-- Value of `time.Now().UTC()` in the payload. -/
  requestedAt : Time
  /-- Error of `bus.Publish`. -/
  publishFault : Option String

/-- The map `routingInfo` of `ProcessTransaction`. -/
def routingInfo : JsonMap :=
  [("route", .str "simulated-acquirer"), ("priority", .str "normal")]

/-- The map `payload` of `ProcessTransaction`. -/
def settlementRequestedPayload (id : UUID) (requestedAt : Time) : Json :=
  .obj [("transaction_id", .str id.String),
        ("routing", .obj routingInfo),
        ("requested_at", .time requestedAt)]

/-- The method `RoutingService.ProcessTransaction`. -/
def RoutingService.ProcessTransaction (rt : Runtime) (uuid : UuidLib) (s : RoutingService)
    (transaction_id : String) (env : RouteEnv) (w : World) : World × Option Error :=
  match uuid.Parse (TrimSpace transaction_id) with
  | .error e => (w, some (.lib e))
  | .ok id =>
    match PostgresTransactionRepository.UpdateStatus id "processing" env.dbNow env.updateFault
        w.db with
    | (db1, some err) => ({ w with db := db1 }, some err)
    | (db1, none) =>
      let bs := rt.Marshal (settlementRequestedPayload id env.requestedAt)
      let w1 := { w with db := db1 }
      if s.bus then
        ((Publish "settlement.requested" id.String bs env.publishFault w1).1, none)
      else (w1, none)

/-! ## Alert client (`internal/util/alert.go`) -/

def SeverityCritical : String := "critical"
def SeverityError : String := "error"
def SeverityWarning : String := "warning"
def SeverityInfo : String := "info"

/-- The struct `Alert`. -/
structure Alert where
  Service : String
  Severity : String
  Message : String
  Details : Option JsonMap
  Timestamp : Time

/-- The struct `AlertClient`, as far as `SendAlert` reads it. -/
structure AlertClient where
  webhookURL : String

/-- Inputs of one `SendAlert` call that the program does not control. -/
structure AlertEnv where
  /-- Value of `time.Now().UTC()`. -/
  now : Time
  /-- Error of `http.NewRequestWithContext`. -/
  requestFault : Option String
  /-- Error of `httpClient.Do`. -/
  doFault : Option String
  /-- Status code and body of the response. -/
  statusCode : Nat
  body : String

/-- One alert handed to `httpClient.Do` for the webhook, and the error `SendAlert`
returned for it (`none` = delivered). -/
structure AlertPost where
  url : String
  alert : Alert
  err : Option Error

/-- The arguments of one call of `SendAlert`. -/
structure AlertCall where
  service : String
  severity : String
  message : String
  details : Option JsonMap

/-- What the alert client was asked and what it did: the calls of `SendAlert`, and the
alerts it posted to the webhook. -/
structure AlertLog where
  calls : List AlertCall
  posts : List AlertPost

/-- The method `AlertClient.SendAlert`.  Every call is recorded in `calls`; with no
webhook URL nothing is posted.  The details hold JSON documents, so
`json.Marshal(alert)` returns no error. -/
def AlertClient.SendAlert (ac : AlertClient) (service severity message : String)
    (details : Option JsonMap) (env : AlertEnv) (log : AlertLog) :
    AlertLog × Option Error :=
  let log1 := { log with calls := log.calls ++ [⟨service, severity, message, details⟩] }
  if ac.webhookURL = "" then (log1, none)
  else
    let alert : Alert :=
      { Service := service, Severity := severity, Message := message, Details := details,
        Timestamp := env.now }
    match env.requestFault with
    | some e => (log1, some (.wrap "create request" (.lib e)))
    | none =>
      match env.doFault with
      | some e =>
        ({ log1 with posts := log1.posts ++
            [⟨ac.webhookURL, alert, some (.wrap "send alert" (.lib e))⟩] },
         some (.wrap "send alert" (.lib e)))
      | none =>
        if env.statusCode ≥ 400 then
          ({ log1 with posts := log1.posts ++ [⟨ac.webhookURL, alert,
              some (.errorf ("webhook returned status " ++ toString env.statusCode ++ ": " ++
                env.body))⟩] },
           some (.errorf ("webhook returned status " ++ toString env.statusCode ++ ": " ++
             env.body)))
        else ({ log1 with posts := log1.posts ++ [⟨ac.webhookURL, alert, none⟩] }, none)

/-- The method `AlertClient.SendWarning`. -/
def AlertClient.SendWarning (ac : AlertClient) (service message : String)
    (details : Option JsonMap) (env : AlertEnv) (log : AlertLog) :
    AlertLog × Option Error :=
  ac.SendAlert service SeverityWarning message details env log

/-! ## Reconciliation job (`cmd/reconcile-job/main.go`) -/

/-- The value of an `int64` computation whose exact result is `x`. -/
def wrapInt64 (x : Int) : Int := (x + 2 ^ 63) % 2 ^ 64 - 2 ^ 63

/-- One row of the result set of the reconciliation query, as scanned:
`t.id::text`, `t.amount::bigint`, `COALESCE(SUM(s.amount), 0)::bigint`. -/
structure ReconRow where
  id : String
  expected : Int
  actual : Int
deriving DecidableEq, Repr

/-- A row of table `reconciliation_logs`. -/
structure ReconciliationLog where
  id : UUID
  entity_type : String
  entity_id : String
  expected_amount : Int
  actual_amount : Int
  status : String
  notes : String
  created_at : Time
deriving DecidableEq, Repr

/-- What the reconciliation job acts on: the database it reads, the table it writes
and the alert client's log. -/
structure ReconState where
  db : DB
  reconciliation_logs : List ReconciliationLog
  alerts : AlertLog

/-- Inputs of the processing of one row that the program does not control. -/
structure RowEnv where
  /-- Error of `rows.Scan`. -/
  scanFault : Option String
  /-- Value of `uuid_generate_v4()` in the insert. -/
  newID : UUID
  /-- Value of `now()` in the insert. -/
  dbNow : Time
  /-- Error of the insert. -/
  insertFault : Option String
  /-- Inputs of the alert. -/
  alert : AlertEnv

/-- The function `insertReconciliationLog`; its `diff` argument is not stored. -/
def insertReconciliationLog (txID : String) (expected actual _diff : Int) (env : RowEnv)
    (st : ReconState) : ReconState × Option Error :=
  match env.insertFault with
  | some e => (st, some (.lib e))
  | none =>
    ({ st with reconciliation_logs := st.reconciliation_logs ++
        [{ id := env.newID, entity_type := "transactions", entity_id := txID,
           expected_amount := expected, actual_amount := actual, status := "mismatch",
           notes := "automated-check", created_at := env.dbNow }] },
     none)

/-- The map `alertDetails` of `runReconcile`. -/
def alertDetails (id : String) (expected actual diff : Int) : JsonMap :=
  [("transaction_id", .str id),
   ("expected_amount", .num expected),
   ("actual_amount", .num actual),
   ("difference", .num diff)]

/-- The loop of `runReconcile` over the rows the query delivers, each with the inputs
of its processing.  The counters, which are only logged, are left out. -/
def reconcileRows (ac : AlertClient) : List (ReconRow × RowEnv) → ReconState →
    ReconState × Option Error
  | [], st => (st, none)
  | (row, env) :: rest, st =>
    match env.scanFault with
    | some e => (st, some (.lib e))
    | none =>
      if row.expected ≠ row.actual then
        let diff := wrapInt64 (row.expected - row.actual)
        match insertReconciliationLog row.id row.expected row.actual diff env st with
        | (st1, some err) => (st1, some err)
        | (st1, none) =>
          let sent := ac.SendWarning "reconcile-job" "Transaction amount mismatch detected"
            (some (alertDetails row.id row.expected row.actual diff)) env.alert st1.alerts
          reconcileRows ac rest { st1 with alerts := sent.1 }
      else reconcileRows ac rest st

/-- The result set of the query of `runReconcile`: one row for each group `(t.id,
t.amount)` of transactions that are completed or failed, with the sum of the
amounts of the settlements joined to the transactions of the group (0 when
none is). -/
def reconcileQuery (db : DB) : List ReconRow :=
  let ts := db.transactions.filter (fun t => t.Status = "completed" ∨ t.Status = "failed")
  let groups := (ts.map (fun t => (t.ID, t.Amount))).eraseDups
  groups.map (fun g =>
    let members := ts.filter (fun t => t.ID = g.1 ∧ t.Amount = g.2)
    let joined := db.settlements.filter (fun s => s.ExternalReference = g.1.String)
    { id := g.1.String, expected := g.2,
      actual := (members.length : Int) * (joined.map (fun s => s.Amount)).sum })

/-- Inputs of one `runReconcile` call that the program does not control. -/
structure ReconEnv where
  /-- Error of `db.QueryContext`. -/
  queryFault : Option String
  /-- The number of rows after which `rows.Next()` returns false because of an error
  (`none` = all rows are delivered). -/
  iterFault : Option Nat
  /-- Inputs of the processing of the row at each position. -/
  rowEnv : Nat → RowEnv

/-- The rows the result set delivers to the loop of `runReconcile`: those of the query,
up to the point where `rows.Next()` stops, each with the inputs of its
processing. -/
def deliveredRows (env : ReconEnv) (st : ReconState) : List (ReconRow × RowEnv) :=
  let rows := reconcileQuery st.db
  let delivered := match env.iterFault with
    | some k => rows.take k
    | none => rows
  delivered.enum.map (fun (ir : Nat × ReconRow) => (ir.2, env.rowEnv ir.1))

/-- The function `runReconcile`.  It does not look at `rows.Err()` after the loop. -/
def runReconcile (ac : AlertClient) (env : ReconEnv) (st : ReconState) :
    ReconState × Option Error :=
  match env.queryFault with
  | some e => (st, some (.lib e))
  | none => reconcileRows ac (deliveredRows env st) st

/-- The reconciliation record expected for a mismatching row: entity type
transactions, status mismatch, notes "automated-check", the expected and
actual amounts of the row. -/
def expectedRecord (r : ReconRow × RowEnv) : ReconciliationLog :=
  { id := r.2.newID, entity_type := "transactions", entity_id := r.1.id,
    expected_amount := r.1.expected, actual_amount := r.1.actual, status := "mismatch",
    notes := "automated-check", created_at := r.2.dbNow }

/-- The alert expected for a mismatching row: severity warning, details the
transaction id, the expected and actual amounts and their `int64` difference. -/
def expectedAlertCall (r : ReconRow × RowEnv) : AlertCall :=
  { service := "reconcile-job", severity := "warning",
    message := "Transaction amount mismatch detected",
    details := some [("transaction_id", .str r.1.id),
                     ("expected_amount", .num r.1.expected),
                     ("actual_amount", .num r.1.actual),
                     ("difference", .num (wrapInt64 (r.1.expected - r.1.actual)))] }

/-- The alert posted to the webhook for an expected call. -/
def expectedAlert (r : ReconRow × RowEnv) : Alert :=
  { Service := (expectedAlertCall r).service, Severity := (expectedAlertCall r).severity,
    Message := (expectedAlertCall r).message, Details := (expectedAlertCall r).details,
    Timestamp := r.2.alert.now }

/-! ## Paging (`List` of `transaction_repo.go` and `settlement_repo.go`) -/

/-- Inputs of one `List` call that the program does not control. -/
structure ListEnv where
  /-- Error of `db.QueryContext`. -/
  queryFault : Option String
  /-- Error of `rows.Scan` on the row at each position. -/
  scanFault : Nat → Option String
  /-- The number of rows after which `rows.Next()` returns false because of an error,
  and that error, which `rows.Err()` then reports (`none` = all rows are delivered). -/
  iterFault : Option (Nat × String)

/-- The loop `for rows.Next() { ... rows.Scan ... append }` from position `i` on: the
rows scanned, or the first scan error. -/
def scanRows {α : Type} (scanFault : Nat → Option String) : List α → Nat → Except Error (List α)
  | [], _ => .ok []
  | r :: rest, i =>
    match scanFault i with
    | some e => .error (.lib e)
    | none =>
      match scanRows scanFault rest (i + 1) with
      | .error err => .error err
      | .ok rs => .ok (r :: rs)

/-- What `List` returns for the rows its query selects: `(nil, err)` on a scan error or
on an error reported by `rows.Err()`, the rows otherwise. -/
def collectRows {α : Type} (env : ListEnv) (selected : List α) : List α × Option Error :=
  let delivered := match env.iterFault with
    | some (k, _) => selected.take k
    | none => selected
  match scanRows env.scanFault delivered 0 with
  | .error err => ([], some err)
  | .ok rs =>
    match env.iterFault with
    | some (_, e) => ([], some (.lib e))
    | none => (rs, none)

/-- The rows selected by `ORDER BY created_at DESC LIMIT limit OFFSET offset`; rows with
equal `created_at` keep their table order. -/
def selectPage {α : Type} (createdAt : α → Time) (table : List α) (limit offset : Int) :
    List α :=
  ((table.insertionSort (fun a b => createdAt b ≤ createdAt a)).drop offset.toNat).take
    limit.toNat

/-- The method `PostgresTransactionRepository.List`. -/
def PostgresTransactionRepository.List (limit offset : Int) (env : ListEnv) (db : DB) :
    DB × List Transaction × Option Error :=
  let limit := if limit ≤ 0 then 10 else limit
  let limit := if limit > 100 then 100 else limit
  let offset := if offset < 0 then 0 else offset
  let db1 := db.logged (.listTransactions limit offset)
  match env.queryFault with
  | some e => (db1, [], some (.lib e))
  | none =>
    (db1, collectRows env (selectPage (fun t => t.CreatedAt) db1.transactions limit offset))

/-- The method `PostgresSettlementRepository.List`. -/
def PostgresSettlementRepository.List (limit offset : Int) (env : ListEnv) (db : DB) :
    DB × List Settlements × Option Error :=
  let limit := if limit ≤ 0 then 10 else limit
  let limit := if limit > 100 then 100 else limit
  let offset := if offset < 0 then 0 else offset
  let db1 := db.logged (.listSettlements limit offset)
  match env.queryFault with
  | some e => (db1, [], some (.lib e))
  | none =>
    (db1, collectRows env (selectPage (fun s => s.CreatedAt) db1.settlements limit offset))

/-! ## In-memory bus (`internal/bus/memory.go`) -/

/-- The struct `memoryBus` over handlers of type `H`; a topic without entry in the map
`subs` has no handler. -/
structure memoryBus (H : Type) where
  subs : String → List H
  closed : Bool

/-- The function `NewInMemoryBus`. -/
def NewInMemoryBus {H : Type} : memoryBus H :=
  { subs := fun _ => [], closed := false }

/-- The method `memoryBus.Publish`: the handlers for which a goroutine is started, each
to be called with the topic, key and payload, and the error returned (always
nil). -/
def memoryBus.Publish {H : Type} (m : memoryBus H) (topic : String) (_key : String)
    (_payload : Bytes) : List H × Option Error :=
  let handlers := m.subs topic
  if handlers.length = 0 then ([], none)
  else (handlers, none)

/-- The method `memoryBus.Subscribe`; the error is `errors.New("bus closed")`. -/
def memoryBus.Subscribe {H : Type} (m : memoryBus H) (topic : String) (handler : H) :
    memoryBus H × Option Error :=
  if m.closed then (m, some (.errorf "bus closed"))
  else
    ({ m with subs := fun t => if t = topic then m.subs topic ++ [handler] else m.subs t },
     none)

/-- The method `memoryBus.Close`. -/
def memoryBus.Close {H : Type} (m : memoryBus H) : memoryBus H × Option Error :=
  ({ m with closed := true, subs := fun _ => [] }, none)

/-- The bus after a sequence of `Subscribe` calls, errors dropped. -/
def memoryBus.subscribeAll {H : Type} (m : memoryBus H) : List (String × H) → memoryBus H
  | [] => m
  | (topic, handler) :: rest => memoryBus.subscribeAll (m.Subscribe topic handler).1 rest

/-! ## Sequences of account and settlement calls -/

/-- At most one merchant account per owner. -/
def oneMerchantAccountPerOwner (db : DB) : Prop :=
  ∀ owner : UUID,
    (db.accounts.filter (fun r => r.owner_id = owner ∧
      r.account_type = AccountTypeMerchant)).length ≤ 1

/-- The database after a sequence of `GetOrCreateMerchantAccount` calls, each with its
owner, currency and inputs. -/
def getOrCreateMany : List (UUID × String × AccountEnv) → DB → DB
  | [], db => db
  | (owner, currency, env) :: rest, db =>
    getOrCreateMany rest
      (PostgresAccountRepository.GetOrCreateMerchantAccount owner currency env db).1

/-- The world after a sequence of `ProcessSettlement` calls for the same payload, one
for each of the given inputs. -/
def settleAll (rt : Runtime) (s : SettlementService) (ctx : Context) (payload : Bytes) :
    List SettleEnv → World → World
  | [], w => w
  | env :: rest, w => settleAll rt s ctx payload rest (s.ProcessSettlement rt ctx payload env w).1

/-- Whether a settlement environment has no store fault. -/
def SettleEnv.noStoreFault (env : SettleEnv) : Prop :=
  env.fetchFault = none ∧ env.account.lookupFault = none ∧ env.account.insertFault = none ∧
    env.insertFault = none ∧ env.updateFault = none

/-! ## Sequences of service calls -/

/-- One call of a service of the pipeline, with the inputs it gets. -/
inductive Step where
  | create (s : TransactionService) (input : CreateTransactionDTO) (env : CreateEnv)
  | route (s : RoutingService) (key : String) (env : RouteEnv)
  | settle (s : SettlementService) (ctx : Context) (payload : Bytes) (env : SettleEnv)

/-- The world after a step. -/
def Step.run (rt : Runtime) (uuid : UuidLib) : Step → World → World
  | .create s input env, w => (s.CreateTransaction rt input env w).1
  | .route s key env, w => (s.ProcessTransaction rt uuid key env w).1
  | .settle s ctx payload env, w => (s.ProcessSettlement rt ctx payload env w).1

/-- The world after a sequence of steps, first step first. -/
def runSteps (rt : Runtime) (uuid : UuidLib) : List Step → World → World
  | [], w => w
  | st :: rest, w => runSteps rt uuid rest (st.run rt uuid w)

/-- The worlds reachable from a world with empty stores by steps of the pipeline. -/
inductive Reachable (rt : Runtime) (uuid : UuidLib) : World → Prop where
  | init (bus : List Publication) (deadLetters : List Message) :
      Reachable rt uuid
        { db := { transactions := [], settlements := [], accounts := [], log := [] },
          bus := bus, deadLetters := deadLetters }
  | step (st : Step) (w : World) : Reachable rt uuid w → Reachable rt uuid (st.run rt uuid w)

/-- Every transaction in a terminal status has a settlement row that refers to it. -/
def terminalHaveSettlement (w : World) : Prop :=
  ∀ t ∈ w.db.transactions, t.Status = "completed" ∨ t.Status = "failed" →
    ∃ s ∈ w.db.settlements, s.ExternalReference = t.ID.String

/-- Every settlement row refers to a transaction in the store. -/
def settlementsReferToTransactions (w : World) : Prop :=
  ∀ r ∈ w.db.settlements, ∃ t ∈ w.db.transactions, r.ExternalReference = t.ID.String

/-! ## Sample values for the worked instances -/

/-- A runtime for the worked instances: payload `"p1"` decodes to transaction 1. -/
def sampleRuntime : Runtime :=
  { unicodeToUpper := fun c => c,
    Marshal := fun _ => "doc",
    UnmarshalSettlementPayload := fun b =>
      if b = "p1" then .ok { TransactionID := ⟨1⟩, Routing := none, RequestedAt := 0 }
      else .error "unexpected end of JSON input" }

/-- The empty world. -/
def emptyWorld : World :=
  { db := { transactions := [], settlements := [], accounts := [], log := [] },
    bus := [], deadLetters := [] }

/-- An environment in which nothing fails. -/
def sampleCreateEnv : CreateEnv :=
  { newID := ⟨1⟩, createdAt := 10, updatedAt := 10, insertFault := none, publishFault := none }

/-- A create request with the given amount and currency. -/
def sampleInput (amount : Int) (currency : String) : CreateTransactionDTO :=
  { Amount := amount, Currency := currency, UserID := ⟨7⟩, MerchantID := ⟨8⟩, Metadata := none }

/-- An environment of `ProcessSettlement` in which nothing fails. -/
def sampleSettleEnv : SettleEnv :=
  { dlqPublishFault := none, fetchFault := none,
    account := { lookupFault := none, newID := ⟨20⟩, dbNow := 11, insertFault := none },
    settlementID := ⟨30⟩, createdAt := 12, updatedAt := 12, insertFault := none,
    dbNow := 13, updateFault := none, eventAt := 14, publishFault := none }

/-- A processing transaction with id 1 and amount 1500. -/
def sampleTransaction : Transaction :=
  { ID := ⟨1⟩, Amount := 1500, Currency := "NGN", UserID := ⟨7⟩, MerchantID := ⟨8⟩,
    Status := "processing", Metadata := some [], CreatedAt := 10, UpdatedAt := 10 }

/-- A world holding `sampleTransaction` and nothing else. -/
def sampleWorld : World :=
  { db := { transactions := [sampleTransaction], settlements := [], accounts := [], log := [] },
    bus := [], deadLetters := [] }

/-- The payload `sampleRuntime` decodes to transaction 1. -/
def samplePayload : SettlementPayload :=
  { TransactionID := ⟨1⟩, Routing := none, RequestedAt := 0 }

/-- A delivery of payload `"p1"` whose `x-death` header has count `r`. -/
def sampleDelivery (r : Int) : Delivery :=
  { Headers := some [("x-death", .list [.table [("count", .int64 r)]])],
    RoutingKey := UUID.String ⟨1⟩, Body := "p1" }

/-- An environment in which the transaction fetch fails. -/
def fetchFailsEnv : SettleEnv :=
  { sampleSettleEnv with fetchFault := some "connection refused" }

/-- An environment in which the merchant account lookup fails. -/
def accountFailsEnv : SettleEnv :=
  { sampleSettleEnv with
    account := { sampleSettleEnv.account with lookupFault := some "connection refused" } }

/-- A UUID library for the worked instances: it parses the string form of UUID 1. -/
def sampleUuidLib : UuidLib :=
  { Parse := fun s =>
      if s = UUID.String ⟨1⟩ then .ok ⟨1⟩ else .error "invalid UUID length" }

/-- An environment of `ProcessTransaction` in which nothing fails. -/
def sampleRouteEnv : RouteEnv :=
  { dbNow := 15, updateFault := none, requestedAt := 16, publishFault := none }

/-- A completed transaction with id 1 and amount 1000. -/
def completedTransaction : Transaction :=
  { ID := ⟨1⟩, Amount := 1000, Currency := "NGN", UserID := ⟨7⟩, MerchantID := ⟨8⟩,
    Status := "completed", Metadata := some [], CreatedAt := 10, UpdatedAt := 13 }

/-- A settlement row for transaction 1 with amount 1000. -/
def sampleSettlement : Settlements :=
  { ID := ⟨30⟩, MerchantAccountID := ⟨20⟩, ExternalReference := UUID.String ⟨1⟩,
    Status := "pending", Amount := 1000, Metadata := none, Attempts := 1, CreatedAt := 12,
    UpdatedAt := 12 }

/-- A world holding `completedTransaction` and a settlement row for it. -/
def completedWorld : World :=
  { db := { transactions := [completedTransaction], settlements := [sampleSettlement],
            accounts := [], log := [] },
    bus := [], deadLetters := [] }

/-- The life of one transaction: created, routed, settled. -/
def sampleLife : List Step :=
  [.create ⟨true⟩ (sampleInput 1500 "NGN") sampleCreateEnv,
   .route ⟨true⟩ (UUID.String ⟨1⟩) sampleRouteEnv,
   .settle ⟨true⟩ Context.Background "p1" sampleSettleEnv]

/-- An alert client with no webhook configured. -/
def silentAlertClient : AlertClient := { webhookURL := "" }

/-- An alert client with a webhook configured. -/
def sampleAlertClient : AlertClient := { webhookURL := "http://alerts.local/webhook" }

/-- Inputs of an alert that is delivered. -/
def sampleAlertEnv : AlertEnv :=
  { now := 50, requestFault := none, doFault := none, statusCode := 200, body := "ok" }

/-- Inputs of the processing of a row in which nothing fails. -/
def sampleRowEnv : RowEnv :=
  { scanFault := none, newID := ⟨40⟩, dbNow := 51, insertFault := none,
    alert := sampleAlertEnv }

/-- Inputs of the processing of a row whose insert fails. -/
def insertFailsRowEnv : RowEnv :=
  { sampleRowEnv with insertFault := some "connection refused" }

/-- A reconciliation state over a world with a completed transaction of amount 1000
and no settlement. -/
def sampleReconState : ReconState :=
  { db := { transactions := [completedTransaction], settlements := [], accounts := [],
            log := [] },
    reconciliation_logs := [], alerts := { calls := [], posts := [] } }

/-- The row of scenario S4: expected 1000, actual 0. -/
def sampleReconRow : ReconRow := { id := UUID.String ⟨1⟩, expected := 1000, actual := 0 }

/-- The effective limit as the paging rule states it: the limit itself when it lies in
1..100, the default 10 when it is zero or negative, 100 when it is above 100. -/
def statedLimit (limit : Int) : Int :=
  if limit ≤ 0 then 10 else if 100 < limit then 100 else limit

/-- An environment of `List` in which nothing fails. -/
def sampleListEnv : ListEnv :=
  { queryFault := none, scanFault := fun _ => none, iterFault := none }

/-- A merchant account of owner 8 held in US dollars. -/
def dollarAccountRow : AccountRow :=
  { id := ⟨21⟩, owner_id := ⟨8⟩, owner_type := "merchant", account_type := "merchant",
    currency := "USD", created_at := 5, updated_at := 5 }

/-- A database holding `dollarAccountRow` and nothing else. -/
def dollarAccountDB : DB :=
  { transactions := [], settlements := [], accounts := [dollarAccountRow], log := [] }

/-- Inputs of an account call whose insert hits the unique key. -/
def collidingAccountEnv : AccountEnv :=
  { lookupFault := none, newID := ⟨22⟩, dbNow := 11,
    insertFault := some "duplicate key value violates unique constraint" }

/-- A second environment of `ProcessSettlement` in which nothing fails, for a
redelivery of the same message. -/
def redeliveredSettleEnv : SettleEnv :=
  { sampleSettleEnv with settlementID := ⟨31⟩, createdAt := 22, updatedAt := 22, dbNow := 23,
                         eventAt := 24 }

/-- Inputs of a `runReconcile` call in which nothing fails. -/
def sampleReconEnv : ReconEnv :=
  { queryFault := none, iterFault := none, rowEnv := fun _ => sampleRowEnv }

/-- Inputs of a `runReconcile` call whose result set fails before its first row:
`rows.Next()` returns false at once and `rows.Err()` holds the error. -/
def brokenIterationReconEnv : ReconEnv :=
  { sampleReconEnv with iterFault := some 0 }

/-- Inputs of a `List` call whose result set fails before its first row. -/
def brokenIterationListEnv : ListEnv :=
  { queryFault := none, scanFault := fun _ => none, iterFault := some (0, "connection reset") }

/-- The letter-casings of "NGN". -/
def casingsOfNGN : List String :=
  ["NGN", "NGn", "NgN", "Ngn", "nGN", "nGn", "ngN", "ngn"]

/-! ## Theorems -/

/-! ### The database log -/

@[simp]
theorem DB.logged_log (db : DB) (c : DbCall) : (db.logged c).log = db.log ++ [c] := rfl

@[simp]
theorem DB.logged_transactions (db : DB) (c : DbCall) :
    (db.logged c).transactions = db.transactions := rfl

@[simp]
theorem DB.logged_settlements (db : DB) (c : DbCall) :
    (db.logged c).settlements = db.settlements := rfl

@[simp]
theorem DB.logged_accounts (db : DB) (c : DbCall) : (db.logged c).accounts = db.accounts := rfl

/-! ### Transaction service -/

theorem ToUpper_of_casing (rt : Runtime) (c : String) (h : c ∈ casingsOfNGN) :
    ToUpper rt c = "NGN" := by
  simp only [casingsOfNGN, List.mem_cons, List.mem_singleton, List.not_mem_nil, or_false] at h
  rcases h with h | h | h | h | h | h | h | h <;> subst h <;> rfl

/-- C1: a create request whose amount is zero or negative fails with
`ErrInvalidAmount` and the nil id, and leaves the world as it was: no row, no
statement sent to the store, no event. -/
theorem C1_invalid_amount (rt : Runtime) (s : TransactionService)
    (input : CreateTransactionDTO) (env : CreateEnv) (w : World)
    (h : input.Amount ≤ 0) :
    s.CreateTransaction rt input env w = (w, UUID.Nil, some .ErrInvalidAmount) := by
  simp [TransactionService.CreateTransaction, h]

theorem C1_invalid_amount_witness :
    (sampleInput (-1) "NGN").Amount ≤ 0 ∧
    TransactionService.CreateTransaction sampleRuntime ⟨true⟩ (sampleInput (-1) "NGN")
        sampleCreateEnv emptyWorld
      = (emptyWorld, UUID.Nil, some .ErrInvalidAmount) :=
  ⟨by decide, C1_invalid_amount sampleRuntime ⟨true⟩ (sampleInput (-1) "NGN") sampleCreateEnv
    emptyWorld (by decide)⟩

/-- C2: for a positive amount, a create request fails with `ErrInvalidCurrency`
exactly when its upper-cased currency is not "NGN", and then the world is left
as it was: no row, no event. -/
theorem C2_invalid_currency (rt : Runtime) (s : TransactionService)
    (input : CreateTransactionDTO) (env : CreateEnv) (w : World)
    (h : 0 < input.Amount) :
    ((s.CreateTransaction rt input env w).2.2 = some .ErrInvalidCurrency ↔
        ToUpper rt input.Currency ≠ "NGN") ∧
    (ToUpper rt input.Currency ≠ "NGN" →
        s.CreateTransaction rt input env w = (w, UUID.Nil, some .ErrInvalidCurrency)) := by
  have hna : ¬ input.Amount ≤ 0 := not_le.mpr h
  by_cases hc : ToUpper rt input.Currency = "NGN"
  · refine ⟨?_, fun hne => absurd hc hne⟩
    simp only [TransactionService.CreateTransaction, hna, if_false, allowedCurrencies, hc,
      PostgresTransactionRepository.CreateTransaction]
    cases env.insertFault <;> simp
  · simp [TransactionService.CreateTransaction, hna, allowedCurrencies, hc]

theorem C2_invalid_currency_witness :
    0 < (sampleInput 100 "USD").Amount ∧
    TransactionService.CreateTransaction sampleRuntime ⟨true⟩ (sampleInput 100 "USD")
        sampleCreateEnv emptyWorld
      = (emptyWorld, UUID.Nil, some .ErrInvalidCurrency) :=
  ⟨by decide, (C2_invalid_currency sampleRuntime ⟨true⟩ (sampleInput 100 "USD") sampleCreateEnv
    emptyWorld (by decide)).2 (by decide)⟩

/-- C3: a create request with a positive amount whose currency is a letter-casing
of "NGN" passes validation: the transaction it builds has currency "NGN", that
transaction is what is sent to the store, and when the store accepts it the
call succeeds, the stored row is that transaction and (with a bus) the event
carries its JSON encoding. -/
theorem C3_currency_normalised (rt : Runtime) (s : TransactionService)
    (input : CreateTransactionDTO) (env : CreateEnv) (w : World)
    (hamt : 0 < input.Amount) (hcur : input.Currency ∈ casingsOfNGN) :
    (TransactionService.newTransaction rt input env).Currency = "NGN" ∧
    (s.CreateTransaction rt input env w).1.db.log =
      w.db.log ++ [.insertTransaction (TransactionService.newTransaction rt input env)] ∧
    (env.insertFault = none →
      (s.CreateTransaction rt input env w).2 = (env.newID, none) ∧
      (s.CreateTransaction rt input env w).1.db.transactions =
        w.db.transactions ++ [TransactionService.newTransaction rt input env] ∧
      (s.bus = true →
        (s.CreateTransaction rt input env w).1.bus =
          w.bus ++ [⟨⟨"transaction.created", env.newID.String,
            rt.Marshal (TransactionService.newTransaction rt input env).toJson⟩,
            libErr env.publishFault⟩] ∧
        (TransactionService.newTransaction rt input env).toJson.get "currency" =
          some (.str "NGN"))) := by
  have hna : ¬ input.Amount ≤ 0 := not_le.mpr hamt
  have hc := ToUpper_of_casing rt input.Currency hcur
  refine ⟨by simp [TransactionService.newTransaction, hc], ?_, ?_⟩
  · simp only [TransactionService.CreateTransaction, hna, if_false, allowedCurrencies, hc,
      PostgresTransactionRepository.CreateTransaction]
    cases env.insertFault <;> cases hb : s.bus <;> simp [Publish]
  · intro hf
    simp only [TransactionService.CreateTransaction, hna, if_false, allowedCurrencies, hc,
      PostgresTransactionRepository.CreateTransaction, hf]
    refine ⟨by simp [TransactionService.newTransaction], ?_, ?_⟩
    · cases hb : s.bus <;> simp [Publish, TransactionService.newTransaction]
    · intro hb
      refine ⟨by simp [hb, Publish, TransactionService.newTransaction], ?_⟩
      simp [Transaction.toJson, Json.get, TransactionService.newTransaction, hc, List.find?]

theorem C3_currency_normalised_witness :
    0 < (sampleInput 1500 "ngn").Amount ∧ (sampleInput 1500 "ngn").Currency ∈ casingsOfNGN ∧
    (TransactionService.newTransaction sampleRuntime (sampleInput 1500 "ngn")
      sampleCreateEnv).Currency = "NGN" :=
  ⟨by decide, by decide,
   (C3_currency_normalised sampleRuntime ⟨true⟩ (sampleInput 1500 "ngn") sampleCreateEnv
     emptyWorld (by decide) (by decide)).1⟩

/-- C4: for a valid request (positive amount, currency a casing of "NGN") and a
store that accepts the insert, `CreateTransaction` returns the fresh id X
without error; the table of transactions gains exactly one row, which has id
X, status pending, the amount, user id and merchant id of the request, and
the metadata of the request (the empty map when it has none); with a bus,
exactly one event is published, on `transaction.created`, with routing key X
and as payload the JSON encoding of a document whose `id` field is X. -/
theorem C4_create_persists_and_publishes (rt : Runtime) (s : TransactionService)
    (input : CreateTransactionDTO) (env : CreateEnv) (w : World)
    (hamt : 0 < input.Amount) (hcur : input.Currency ∈ casingsOfNGN)
    (hstore : env.insertFault = none) :
    (s.CreateTransaction rt input env w).2 = (env.newID, none) ∧
    (s.CreateTransaction rt input env w).1.db.transactions =
      w.db.transactions ++ [TransactionService.newTransaction rt input env] ∧
    (TransactionService.newTransaction rt input env).ID = env.newID ∧
    (TransactionService.newTransaction rt input env).Status = "pending" ∧
    (TransactionService.newTransaction rt input env).Amount = input.Amount ∧
    (TransactionService.newTransaction rt input env).UserID = input.UserID ∧
    (TransactionService.newTransaction rt input env).MerchantID = input.MerchantID ∧
    (TransactionService.newTransaction rt input env).Metadata =
      some (match input.Metadata with | some m => m | none => []) ∧
    (s.bus = true →
      (s.CreateTransaction rt input env w).1.bus =
        w.bus ++ [⟨⟨"transaction.created", env.newID.String,
          rt.Marshal (TransactionService.newTransaction rt input env).toJson⟩,
          libErr env.publishFault⟩] ∧
      (TransactionService.newTransaction rt input env).toJson.get "id" =
        some (.str env.newID.String)) := by
  have hna : ¬ input.Amount ≤ 0 := not_le.mpr hamt
  have hc := ToUpper_of_casing rt input.Currency hcur
  refine ⟨?_, ?_, rfl, rfl, rfl, rfl, rfl, rfl, ?_⟩
  · simp [TransactionService.CreateTransaction, hna, allowedCurrencies, hc,
      PostgresTransactionRepository.CreateTransaction, hstore,
      TransactionService.newTransaction]
  · simp only [TransactionService.CreateTransaction, hna, if_false, allowedCurrencies, hc,
      PostgresTransactionRepository.CreateTransaction, hstore]
    cases hb : s.bus <;> simp [Publish, TransactionService.newTransaction]
  · intro hb
    refine ⟨?_, ?_⟩
    · simp [TransactionService.CreateTransaction, hna, allowedCurrencies, hc,
        PostgresTransactionRepository.CreateTransaction, hstore, hb, Publish,
        TransactionService.newTransaction]
    · simp [Transaction.toJson, Json.get, TransactionService.newTransaction]

theorem C4_create_persists_and_publishes_witness :
    0 < (sampleInput 1500 "NGN").Amount ∧ (sampleInput 1500 "NGN").Currency ∈ casingsOfNGN ∧
    sampleCreateEnv.insertFault = none ∧
    (TransactionService.CreateTransaction sampleRuntime ⟨true⟩ (sampleInput 1500 "NGN")
        sampleCreateEnv emptyWorld).2 = (sampleCreateEnv.newID, none) :=
  ⟨by decide, by decide, rfl,
   (C4_create_persists_and_publishes sampleRuntime ⟨true⟩ (sampleInput 1500 "NGN")
     sampleCreateEnv emptyWorld (by decide) (by decide) rfl).1⟩

/-! ### Stores -/

theorem GetByID_fault (id : UUID) (e : String) (db : DB) :
    PostgresTransactionRepository.GetByID id (some e) db =
      (db.logged (.selectTransaction id), none, some (.lib e)) := rfl

theorem GetByID_ok (id : UUID) (db : DB) :
    PostgresTransactionRepository.GetByID id none db =
      (db.logged (.selectTransaction id), db.transactions.find? (fun t => t.ID = id), none) := by
  cases h : db.transactions.find? (fun t => decide (t.ID = id)) <;>
    simp [PostgresTransactionRepository.GetByID, QueryRowScan, h]

theorem GetByID_db (id : UUID) (fault : Option String) (db : DB) :
    (PostgresTransactionRepository.GetByID id fault db).1 = db.logged (.selectTransaction id) := by
  cases fault
  · rw [GetByID_ok]
  · rfl

theorem GetByID_some_id (id : UUID) (fault : Option String) (db : DB) (tx : Transaction)
    (h : (PostgresTransactionRepository.GetByID id fault db).2.1 = some tx) :
    tx.ID = id ∧ tx ∈ db.transactions := by
  cases fault with
  | some e => simp [GetByID_fault] at h
  | none =>
    rw [GetByID_ok] at h
    have h1 := List.find?_some h
    exact ⟨by simpa using h1, List.mem_of_find?_eq_some h⟩

theorem UpdateStatus_fault (id : UUID) (status : String) (dbNow : Time) (e : String) (db : DB) :
    PostgresTransactionRepository.UpdateStatus id status dbNow (some e) db =
      (db.logged (.updateTransactionStatus id status), some (.lib e)) := rfl

theorem UpdateStatus_ok (id : UUID) (status : String) (dbNow : Time) (db : DB) :
    PostgresTransactionRepository.UpdateStatus id status dbNow none db =
      ({ db.logged (.updateTransactionStatus id status) with
          transactions := db.transactions.map (fun t =>
            if t.ID = id then { t with Status := status, UpdatedAt := dbNow } else t) },
       none) := rfl

theorem GetByOwnerID_fault (ownerID : UUID) (accountType : String) (e : String) (db : DB) :
    PostgresAccountRepository.GetByOwnerID ownerID accountType (some e) db =
      (db.logged (.selectAccount ownerID accountType), none, some (.lib e)) := rfl

theorem GetByOwnerID_ok (ownerID : UUID) (accountType : String) (db : DB) :
    PostgresAccountRepository.GetByOwnerID ownerID accountType none db =
      (db.logged (.selectAccount ownerID accountType),
       (db.accounts.find? (fun r => r.owner_id = ownerID ∧
          r.account_type = accountType)).map AccountRow.toAccounts, none) := by
  cases h : db.accounts.find? (fun r => decide (r.owner_id = ownerID ∧
      r.account_type = accountType)) <;>
    simp only [PostgresAccountRepository.GetByOwnerID, QueryRowScan, DB.logged_accounts, h,
      Option.map]

theorem GetOrCreate_lookup_fault (merchantID : UUID) (currency : String) (env : AccountEnv)
    (db : DB) (e : String) (h : env.lookupFault = some e) :
    PostgresAccountRepository.GetOrCreateMerchantAccount merchantID currency env db =
      (db.logged (.selectAccount merchantID AccountTypeMerchant), none, some (.lib e)) := by
  simp [PostgresAccountRepository.GetOrCreateMerchantAccount,
    PostgresAccountRepository.GetByOwnerID, QueryRowScan, h]

theorem GetOrCreate_found (merchantID : UUID) (currency : String) (env : AccountEnv)
    (db : DB) (r : AccountRow) (h : env.lookupFault = none)
    (hr : db.accounts.find? (fun r => r.owner_id = merchantID ∧
      r.account_type = AccountTypeMerchant) = some r) :
    PostgresAccountRepository.GetOrCreateMerchantAccount merchantID currency env db =
      (db.logged (.selectAccount merchantID AccountTypeMerchant), some r.toAccounts, none) := by
  simp only [PostgresAccountRepository.GetOrCreateMerchantAccount, h, GetByOwnerID_ok, hr,
    Option.map]
  simp

theorem GetOrCreate_insert_fault (merchantID : UUID) (currency : String) (env : AccountEnv)
    (db : DB) (e : String) (h : env.lookupFault = none)
    (hr : db.accounts.find? (fun r => r.owner_id = merchantID ∧
      r.account_type = AccountTypeMerchant) = none)
    (hi : env.insertFault = some e) :
    PostgresAccountRepository.GetOrCreateMerchantAccount merchantID currency env db =
      ((db.logged (.selectAccount merchantID AccountTypeMerchant)).logged
        (.insertAccount ⟨env.newID, merchantID, "merchant", AccountTypeMerchant, currency,
          env.dbNow, env.dbNow⟩), none, some (.lib e)) := by
  simp only [PostgresAccountRepository.GetOrCreateMerchantAccount, h, GetByOwnerID_ok, hr,
    Option.map, hi]
  simp

theorem GetOrCreate_inserted (merchantID : UUID) (currency : String) (env : AccountEnv)
    (db : DB) (h : env.lookupFault = none)
    (hr : db.accounts.find? (fun r => r.owner_id = merchantID ∧
      r.account_type = AccountTypeMerchant) = none)
    (hi : env.insertFault = none) :
    PostgresAccountRepository.GetOrCreateMerchantAccount merchantID currency env db =
      ({ (db.logged (.selectAccount merchantID AccountTypeMerchant)).logged
          (.insertAccount ⟨env.newID, merchantID, "merchant", AccountTypeMerchant, currency,
            env.dbNow, env.dbNow⟩) with
          accounts := db.accounts ++ [⟨env.newID, merchantID, "merchant", AccountTypeMerchant,
            currency, env.dbNow, env.dbNow⟩] },
       some ⟨env.newID, merchantID, AccountTypeMerchant, currency, env.dbNow, env.dbNow⟩,
       none) := by
  simp only [PostgresAccountRepository.GetOrCreateMerchantAccount, h, GetByOwnerID_ok, hr,
    Option.map, hi]
  simp [AccountTypeMerchant]

/-- The account store touches neither transactions nor settlements, and never
returns `(nil, nil)`. -/
theorem GetOrCreate_frame (merchantID : UUID) (currency : String) (env : AccountEnv)
    (db : DB) :
    (PostgresAccountRepository.GetOrCreateMerchantAccount merchantID currency env db).1.transactions
      = db.transactions ∧
    (PostgresAccountRepository.GetOrCreateMerchantAccount merchantID currency env db).1.settlements
      = db.settlements ∧
    (PostgresAccountRepository.GetOrCreateMerchantAccount merchantID currency env db).2 ≠
      (none, none) := by
  cases h : env.lookupFault with
  | some e => rw [GetOrCreate_lookup_fault _ _ _ _ e h]; simp
  | none =>
    cases hr : db.accounts.find? (fun r => r.owner_id = merchantID ∧
      r.account_type = AccountTypeMerchant) with
    | some r => rw [GetOrCreate_found _ _ _ _ r h hr]; simp
    | none =>
      cases hi : env.insertFault with
      | some e => rw [GetOrCreate_insert_fault _ _ _ _ e h hr hi]; simp
      | none => rw [GetOrCreate_inserted _ _ _ _ h hr hi]; simp

/-- A call of the account store that returns an error leaves the accounts as they were. -/
theorem GetOrCreate_error_accounts (merchantID : UUID) (currency : String) (env : AccountEnv)
    (db : DB)
    (hne : (PostgresAccountRepository.GetOrCreateMerchantAccount merchantID currency env
      db).2.2 ≠ none) :
    (PostgresAccountRepository.GetOrCreateMerchantAccount merchantID currency env db).1.accounts
      = db.accounts := by
  cases h : env.lookupFault with
  | some e => rw [GetOrCreate_lookup_fault _ _ _ _ e h]; simp
  | none =>
    cases hr : db.accounts.find? (fun r => r.owner_id = merchantID ∧
      r.account_type = AccountTypeMerchant) with
    | some r => rw [GetOrCreate_found _ _ _ _ r h hr]; simp
    | none =>
      cases hi : env.insertFault with
      | some e => rw [GetOrCreate_insert_fault _ _ _ _ e h hr hi]; simp
      | none =>
        rw [GetOrCreate_inserted _ _ _ _ h hr hi] at hne
        exact absurd rfl hne

/-- The statements the account store sends: the lookup, then at most one insert. -/
theorem GetOrCreate_log (merchantID : UUID) (currency : String) (env : AccountEnv) (db : DB) :
    (PostgresAccountRepository.GetOrCreateMerchantAccount merchantID currency env db).1.log =
      db.log ++ [.selectAccount merchantID AccountTypeMerchant] ∨
    ∃ row, (PostgresAccountRepository.GetOrCreateMerchantAccount merchantID currency env
      db).1.log = db.log ++ [.selectAccount merchantID AccountTypeMerchant, .insertAccount row] := by
  cases h : env.lookupFault with
  | some e => rw [GetOrCreate_lookup_fault _ _ _ _ e h]; simp
  | none =>
    cases hr : db.accounts.find? (fun r => r.owner_id = merchantID ∧
      r.account_type = AccountTypeMerchant) with
    | some r => rw [GetOrCreate_found _ _ _ _ r h hr]; simp
    | none =>
      cases hi : env.insertFault with
      | some e =>
        rw [GetOrCreate_insert_fault _ _ _ _ e h hr hi]
        exact Or.inr ⟨⟨env.newID, merchantID, "merchant", AccountTypeMerchant, currency,
          env.dbNow, env.dbNow⟩, by simp⟩
      | none =>
        rw [GetOrCreate_inserted _ _ _ _ h hr hi]
        exact Or.inr ⟨⟨env.newID, merchantID, "merchant", AccountTypeMerchant, currency,
          env.dbNow, env.dbNow⟩, by simp⟩

/-! ### Settlement service: the branches of `ProcessSettlement` -/

theorem ProcessSettlement_undecodable (rt : Runtime) (s : SettlementService) (ctx : Context)
    (payload : Bytes) (env : SettleEnv) (w : World) (e : String)
    (hbad : rt.UnmarshalSettlementPayload payload = .error e) :
    s.ProcessSettlement rt ctx payload env w =
      (w, .returned (some (.wrap "invalid settlement payload" (.lib e)))) := by
  simp only [SettlementService.ProcessSettlement, hbad]

theorem ProcessSettlement_exhausted (rt : Runtime) (s : SettlementService) (ctx : Context)
    (payload : Bytes) (sp : SettlementPayload) (env : SettleEnv) (w : World)
    (hwf : rt.UnmarshalSettlementPayload payload = .ok sp) (h : 3 ≤ retryCountOf ctx) :
    s.ProcessSettlement rt ctx payload env w =
      (if s.bus then
          (Publish "dlq.settlement.requested" sp.TransactionID.String payload
            env.dlqPublishFault w).1
        else w,
       .returned (some (.errorf "settlement failed permanently after 3 retries"))) := by
  have h3 : retryCountOf ctx ≥ maxRetries := h
  simp only [SettlementService.ProcessSettlement, hwf, h3, if_true]

theorem ProcessSettlement_fetch_failed (rt : Runtime) (s : SettlementService) (ctx : Context)
    (payload : Bytes) (sp : SettlementPayload) (env : SettleEnv) (w : World)
    (hwf : rt.UnmarshalSettlementPayload payload = .ok sp) (h : retryCountOf ctx < 3)
    (db1 : DB) (t : Option Transaction) (err : Error)
    (hG : PostgresTransactionRepository.GetByID sp.TransactionID env.fetchFault w.db =
      (db1, t, some err)) :
    s.ProcessSettlement rt ctx payload env w =
      ({ w with db := db1 }, .returned (some (.wrap "failed to fetch transaction" err))) := by
  have h3 : ¬ retryCountOf ctx ≥ maxRetries := not_le.mpr h
  simp only [SettlementService.ProcessSettlement, hwf, h3, if_false, hG]

theorem ProcessSettlement_absent (rt : Runtime) (s : SettlementService) (ctx : Context)
    (payload : Bytes) (sp : SettlementPayload) (env : SettleEnv) (w : World)
    (hwf : rt.UnmarshalSettlementPayload payload = .ok sp) (h : retryCountOf ctx < 3)
    (db1 : DB)
    (hG : PostgresTransactionRepository.GetByID sp.TransactionID env.fetchFault w.db =
      (db1, none, none)) :
    s.ProcessSettlement rt ctx payload env w = ({ w with db := db1 }, .panicked) := by
  have h3 : ¬ retryCountOf ctx ≥ maxRetries := not_le.mpr h
  simp only [SettlementService.ProcessSettlement, hwf, h3, if_false, hG]

theorem ProcessSettlement_account_failed (rt : Runtime) (s : SettlementService) (ctx : Context)
    (payload : Bytes) (sp : SettlementPayload) (env : SettleEnv) (w : World)
    (hwf : rt.UnmarshalSettlementPayload payload = .ok sp) (h : retryCountOf ctx < 3)
    (db1 : DB) (tx : Transaction)
    (hG : PostgresTransactionRepository.GetByID sp.TransactionID env.fetchFault w.db =
      (db1, some tx, none))
    (db2 : DB) (a : Option Accounts) (err : Error)
    (hA : PostgresAccountRepository.GetOrCreateMerchantAccount tx.MerchantID tx.Currency
      env.account db1 = (db2, a, some err)) :
    s.ProcessSettlement rt ctx payload env w =
      ({ w with db := db2 },
       .returned (some (.wrap "failed to get/create merchant account" err))) := by
  have h3 : ¬ retryCountOf ctx ≥ maxRetries := not_le.mpr h
  simp only [SettlementService.ProcessSettlement, hwf, h3, if_false, hG, hA]

theorem ProcessSettlement_insert_failed (rt : Runtime) (s : SettlementService) (ctx : Context)
    (payload : Bytes) (sp : SettlementPayload) (env : SettleEnv) (w : World)
    (hwf : rt.UnmarshalSettlementPayload payload = .ok sp) (h : retryCountOf ctx < 3)
    (db1 : DB) (tx : Transaction)
    (hG : PostgresTransactionRepository.GetByID sp.TransactionID env.fetchFault w.db =
      (db1, some tx, none))
    (db2 : DB) (acct : Accounts)
    (hA : PostgresAccountRepository.GetOrCreateMerchantAccount tx.MerchantID tx.Currency
      env.account db1 = (db2, some acct, none))
    (e : String) (hI : env.insertFault = some e) :
    s.ProcessSettlement rt ctx payload env w =
      ({ w with db := db2.logged (.insertSettlement (newSettlement sp tx acct env)) },
       .returned (some (.wrap "failed to create settlement attempt" (.lib e)))) := by
  have h3 : ¬ retryCountOf ctx ≥ maxRetries := not_le.mpr h
  simp only [SettlementService.ProcessSettlement, hwf, h3, if_false, hG, hA,
    PostgresSettlementRepository.CreateSettlementAttempt, hI]

theorem ProcessSettlement_inserted (rt : Runtime) (s : SettlementService) (ctx : Context)
    (payload : Bytes) (sp : SettlementPayload) (env : SettleEnv) (w : World)
    (hwf : rt.UnmarshalSettlementPayload payload = .ok sp) (h : retryCountOf ctx < 3)
    (db1 : DB) (tx : Transaction)
    (hG : PostgresTransactionRepository.GetByID sp.TransactionID env.fetchFault w.db =
      (db1, some tx, none))
    (db2 : DB) (acct : Accounts)
    (hA : PostgresAccountRepository.GetOrCreateMerchantAccount tx.MerchantID tx.Currency
      env.account db1 = (db2, some acct, none))
    (hI : env.insertFault = none) :
    s.ProcessSettlement rt ctx payload env w =
      s.finishAttempt rt tx (newSettlement sp tx acct env) env
        { w with db :=
          { db2.logged (.insertSettlement (newSettlement sp tx acct env)) with
            settlements := db2.settlements ++ [newSettlement sp tx acct env] } } := by
  have h3 : ¬ retryCountOf ctx ≥ maxRetries := not_le.mpr h
  simp only [SettlementService.ProcessSettlement, hwf, h3, if_false, hG, hA,
    PostgresSettlementRepository.CreateSettlementAttempt, hI, DB.logged_settlements]

theorem finishAttempt_update_failed (rt : Runtime) (s : SettlementService) (tx : Transaction)
    (settlement : Settlements) (env : SettleEnv) (w : World) (e : String)
    (hU : env.updateFault = some e) :
    s.finishAttempt rt tx settlement env w =
      ({ w with db := w.db.logged (.updateTransactionStatus tx.ID "completed") },
       .returned (some (.lib e))) := by
  simp only [SettlementService.finishAttempt, SettlementService.simulateSettlementProcessing,
    if_true, hU, UpdateStatus_fault]

theorem finishAttempt_updated (rt : Runtime) (s : SettlementService) (tx : Transaction)
    (settlement : Settlements) (env : SettleEnv) (w : World)
    (hU : env.updateFault = none) :
    s.finishAttempt rt tx settlement env w =
      (if s.bus then
          (Publish "settlement.completed" tx.ID.String
            (rt.Marshal (completedPayload tx settlement env.eventAt)) env.publishFault
            { w with db := (PostgresTransactionRepository.UpdateStatus tx.ID "completed"
                env.dbNow none w.db).1 }).1
        else
          { w with db := (PostgresTransactionRepository.UpdateStatus tx.ID "completed"
              env.dbNow none w.db).1 },
       .returned none) := by
  simp only [SettlementService.finishAttempt, SettlementService.simulateSettlementProcessing,
    if_true, hU, UpdateStatus_ok]

/-- Case analysis on a call of `ProcessSettlement` that decodes its payload and is
below the retry limit. -/
theorem ProcessSettlement_attempt_cases (rt : Runtime) (s : SettlementService) (ctx : Context)
    (payload : Bytes) (sp : SettlementPayload) (env : SettleEnv) (w : World)
    (P : World × Outcome → Prop)
    (hwf : rt.UnmarshalSettlementPayload payload = .ok sp) (h : retryCountOf ctx < 3)
    (hfetch : ∀ db1 t err,
      PostgresTransactionRepository.GetByID sp.TransactionID env.fetchFault w.db =
        (db1, t, some err) →
      P ({ w with db := db1 }, .returned (some (.wrap "failed to fetch transaction" err))))
    (habsent : ∀ db1,
      PostgresTransactionRepository.GetByID sp.TransactionID env.fetchFault w.db =
        (db1, none, none) →
      P ({ w with db := db1 }, .panicked))
    (hacct : ∀ db1 tx db2 a err,
      PostgresTransactionRepository.GetByID sp.TransactionID env.fetchFault w.db =
        (db1, some tx, none) →
      PostgresAccountRepository.GetOrCreateMerchantAccount tx.MerchantID tx.Currency
        env.account db1 = (db2, a, some err) →
      P ({ w with db := db2 },
         .returned (some (.wrap "failed to get/create merchant account" err))))
    (hins : ∀ db1 tx db2 acct e,
      PostgresTransactionRepository.GetByID sp.TransactionID env.fetchFault w.db =
        (db1, some tx, none) →
      PostgresAccountRepository.GetOrCreateMerchantAccount tx.MerchantID tx.Currency
        env.account db1 = (db2, some acct, none) →
      env.insertFault = some e →
      P ({ w with db := db2.logged (.insertSettlement (newSettlement sp tx acct env)) },
         .returned (some (.wrap "failed to create settlement attempt" (.lib e)))))
    (hfin : ∀ db1 tx db2 acct,
      PostgresTransactionRepository.GetByID sp.TransactionID env.fetchFault w.db =
        (db1, some tx, none) →
      PostgresAccountRepository.GetOrCreateMerchantAccount tx.MerchantID tx.Currency
        env.account db1 = (db2, some acct, none) →
      env.insertFault = none →
      P (s.finishAttempt rt tx (newSettlement sp tx acct env) env
          { w with db :=
            { db2.logged (.insertSettlement (newSettlement sp tx acct env)) with
              settlements := db2.settlements ++ [newSettlement sp tx acct env] } })) :
    P (s.ProcessSettlement rt ctx payload env w) := by
  rcases hG : PostgresTransactionRepository.GetByID sp.TransactionID env.fetchFault w.db with
    ⟨db1, t, ferr⟩
  cases ferr with
  | some err =>
    rw [ProcessSettlement_fetch_failed rt s ctx payload sp env w hwf h db1 t err hG]
    exact hfetch db1 t err hG
  | none =>
    cases t with
    | none =>
      rw [ProcessSettlement_absent rt s ctx payload sp env w hwf h db1 hG]
      exact habsent db1 hG
    | some tx =>
      rcases hA : PostgresAccountRepository.GetOrCreateMerchantAccount tx.MerchantID
        tx.Currency env.account db1 with ⟨db2, a, aerr⟩
      cases aerr with
      | some err =>
        rw [ProcessSettlement_account_failed rt s ctx payload sp env w hwf h db1 tx hG db2 a err
          hA]
        exact hacct db1 tx db2 a err hG hA
      | none =>
        cases a with
        | none =>
          have hf := (GetOrCreate_frame tx.MerchantID tx.Currency env.account db1).2.2
          rw [hA] at hf
          exact absurd rfl hf
        | some acct =>
          cases hI : env.insertFault with
          | some e =>
            rw [ProcessSettlement_insert_failed rt s ctx payload sp env w hwf h db1 tx hG db2
              acct hA e hI]
            exact hins db1 tx db2 acct e hG hA hI
          | none =>
            rw [ProcessSettlement_inserted rt s ctx payload sp env w hwf h db1 tx hG db2 acct
              hA hI]
            exact hfin db1 tx db2 acct hG hA hI

/-- The status update and outcome event leave the calls of `Publish` on every topic
other than `settlement.completed` as they were. -/
theorem finishAttempt_publishedOn (rt : Runtime) (s : SettlementService) (tx : Transaction)
    (settlement : Settlements) (env : SettleEnv) (w : World) (topic : String)
    (ht : topic ≠ "settlement.completed") :
    (s.finishAttempt rt tx settlement env w).1.publishedOn topic = w.publishedOn topic := by
  cases hU : env.updateFault with
  | some e => rw [finishAttempt_update_failed rt s tx settlement env w e hU]; rfl
  | none =>
    rw [finishAttempt_updated rt s tx settlement env w hU]
    cases s.bus
    · rfl
    · simp [World.publishedOn, Publish, List.filter_append, Ne.symm ht]

/-- Below the retry limit `ProcessSettlement` makes no publish on a topic other than
`settlement.completed`. -/
theorem ProcessSettlement_publishedOn_of_lt (rt : Runtime) (s : SettlementService)
    (ctx : Context) (payload : Bytes) (env : SettleEnv) (w : World) (topic : String)
    (h : retryCountOf ctx < 3) (ht : topic ≠ "settlement.completed") :
    (s.ProcessSettlement rt ctx payload env w).1.publishedOn topic = w.publishedOn topic := by
  cases hd : rt.UnmarshalSettlementPayload payload with
  | error e => rw [ProcessSettlement_undecodable rt s ctx payload env w e hd]
  | ok sp =>
    apply ProcessSettlement_attempt_cases rt s ctx payload sp env w
      (fun r => r.1.publishedOn topic = w.publishedOn topic) hd h
    · intros; rfl
    · intros; rfl
    · intros; rfl
    · intros; rfl
    · intros
      rw [finishAttempt_publishedOn _ _ _ _ _ _ _ ht]
      rfl

/-- A call below the retry limit that returns an error has changed no transaction and
made no publish. -/
theorem ProcessSettlement_failure_frame (rt : Runtime) (s : SettlementService)
    (ctx : Context) (payload : Bytes) (env : SettleEnv) (w : World)
    (h : retryCountOf ctx < 3)
    (hf : (s.ProcessSettlement rt ctx payload env w).2.isFailure = true) :
    (s.ProcessSettlement rt ctx payload env w).1.db.transactions = w.db.transactions ∧
    (s.ProcessSettlement rt ctx payload env w).1.bus = w.bus ∧
    (s.ProcessSettlement rt ctx payload env w).1.deadLetters = w.deadLetters := by
  cases hd : rt.UnmarshalSettlementPayload payload with
  | error e => rw [ProcessSettlement_undecodable rt s ctx payload env w e hd]; simp
  | ok sp =>
    revert hf
    apply ProcessSettlement_attempt_cases rt s ctx payload sp env w
      (fun r => r.2.isFailure = true → r.1.db.transactions = w.db.transactions ∧
        r.1.bus = w.bus ∧ r.1.deadLetters = w.deadLetters) hd h
    · intro db1 t err hG _
      have hdb := GetByID_db sp.TransactionID env.fetchFault w.db
      rw [hG] at hdb
      simp at hdb
      simp [hdb]
    · intro db1 hG hf
      simp [Outcome.isFailure] at hf
    · intro db1 tx db2 a err hG hA _
      have hdb := GetByID_db sp.TransactionID env.fetchFault w.db
      rw [hG] at hdb
      simp at hdb
      have hfr := (GetOrCreate_frame tx.MerchantID tx.Currency env.account db1).1
      rw [hA] at hfr
      simp at hfr
      simp [hfr, hdb]
    · intro db1 tx db2 acct e hG hA _ _
      have hdb := GetByID_db sp.TransactionID env.fetchFault w.db
      rw [hG] at hdb
      simp at hdb
      have hfr := (GetOrCreate_frame tx.MerchantID tx.Currency env.account db1).1
      rw [hA] at hfr
      simp at hfr
      simp [hfr, hdb]
    · intro db1 tx db2 acct hG hA _ hf
      have hdb := GetByID_db sp.TransactionID env.fetchFault w.db
      rw [hG] at hdb
      simp at hdb
      have hfr := (GetOrCreate_frame tx.MerchantID tx.Currency env.account db1).1
      rw [hA] at hfr
      simp at hfr
      cases hU : env.updateFault with
      | some e =>
        rw [finishAttempt_update_failed rt s tx _ env _ e hU]
        simp [hfr, hdb]
      | none =>
        rw [finishAttempt_updated rt s tx _ env _ hU] at hf
        simp [Outcome.isFailure] at hf

/-- A call below the retry limit that fails in the account store has changed no table
and made no publish. -/
theorem ProcessSettlement_account_failure_frame (rt : Runtime) (s : SettlementService)
    (ctx : Context) (payload : Bytes) (env : SettleEnv) (w : World) (err : Error)
    (h : retryCountOf ctx < 3)
    (hf : (s.ProcessSettlement rt ctx payload env w).2 =
      .returned (some (.wrap "failed to get/create merchant account" err))) :
    (s.ProcessSettlement rt ctx payload env w).1.db.transactions = w.db.transactions ∧
    (s.ProcessSettlement rt ctx payload env w).1.db.settlements = w.db.settlements ∧
    (s.ProcessSettlement rt ctx payload env w).1.db.accounts = w.db.accounts ∧
    (s.ProcessSettlement rt ctx payload env w).1.bus = w.bus ∧
    (s.ProcessSettlement rt ctx payload env w).1.deadLetters = w.deadLetters := by
  cases hd : rt.UnmarshalSettlementPayload payload with
  | error e =>
    rw [ProcessSettlement_undecodable rt s ctx payload env w e hd] at hf
    simp at hf
  | ok sp =>
    revert hf
    apply ProcessSettlement_attempt_cases rt s ctx payload sp env w
      (fun r => r.2 = .returned (some (.wrap "failed to get/create merchant account" err)) →
        r.1.db.transactions = w.db.transactions ∧ r.1.db.settlements = w.db.settlements ∧
        r.1.db.accounts = w.db.accounts ∧
        r.1.bus = w.bus ∧ r.1.deadLetters = w.deadLetters) hd h
    · intro db1 t err hG hf
      simp at hf
    · intro db1 hG hf
      simp at hf
    · intro db1 tx db2 a err hG hA _
      have hdb := GetByID_db sp.TransactionID env.fetchFault w.db
      rw [hG] at hdb
      simp at hdb
      have hfr := GetOrCreate_frame tx.MerchantID tx.Currency env.account db1
      have hac := GetOrCreate_error_accounts tx.MerchantID tx.Currency env.account db1
      rw [hA] at hfr hac
      simp at hfr hac
      simp [hfr, hac, hdb]
    · intro db1 tx db2 acct e hG hA _ hf
      simp at hf
    · intro db1 tx db2 acct hG hA _ hf
      cases hU : env.updateFault with
      | some e =>
        rw [finishAttempt_update_failed rt s tx _ env _ e hU] at hf
        simp at hf
      | none =>
        rw [finishAttempt_updated rt s tx _ env _ hU] at hf
        simp at hf

/-- What a call does once the settlement row is stored and the status update succeeds. -/
theorem ProcessSettlement_completes (rt : Runtime) (s : SettlementService) (ctx : Context)
    (payload : Bytes) (sp : SettlementPayload) (env : SettleEnv) (w : World)
    (hwf : rt.UnmarshalSettlementPayload payload = .ok sp) (h : retryCountOf ctx < 3)
    (db1 : DB) (tx : Transaction)
    (hG : PostgresTransactionRepository.GetByID sp.TransactionID env.fetchFault w.db =
      (db1, some tx, none))
    (db2 : DB) (acct : Accounts)
    (hA : PostgresAccountRepository.GetOrCreateMerchantAccount tx.MerchantID tx.Currency
      env.account db1 = (db2, some acct, none))
    (hI : env.insertFault = none) (hU : env.updateFault = none) :
    (s.ProcessSettlement rt ctx payload env w).2 = .returned none ∧
    (s.ProcessSettlement rt ctx payload env w).1.db.transactions =
      w.db.transactions.map (fun t =>
        if t.ID = tx.ID then { t with Status := "completed", UpdatedAt := env.dbNow } else t) ∧
    (s.ProcessSettlement rt ctx payload env w).1.db.settlements =
      w.db.settlements ++ [newSettlement sp tx acct env] ∧
    (s.ProcessSettlement rt ctx payload env w).1.db.log =
      db2.log ++ [.insertSettlement (newSettlement sp tx acct env),
        .updateTransactionStatus tx.ID "completed"] ∧
    (s.ProcessSettlement rt ctx payload env w).1.bus =
      (if s.bus then
        w.bus ++ [⟨⟨"settlement.completed", tx.ID.String,
          rt.Marshal (completedPayload tx (newSettlement sp tx acct env) env.eventAt)⟩,
          libErr env.publishFault⟩]
       else w.bus) ∧
    (s.ProcessSettlement rt ctx payload env w).1.deadLetters = w.deadLetters := by
  have hdb := GetByID_db sp.TransactionID env.fetchFault w.db
  rw [hG] at hdb
  simp only at hdb
  have hfr := GetOrCreate_frame tx.MerchantID tx.Currency env.account db1
  rw [hA] at hfr
  simp only at hfr
  rw [ProcessSettlement_inserted rt s ctx payload sp env w hwf h db1 tx hG db2 acct hA hI,
    finishAttempt_updated rt s tx _ env _ hU, UpdateStatus_ok]
  cases s.bus <;> simp [Publish, hfr.1, hfr.2.1, hdb]

/-- The happy path: the transaction exists and no store call fails. -/
theorem ProcessSettlement_happy (rt : Runtime) (s : SettlementService) (ctx : Context)
    (payload : Bytes) (sp : SettlementPayload) (env : SettleEnv) (w : World)
    (tx : Transaction)
    (hwf : rt.UnmarshalSettlementPayload payload = .ok sp) (h : retryCountOf ctx < 3)
    (hfind : w.db.transactions.find? (fun t => t.ID = sp.TransactionID) = some tx)
    (hF : env.fetchFault = none) (hL : env.account.lookupFault = none)
    (hAI : env.account.insertFault = none) (hI : env.insertFault = none)
    (hU : env.updateFault = none) :
    ∃ acct : Accounts,
      (s.ProcessSettlement rt ctx payload env w).2 = .returned none ∧
      (s.ProcessSettlement rt ctx payload env w).1.db.transactions =
        w.db.transactions.map (fun t =>
          if t.ID = tx.ID then { t with Status := "completed", UpdatedAt := env.dbNow }
          else t) ∧
      (s.ProcessSettlement rt ctx payload env w).1.db.settlements =
        w.db.settlements ++ [newSettlement sp tx acct env] ∧
      (s.ProcessSettlement rt ctx payload env w).1.bus =
        (if s.bus then
          w.bus ++ [⟨⟨"settlement.completed", tx.ID.String,
            rt.Marshal (completedPayload tx (newSettlement sp tx acct env) env.eventAt)⟩,
            libErr env.publishFault⟩]
         else w.bus) ∧
      (s.ProcessSettlement rt ctx payload env w).1.deadLetters = w.deadLetters := by
  have hG : PostgresTransactionRepository.GetByID sp.TransactionID env.fetchFault w.db =
      (w.db.logged (.selectTransaction sp.TransactionID), some tx, none) := by
    rw [hF, GetByID_ok, hfind]
  cases hr : (w.db.logged (.selectTransaction sp.TransactionID)).accounts.find?
      (fun r => r.owner_id = tx.MerchantID ∧ r.account_type = AccountTypeMerchant) with
  | some r =>
    have hA := GetOrCreate_found tx.MerchantID tx.Currency env.account _ r hL hr
    have hc := ProcessSettlement_completes rt s ctx payload sp env w hwf h _ tx hG _ _ hA hI hU
    exact ⟨_, hc.1, hc.2.1, hc.2.2.1, hc.2.2.2.2.1, hc.2.2.2.2.2⟩
  | none =>
    have hA := GetOrCreate_inserted tx.MerchantID tx.Currency env.account _ hL hr hAI
    have hc := ProcessSettlement_completes rt s ctx payload sp env w hwf h _ tx hG _ _ hA hI hU
    exact ⟨_, hc.1, hc.2.1, hc.2.2.1, hc.2.2.2.2.1, hc.2.2.2.2.2⟩

/-! ### The dispatch loop -/

theorem retryCountOf_background : retryCountOf Context.Background = 0 := rfl

theorem retryCountOf_msgCtx (m : Delivery) : retryCountOf m.msgCtx = m.retryCount := by
  simp [retryCountOf, Delivery.msgCtx, Context.WithValue, Context.Value]

/-- The world after a delivery whose handler returns an error: below 3 the message is
requeued, from 3 on it is dead-lettered. -/
theorem deliver_of_failure {ε : Type} (topic : String) (handler : HandlerFn ε) (m : Delivery)
    (env : ε) (w : World)
    (hf : (handler m.msgCtx topic m.RoutingKey m.Body env w).2.isFailure = true) :
    RabbitMQBus.deliver topic handler m env w =
      (if m.retryCount ≥ 3 then
        { (handler m.msgCtx topic m.RoutingKey m.Body env w).1 with
          deadLetters := (handler m.msgCtx topic m.RoutingKey m.Body env w).1.deadLetters ++
            [⟨"dlq." ++ topic, m.RoutingKey, m.Body⟩] }
       else (handler m.msgCtx topic m.RoutingKey m.Body env w).1) := by
  rcases hh : handler m.msgCtx topic m.RoutingKey m.Body env w with ⟨w1, o⟩
  have hh2 : handler (Context.Background.WithValue "retry_count" (.int m.retryCount)) topic
      m.RoutingKey m.Body env w = (w1, o) := hh
  rw [hh] at hf
  cases o with
  | panicked => simp [Outcome.isFailure] at hf
  | returned e =>
    cases e with
    | none => simp [Outcome.isFailure] at hf
    | some err =>
      simp only [RabbitMQBus.deliver, RabbitMQBus.dispatch, hh2]
      by_cases h3 : m.retryCount ≥ 3 <;> simp [h3, brokerSettle]

/-- The world after a delivery whose handler returns nil: the message is acked. -/
theorem deliver_of_success {ε : Type} (topic : String) (handler : HandlerFn ε) (m : Delivery)
    (env : ε) (w : World)
    (hs : (handler m.msgCtx topic m.RoutingKey m.Body env w).2 = .returned none) :
    RabbitMQBus.deliver topic handler m env w =
      (handler m.msgCtx topic m.RoutingKey m.Body env w).1 := by
  rcases hh : handler m.msgCtx topic m.RoutingKey m.Body env w with ⟨w1, o⟩
  have hh2 : handler (Context.Background.WithValue "retry_count" (.int m.retryCount)) topic
      m.RoutingKey m.Body env w = (w1, o) := hh
  rw [hh] at hs
  simp only at hs
  subst hs
  simp only [RabbitMQBus.deliver, RabbitMQBus.dispatch, hh2, brokerSettle]

/-- The one statement the last part of an attempt sends is the status update. -/
theorem finishAttempt_log (rt : Runtime) (s : SettlementService) (tx : Transaction)
    (settlement : Settlements) (env : SettleEnv) (w : World) :
    (s.finishAttempt rt tx settlement env w).1.db.log =
      w.db.log ++ [.updateTransactionStatus tx.ID "completed"] ∧
    (s.finishAttempt rt tx settlement env w).1.db.settlements = w.db.settlements := by
  cases hU : env.updateFault with
  | some e => rw [finishAttempt_update_failed rt s tx settlement env w e hU]; simp
  | none =>
    rw [finishAttempt_updated rt s tx settlement env w hU, UpdateStatus_ok]
    cases s.bus <;> simp [Publish]

/-- A delivery to the settlement worker whose handler returns an error changes no
transaction and makes no publish; the message is dead-lettered iff its retry
count is at least 3. -/
theorem settlementWorkerDeliver_of_failure (rt : Runtime) (m : Delivery) (env : SettleEnv)
    (w : World) (hf : (settlementWorkerOutcome rt m env w).isFailure = true) :
    (settlementWorkerDeliver rt m env w).db.transactions = w.db.transactions ∧
    (settlementWorkerDeliver rt m env w).bus = w.bus ∧
    (settlementWorkerDeliver rt m env w).deadLetters =
      (if m.retryCount ≥ 3 then
        w.deadLetters ++ [⟨"dlq.settlement.requested", m.RoutingKey, m.Body⟩]
       else w.deadLetters) := by
  have hfr := ProcessSettlement_failure_frame rt workerSettlementService Context.Background
    m.Body env w (by decide) hf
  have hd := deliver_of_failure "settlement.requested"
    (settlementRequestedHandler rt workerSettlementService) m env w hf
  simp only [settlementWorkerDeliver]
  rw [hd]
  simp only [settlementRequestedHandler]
  by_cases h3 : m.retryCount ≥ 3
  · simp only [h3, if_true]
    refine ⟨hfr.1, hfr.2.1, ?_⟩
    simp only [hfr.2.2]
    rfl
  · simp only [h3, if_false]
    exact hfr

/-- A delivery below the retry limit that fails in the account store changes nothing
but the statement log. -/
theorem settlementWorkerDeliver_of_account_failure (rt : Runtime) (m : Delivery)
    (env : SettleEnv) (w : World) (err : Error) (hlt : m.retryCount < 3)
    (hf : settlementWorkerOutcome rt m env w =
      .returned (some (.wrap "failed to get/create merchant account" err))) :
    (settlementWorkerDeliver rt m env w).db.transactions = w.db.transactions ∧
    (settlementWorkerDeliver rt m env w).db.settlements = w.db.settlements ∧
    (settlementWorkerDeliver rt m env w).db.accounts = w.db.accounts ∧
    (settlementWorkerDeliver rt m env w).bus = w.bus ∧
    (settlementWorkerDeliver rt m env w).deadLetters = w.deadLetters := by
  have hfr := ProcessSettlement_account_failure_frame rt workerSettlementService
    Context.Background m.Body env w err (by decide) hf
  have hfail : (settlementWorkerOutcome rt m env w).isFailure = true := by
    rw [hf]; rfl
  have hd := deliver_of_failure "settlement.requested"
    (settlementRequestedHandler rt workerSettlementService) m env w hfail
  have h3 : ¬ m.retryCount ≥ 3 := not_le.mpr hlt
  simp only [settlementWorkerDeliver]
  rw [hd]
  simp only [h3, if_false, settlementRequestedHandler]
  exact hfr

/-! ### Settlement service -/

/-- C5: for a payload that decodes, `ProcessSettlement` takes the dead-letter
branch exactly when the retry count of its context is at least 3 (an absent
`retry_count` reads as 0).  In that branch it returns failure, sends no
statement to the database and changes no table, and (with a bus) makes exactly
one publish, of the payload as received, on `dlq.settlement.requested` with
the transaction id as routing key.  Below 3 it makes no publish on
`dlq.settlement.requested`. -/
theorem C5_dead_letter_branch (rt : Runtime) (s : SettlementService) (ctx : Context)
    (payload : Bytes) (sp : SettlementPayload) (env : SettleEnv) (w : World)
    (hwf : rt.UnmarshalSettlementPayload payload = .ok sp) :
    (ctx.Value "retry_count" = none → retryCountOf ctx = 0) ∧
    (3 ≤ retryCountOf ctx →
      (s.ProcessSettlement rt ctx payload env w).2 =
        .returned (some (.errorf "settlement failed permanently after 3 retries")) ∧
      (s.ProcessSettlement rt ctx payload env w).1.db = w.db ∧
      (s.ProcessSettlement rt ctx payload env w).1.deadLetters = w.deadLetters ∧
      (s.bus = true →
        (s.ProcessSettlement rt ctx payload env w).1.bus =
          w.bus ++ [⟨⟨"dlq.settlement.requested", sp.TransactionID.String, payload⟩,
            libErr env.dlqPublishFault⟩])) ∧
    (retryCountOf ctx < 3 →
      (s.ProcessSettlement rt ctx payload env w).1.publishedOn "dlq.settlement.requested" =
        w.publishedOn "dlq.settlement.requested") := by
  refine ⟨?_, ?_, ?_⟩
  · intro h
    simp [retryCountOf, h]
  · intro h
    rw [ProcessSettlement_exhausted rt s ctx payload sp env w hwf h]
    refine ⟨rfl, ?_, ?_, ?_⟩
    · cases s.bus <;> simp [Publish]
    · cases s.bus <;> simp [Publish]
    · intro hb
      simp [hb, Publish]
  · intro h
    exact ProcessSettlement_publishedOn_of_lt rt s ctx payload env w _ h (by decide)

theorem C5_dead_letter_branch_witness :
    sampleRuntime.UnmarshalSettlementPayload "p1" =
      .ok { TransactionID := ⟨1⟩, Routing := none, RequestedAt := 0 } ∧
    retryCountOf (Context.Background.WithValue "retry_count" (.int 3)) = 3 ∧
    (SettlementService.ProcessSettlement sampleRuntime ⟨true⟩
        (Context.Background.WithValue "retry_count" (.int 3)) "p1" sampleSettleEnv
        emptyWorld).1.bus =
      [⟨⟨"dlq.settlement.requested", UUID.String ⟨1⟩, "p1"⟩, none⟩] :=
  ⟨rfl, rfl,
   ((C5_dead_letter_branch sampleRuntime ⟨true⟩
      (Context.Background.WithValue "retry_count" (.int 3)) "p1"
      { TransactionID := ⟨1⟩, Routing := none, RequestedAt := 0 } sampleSettleEnv emptyWorld
      rfl).2.1 (by decide)).2.2.2 rfl⟩

/-- C6 (the code departs from the claim): the handler the settlement worker subscribes
calls `ProcessSettlement` with `context.Background()`, whatever context the
bus hands it, so `ProcessSettlement` reads retry count 0.  At a delivery whose
`x-death` count is 3 the bus hands over retry count 3, yet the handler takes
the normal branch: it returns nil, completes the transaction and makes no
publish on `dlq.settlement.requested`. -/
theorem C6_worker_drops_retry_count (rt : Runtime) (svc : SettlementService) (ctx : Context)
    (topic key : String) (payload : Bytes) (env : SettleEnv) (w : World) :
    settlementRequestedHandler rt svc ctx topic key payload env w =
      svc.ProcessSettlement rt Context.Background payload env w ∧
    retryCountOf Context.Background = 0 ∧
    retryCountOf (sampleDelivery 3).msgCtx = 3 ∧
    settlementWorkerOutcome sampleRuntime (sampleDelivery 3) sampleSettleEnv sampleWorld =
      .returned none ∧
    (settlementWorkerDeliver sampleRuntime (sampleDelivery 3) sampleSettleEnv
      sampleWorld).publishedOn "dlq.settlement.requested" = [] ∧
    (settlementWorkerDeliver sampleRuntime (sampleDelivery 3) sampleSettleEnv
      sampleWorld).db.transactions.map (fun t => t.Status) = ["completed"] := by
  refine ⟨rfl, rfl, rfl, ?_, ?_, ?_⟩
  · decide
  · decide
  · decide

/-- C7: in a call below the retry limit in which the fetch returns transaction `tx`
and the account store returns account `acct`, the settlement row built has
status pending, attempts 1, the amount of `tx`, the id of `tx` as a string as
external reference and the id of `acct` as merchant account.  The insert of
that row is the next statement sent after the account lookup, and the only
settlement insert.  When the store accepts it the table gains exactly that
row and the status update is the statement after it; when the insert fails
the call returns failure, no further statement is sent and no transaction is
changed. -/
theorem C7_settlement_row_before_status (rt : Runtime) (s : SettlementService) (ctx : Context)
    (payload : Bytes) (sp : SettlementPayload) (env : SettleEnv) (w : World)
    (hwf : rt.UnmarshalSettlementPayload payload = .ok sp) (hlt : retryCountOf ctx < 3)
    (db1 : DB) (tx : Transaction)
    (hG : PostgresTransactionRepository.GetByID sp.TransactionID env.fetchFault w.db =
      (db1, some tx, none))
    (db2 : DB) (acct : Accounts)
    (hA : PostgresAccountRepository.GetOrCreateMerchantAccount tx.MerchantID tx.Currency
      env.account db1 = (db2, some acct, none)) :
    ((newSettlement sp tx acct env).Status = "pending" ∧
     (newSettlement sp tx acct env).Attempts = 1 ∧
     (newSettlement sp tx acct env).Amount = tx.Amount ∧
     (newSettlement sp tx acct env).ExternalReference = tx.ID.String ∧
     (newSettlement sp tx acct env).MerchantAccountID = acct.ID) ∧
    (db2.log = w.db.log ++ [.selectTransaction sp.TransactionID,
        .selectAccount tx.MerchantID AccountTypeMerchant] ∨
     ∃ row, db2.log = w.db.log ++ [.selectTransaction sp.TransactionID,
        .selectAccount tx.MerchantID AccountTypeMerchant, .insertAccount row]) ∧
    (env.insertFault = none →
      (s.ProcessSettlement rt ctx payload env w).1.db.settlements =
        w.db.settlements ++ [newSettlement sp tx acct env] ∧
      (s.ProcessSettlement rt ctx payload env w).1.db.log =
        db2.log ++ [.insertSettlement (newSettlement sp tx acct env),
          .updateTransactionStatus tx.ID "completed"]) ∧
    (env.insertFault ≠ none →
      (s.ProcessSettlement rt ctx payload env w).2.isFailure = true ∧
      (s.ProcessSettlement rt ctx payload env w).1.db.log =
        db2.log ++ [.insertSettlement (newSettlement sp tx acct env)] ∧
      (s.ProcessSettlement rt ctx payload env w).1.db.transactions = w.db.transactions ∧
      (s.ProcessSettlement rt ctx payload env w).1.db.settlements = w.db.settlements) := by
  have hdb := GetByID_db sp.TransactionID env.fetchFault w.db
  rw [hG] at hdb
  simp only at hdb
  have hid := (GetByID_some_id sp.TransactionID env.fetchFault w.db tx (by rw [hG])).1
  have hfr := GetOrCreate_frame tx.MerchantID tx.Currency env.account db1
  have hlog := GetOrCreate_log tx.MerchantID tx.Currency env.account db1
  rw [hA] at hfr hlog
  simp only at hfr hlog
  refine ⟨⟨rfl, rfl, rfl, ?_, rfl⟩, ?_, ?_, ?_⟩
  · simp [newSettlement, hid]
  · rcases hlog with hl | ⟨row, hl⟩
    · left
      simp [hl, hdb]
    · right
      exact ⟨row, by simp [hl, hdb]⟩
  · intro hI
    rw [ProcessSettlement_inserted rt s ctx payload sp env w hwf hlt db1 tx hG db2 acct hA hI]
    have hf := finishAttempt_log rt s tx (newSettlement sp tx acct env) env
      { w with db :=
        { db2.logged (.insertSettlement (newSettlement sp tx acct env)) with
          settlements := db2.settlements ++ [newSettlement sp tx acct env] } }
    rw [hf.1, hf.2]
    simp [hfr.2.1, hdb]
  · intro hI
    cases hI' : env.insertFault with
    | none => exact absurd hI' hI
    | some e =>
      rw [ProcessSettlement_insert_failed rt s ctx payload sp env w hwf hlt db1 tx hG db2 acct
        hA e hI']
      simp [Outcome.isFailure, hfr.1, hfr.2.1, hdb]

theorem C7_settlement_row_before_status_witness :
    sampleRuntime.UnmarshalSettlementPayload "p1" = .ok samplePayload ∧
    retryCountOf Context.Background < 3 ∧
    (SettlementService.ProcessSettlement sampleRuntime ⟨true⟩ Context.Background "p1"
        sampleSettleEnv sampleWorld).1.db.settlements =
      sampleWorld.db.settlements ++
        [newSettlement samplePayload sampleTransaction
          ⟨⟨20⟩, ⟨8⟩, AccountTypeMerchant, "NGN", 11, 11⟩ sampleSettleEnv] :=
  ⟨rfl, by decide,
   ((C7_settlement_row_before_status sampleRuntime ⟨true⟩ Context.Background "p1"
      samplePayload sampleSettleEnv sampleWorld rfl (by decide)
      (sampleWorld.db.logged (.selectTransaction ⟨1⟩)) sampleTransaction rfl
      (PostgresAccountRepository.GetOrCreateMerchantAccount ⟨8⟩ "NGN" sampleSettleEnv.account
        (sampleWorld.db.logged (.selectTransaction ⟨1⟩))).1
      ⟨⟨20⟩, ⟨8⟩, AccountTypeMerchant, "NGN", 11, 11⟩ rfl).2.2.1 rfl).1⟩

/-- C8: happy path.  When transaction X exists (row `tx`), the service has a bus, the
retry count is below 3 and no store call fails, one call of
`ProcessSettlement` returns nil; afterwards every row with id X has status
completed (and the rows are otherwise the same, up to `updated_at`); the
settlements table gains exactly one row, with external reference X, the
amount of `tx` and status pending; and exactly one publish is made, on
`settlement.completed` with routing key X, whose payload encodes a document
with `transaction_id` X, `settlement_id` the id of the new row and `status`
"completed". -/
theorem C8_happy_path (rt : Runtime) (s : SettlementService) (ctx : Context)
    (payload : Bytes) (sp : SettlementPayload) (env : SettleEnv) (w : World)
    (tx : Transaction)
    (hwf : rt.UnmarshalSettlementPayload payload = .ok sp) (hlt : retryCountOf ctx < 3)
    (hfind : w.db.transactions.find? (fun t => t.ID = sp.TransactionID) = some tx)
    (hbus : s.bus = true)
    (hF : env.fetchFault = none) (hL : env.account.lookupFault = none)
    (hAI : env.account.insertFault = none) (hI : env.insertFault = none)
    (hU : env.updateFault = none) :
    ∃ acct : Accounts,
      (s.ProcessSettlement rt ctx payload env w).2 = .returned none ∧
      (s.ProcessSettlement rt ctx payload env w).1.db.transactions =
        w.db.transactions.map (fun t =>
          if t.ID = sp.TransactionID then
            { t with Status := "completed", UpdatedAt := env.dbNow }
          else t) ∧
      (∀ t ∈ (s.ProcessSettlement rt ctx payload env w).1.db.transactions,
        t.ID = sp.TransactionID → t.Status = "completed") ∧
      (∃ t ∈ (s.ProcessSettlement rt ctx payload env w).1.db.transactions,
        t.ID = sp.TransactionID ∧ t.Amount = tx.Amount) ∧
      (s.ProcessSettlement rt ctx payload env w).1.db.settlements =
        w.db.settlements ++ [newSettlement sp tx acct env] ∧
      (newSettlement sp tx acct env).ExternalReference = sp.TransactionID.String ∧
      (newSettlement sp tx acct env).Amount = tx.Amount ∧
      (newSettlement sp tx acct env).Status = "pending" ∧
      (newSettlement sp tx acct env).ID = env.settlementID ∧
      (s.ProcessSettlement rt ctx payload env w).1.bus =
        w.bus ++ [⟨⟨"settlement.completed", sp.TransactionID.String,
          rt.Marshal (completedPayload tx (newSettlement sp tx acct env) env.eventAt)⟩,
          libErr env.publishFault⟩] ∧
      (completedPayload tx (newSettlement sp tx acct env) env.eventAt).get "transaction_id" =
        some (.str sp.TransactionID.String) ∧
      (completedPayload tx (newSettlement sp tx acct env) env.eventAt).get "settlement_id" =
        some (.str env.settlementID.String) ∧
      (completedPayload tx (newSettlement sp tx acct env) env.eventAt).get "status" =
        some (.str "completed") := by
  have hid : tx.ID = sp.TransactionID := by simpa using List.find?_some hfind
  have hmem : tx ∈ w.db.transactions := List.mem_of_find?_eq_some hfind
  obtain ⟨acct, h1, h2, h3, h4, _⟩ :=
    ProcessSettlement_happy rt s ctx payload sp env w tx hwf hlt hfind hF hL hAI hI hU
  rw [hid] at h2
  refine ⟨acct, h1, h2, ?_, ?_, h3, rfl, rfl, rfl, rfl, ?_, ?_, ?_, ?_⟩
  · intro t ht hX
    rw [h2, List.mem_map] at ht
    obtain ⟨t0, _, rfl⟩ := ht
    by_cases h0 : t0.ID = sp.TransactionID
    · simp [h0]
    · simp [h0] at hX
  · refine ⟨{ tx with Status := "completed", UpdatedAt := env.dbNow }, ?_, hid, rfl⟩
    rw [h2, List.mem_map]
    exact ⟨tx, hmem, by simp [hid]⟩
  · simp [h4, hbus, hid]
  · simp [completedPayload, Json.get, hid]
  · simp [completedPayload, Json.get, newSettlement, List.find?]
  · simp [completedPayload, Json.get, List.find?]

theorem C8_happy_path_witness :
    sampleRuntime.UnmarshalSettlementPayload "p1" = .ok samplePayload ∧
    retryCountOf Context.Background < 3 ∧
    sampleWorld.db.transactions.find? (fun t => t.ID = samplePayload.TransactionID) =
      some sampleTransaction ∧
    (SettlementService.ProcessSettlement sampleRuntime ⟨true⟩ Context.Background "p1"
        sampleSettleEnv sampleWorld).2 = .returned none :=
  ⟨rfl, by decide, rfl,
   (C8_happy_path sampleRuntime ⟨true⟩ Context.Background "p1" samplePayload sampleSettleEnv
      sampleWorld sampleTransaction rfl (by decide) rfl rfl rfl rfl rfl rfl rfl).elim
     (fun _ h => h.1)⟩

/-! ### Delivery scenarios -/

/-- C9: scenario S3.  A `settlement.requested` message (routing key `key`, body
`payload`) is delivered to the settlement worker four times, with retry
counts 0, 1, 2 and 3, and the worker's handler returns an error each time.
Then the messages that reached `dlq.settlement.requested` are those that were
there before followed by exactly one more, which carries `key` and `payload`
unchanged; and the transactions table is the same as before, so a
transaction that was processing is still processing. -/
theorem C9_dlq_after_four_failures (rt : Runtime) (key : String) (payload : Bytes)
    (h0 h1 h2 h3 : Option AmqpTable) (e0 e1 e2 e3 : SettleEnv) (w : World)
    (hr0 : (Delivery.mk h0 key payload).retryCount = 0)
    (hr1 : (Delivery.mk h1 key payload).retryCount = 1)
    (hr2 : (Delivery.mk h2 key payload).retryCount = 2)
    (hr3 : (Delivery.mk h3 key payload).retryCount = 3)
    (hf0 : (settlementWorkerOutcome rt ⟨h0, key, payload⟩ e0 w).isFailure = true)
    (hf1 : (settlementWorkerOutcome rt ⟨h1, key, payload⟩ e1
      (settlementWorkerRun rt [(⟨h0, key, payload⟩, e0)] w)).isFailure = true)
    (hf2 : (settlementWorkerOutcome rt ⟨h2, key, payload⟩ e2
      (settlementWorkerRun rt [(⟨h0, key, payload⟩, e0), (⟨h1, key, payload⟩, e1)]
        w)).isFailure = true)
    (hf3 : (settlementWorkerOutcome rt ⟨h3, key, payload⟩ e3
      (settlementWorkerRun rt [(⟨h0, key, payload⟩, e0), (⟨h1, key, payload⟩, e1),
        (⟨h2, key, payload⟩, e2)] w)).isFailure = true) :
    (settlementWorkerRun rt [(⟨h0, key, payload⟩, e0), (⟨h1, key, payload⟩, e1),
        (⟨h2, key, payload⟩, e2), (⟨h3, key, payload⟩, e3)] w).arrived
        "dlq.settlement.requested" =
      w.arrived "dlq.settlement.requested" ++ [⟨"dlq.settlement.requested", key, payload⟩] ∧
    (settlementWorkerRun rt [(⟨h0, key, payload⟩, e0), (⟨h1, key, payload⟩, e1),
        (⟨h2, key, payload⟩, e2), (⟨h3, key, payload⟩, e3)] w).db.transactions =
      w.db.transactions := by
  simp only [settlementWorkerRun] at hf1 hf2 hf3 ⊢
  have a0 := settlementWorkerDeliver_of_failure rt _ e0 w hf0
  have a1 := settlementWorkerDeliver_of_failure rt _ e1 _ hf1
  have a2 := settlementWorkerDeliver_of_failure rt _ e2 _ hf2
  have a3 := settlementWorkerDeliver_of_failure rt _ e3 _ hf3
  rw [hr0] at a0
  rw [hr1] at a1
  rw [hr2] at a2
  rw [hr3] at a3
  simp only [ge_iff_le, show ¬ (3 : Int) ≤ 0 by decide, show ¬ (3 : Int) ≤ 1 by decide,
    show ¬ (3 : Int) ≤ 2 by decide, le_refl, if_true, if_false] at a0 a1 a2 a3
  refine ⟨?_, ?_⟩
  · simp only [World.arrived, a3.2.1, a3.2.2, a2.2.1, a2.2.2, a1.2.1, a1.2.2, a0.2.1, a0.2.2]
    simp [List.filter_append]
  · rw [a3.1, a2.1, a1.1, a0.1]

theorem C9_dlq_after_four_failures_witness :
    (Delivery.mk none "k" "p1").retryCount = 0 ∧
    (settlementWorkerOutcome sampleRuntime ⟨none, "k", "p1"⟩ fetchFailsEnv
      sampleWorld).isFailure = true ∧
    (settlementWorkerRun sampleRuntime
        [(⟨none, "k", "p1"⟩, fetchFailsEnv),
         (⟨(sampleDelivery 1).Headers, "k", "p1"⟩, fetchFailsEnv),
         (⟨(sampleDelivery 2).Headers, "k", "p1"⟩, fetchFailsEnv),
         (⟨(sampleDelivery 3).Headers, "k", "p1"⟩, fetchFailsEnv)]
        sampleWorld).arrived "dlq.settlement.requested" =
      sampleWorld.arrived "dlq.settlement.requested" ++
        [⟨"dlq.settlement.requested", "k", "p1"⟩] :=
  ⟨rfl, rfl,
   (C9_dlq_after_four_failures sampleRuntime "k" "p1" none (sampleDelivery 1).Headers
      (sampleDelivery 2).Headers (sampleDelivery 3).Headers fetchFailsEnv fetchFailsEnv
      fetchFailsEnv fetchFailsEnv sampleWorld rfl rfl rfl rfl rfl rfl rfl rfl).1⟩

/-- C10, as stated, fails: in scenario S2 on a world holding transaction 1, the account
lookup fails on the first two deliveries (retry counts 0 and 1) and the third
delivery (retry count 2) succeeds; afterwards the settlements table holds one
row, not three. -/
theorem C10_three_rows_counterexample :
    settlementWorkerOutcome sampleRuntime (sampleDelivery 0) accountFailsEnv sampleWorld =
      .returned (some (.wrap "failed to get/create merchant account"
        (.lib "connection refused"))) ∧
    settlementWorkerOutcome sampleRuntime (sampleDelivery 1) accountFailsEnv
        (settlementWorkerRun sampleRuntime [(sampleDelivery 0, accountFailsEnv)] sampleWorld) =
      .returned (some (.wrap "failed to get/create merchant account"
        (.lib "connection refused"))) ∧
    settlementWorkerOutcome sampleRuntime (sampleDelivery 2) sampleSettleEnv
        (settlementWorkerRun sampleRuntime
          [(sampleDelivery 0, accountFailsEnv), (sampleDelivery 1, accountFailsEnv)]
          sampleWorld) = .returned none ∧
    (settlementWorkerRun sampleRuntime
        [(sampleDelivery 0, accountFailsEnv), (sampleDelivery 1, accountFailsEnv),
         (sampleDelivery 2, sampleSettleEnv)] sampleWorld).db.settlements.length = 1 ∧
    ¬ ((settlementWorkerRun sampleRuntime
        [(sampleDelivery 0, accountFailsEnv), (sampleDelivery 1, accountFailsEnv),
         (sampleDelivery 2, sampleSettleEnv)] sampleWorld).db.settlements.length =
      sampleWorld.db.settlements.length + 3) := by
  refine ⟨?_, ?_, ?_, ?_, ?_⟩ <;> decide

/-- C10, amended: scenario S2.  Transaction X exists (row `tx`); a
`settlement.requested` message for X is delivered three times with retry
counts below 3 on the first two (any count on the third); the first two
deliveries fail in the account store and on the third no store call fails.  Then exactly one Settlement row is created in
all, by the third delivery (the failed deliveries create none); the rows with
id X end up completed, the outcome of the third attempt; and nothing reaches
`dlq.settlement.requested`, by publish or by dead-lettering. -/
theorem C10_redelivery_one_row (rt : Runtime) (key : String) (payload : Bytes)
    (h0 h1 h2 : Option AmqpTable) (e0 e1 e2 : SettleEnv) (w : World)
    (sp : SettlementPayload) (tx : Transaction) (err0 err1 : Error)
    (hwf : rt.UnmarshalSettlementPayload payload = .ok sp)
    (hfind : w.db.transactions.find? (fun t => t.ID = sp.TransactionID) = some tx)
    (hr0 : (Delivery.mk h0 key payload).retryCount < 3)
    (hr1 : (Delivery.mk h1 key payload).retryCount < 3)
    (hf0 : settlementWorkerOutcome rt ⟨h0, key, payload⟩ e0 w =
      .returned (some (.wrap "failed to get/create merchant account" err0)))
    (hf1 : settlementWorkerOutcome rt ⟨h1, key, payload⟩ e1
        (settlementWorkerRun rt [(⟨h0, key, payload⟩, e0)] w) =
      .returned (some (.wrap "failed to get/create merchant account" err1)))
    (hF : e2.fetchFault = none) (hL : e2.account.lookupFault = none)
    (hAI : e2.account.insertFault = none) (hI : e2.insertFault = none)
    (hU : e2.updateFault = none) :
    ∃ acct : Accounts,
      (settlementWorkerRun rt [(⟨h0, key, payload⟩, e0), (⟨h1, key, payload⟩, e1),
          (⟨h2, key, payload⟩, e2)] w).db.settlements =
        w.db.settlements ++ [newSettlement sp tx acct e2] ∧
      (settlementWorkerRun rt [(⟨h0, key, payload⟩, e0)] w).db.settlements =
        w.db.settlements ∧
      (settlementWorkerRun rt [(⟨h0, key, payload⟩, e0), (⟨h1, key, payload⟩, e1)]
          w).db.settlements = w.db.settlements ∧
      (settlementWorkerRun rt [(⟨h0, key, payload⟩, e0), (⟨h1, key, payload⟩, e1),
          (⟨h2, key, payload⟩, e2)] w).db.transactions =
        w.db.transactions.map (fun t =>
          if t.ID = sp.TransactionID then
            { t with Status := "completed", UpdatedAt := e2.dbNow }
          else t) ∧
      (settlementWorkerRun rt [(⟨h0, key, payload⟩, e0), (⟨h1, key, payload⟩, e1),
          (⟨h2, key, payload⟩, e2)] w).arrived "dlq.settlement.requested" =
        w.arrived "dlq.settlement.requested" ∧
      (settlementWorkerRun rt [(⟨h0, key, payload⟩, e0), (⟨h1, key, payload⟩, e1),
          (⟨h2, key, payload⟩, e2)] w).publishedOn "dlq.settlement.requested" =
        w.publishedOn "dlq.settlement.requested" := by
  simp only [settlementWorkerRun] at hf1 ⊢
  have hid : tx.ID = sp.TransactionID := by simpa using List.find?_some hfind
  have a0 := settlementWorkerDeliver_of_account_failure rt _ e0 w err0 hr0 hf0
  have a1 := settlementWorkerDeliver_of_account_failure rt _ e1 _ err1 hr1 hf1
  have hfind2 : (settlementWorkerDeliver rt ⟨h1, key, payload⟩ e1
      (settlementWorkerDeliver rt ⟨h0, key, payload⟩ e0 w)).db.transactions.find?
      (fun t => t.ID = sp.TransactionID) = some tx := by
    rw [a1.1, a0.1]; exact hfind
  obtain ⟨acct, b1, b2, b3, b4, b5⟩ :=
    ProcessSettlement_happy rt workerSettlementService Context.Background payload sp e2
      (settlementWorkerDeliver rt ⟨h1, key, payload⟩ e1
        (settlementWorkerDeliver rt ⟨h0, key, payload⟩ e0 w))
      tx hwf (by decide) hfind2 hF hL hAI hI hU
  have hd := deliver_of_success "settlement.requested"
    (settlementRequestedHandler rt workerSettlementService) ⟨h2, key, payload⟩ e2
    (settlementWorkerDeliver rt ⟨h1, key, payload⟩ e1
      (settlementWorkerDeliver rt ⟨h0, key, payload⟩ e0 w)) b1
  have hd2 : settlementWorkerDeliver rt ⟨h2, key, payload⟩ e2
      (settlementWorkerDeliver rt ⟨h1, key, payload⟩ e1
        (settlementWorkerDeliver rt ⟨h0, key, payload⟩ e0 w)) =
      (workerSettlementService.ProcessSettlement rt Context.Background payload e2
        (settlementWorkerDeliver rt ⟨h1, key, payload⟩ e1
          (settlementWorkerDeliver rt ⟨h0, key, payload⟩ e0 w))).1 := hd
  refine ⟨acct, ?_, a0.2.1, ?_, ?_, ?_, ?_⟩
  · rw [hd2, b3, a1.2.1, a0.2.1]
  · rw [a1.2.1, a0.2.1]
  · rw [hd2, b2, a1.1, a0.1, hid]
  · simp only [World.arrived]
    rw [hd2, b4, b5, a1.2.2.2.1, a1.2.2.2.2, a0.2.2.2.1, a0.2.2.2.2]
    simp [workerSettlementService, List.filter_append]
  · simp only [World.publishedOn]
    rw [hd2, b4, a1.2.2.2.1, a0.2.2.2.1]
    simp [workerSettlementService, List.filter_append]

theorem C10_redelivery_one_row_witness :
    sampleRuntime.UnmarshalSettlementPayload "p1" = .ok samplePayload ∧
    (sampleDelivery 1).retryCount < 3 ∧
    settlementWorkerOutcome sampleRuntime (sampleDelivery 0) accountFailsEnv sampleWorld =
      .returned (some (.wrap "failed to get/create merchant account"
        (.lib "connection refused"))) ∧
    (settlementWorkerRun sampleRuntime [(sampleDelivery 0, accountFailsEnv)]
      sampleWorld).db.settlements = sampleWorld.db.settlements :=
  ⟨rfl, by decide, by decide,
   (C10_redelivery_one_row sampleRuntime (UUID.String ⟨1⟩) "p1" (sampleDelivery 0).Headers
      (sampleDelivery 1).Headers (sampleDelivery 2).Headers accountFailsEnv accountFailsEnv
      sampleSettleEnv sampleWorld samplePayload sampleTransaction (.lib "connection refused")
      (.lib "connection refused") rfl rfl (by decide) (by decide) (by decide) (by decide)
      rfl rfl rfl rfl rfl).elim (fun _ h => h.2.1)⟩

/-! ### Routing service: the branches of `ProcessTransaction` -/

theorem ProcessTransaction_unparsable (rt : Runtime) (uuid : UuidLib) (s : RoutingService)
    (key : String) (env : RouteEnv) (w : World) (e : String)
    (hp : uuid.Parse (TrimSpace key) = .error e) :
    s.ProcessTransaction rt uuid key env w = (w, some (.lib e)) := by
  simp only [RoutingService.ProcessTransaction, hp]

theorem ProcessTransaction_update_failed (rt : Runtime) (uuid : UuidLib) (s : RoutingService)
    (key : String) (env : RouteEnv) (w : World) (id : UUID) (e : String)
    (hp : uuid.Parse (TrimSpace key) = .ok id) (hU : env.updateFault = some e) :
    s.ProcessTransaction rt uuid key env w =
      ({ w with db := w.db.logged (.updateTransactionStatus id "processing") },
       some (.lib e)) := by
  simp only [RoutingService.ProcessTransaction, hp, hU, UpdateStatus_fault]

theorem ProcessTransaction_updated (rt : Runtime) (uuid : UuidLib) (s : RoutingService)
    (key : String) (env : RouteEnv) (w : World) (id : UUID)
    (hp : uuid.Parse (TrimSpace key) = .ok id) (hU : env.updateFault = none) :
    s.ProcessTransaction rt uuid key env w =
      (if s.bus then
        (Publish "settlement.requested" id.String
          (rt.Marshal (settlementRequestedPayload id env.requestedAt)) env.publishFault
          { w with db := (PostgresTransactionRepository.UpdateStatus id "processing"
              env.dbNow none w.db).1 }).1
       else
        { w with db := (PostgresTransactionRepository.UpdateStatus id "processing"
            env.dbNow none w.db).1 },
       none) := by
  simp only [RoutingService.ProcessTransaction, hp, hU, UpdateStatus_ok]
  cases s.bus <;> rfl

/-- What `ProcessTransaction` does to the tables: it changes nothing, or it sets the
rows of one id to processing; it never touches the settlements. -/
theorem ProcessTransaction_tables (rt : Runtime) (uuid : UuidLib) (s : RoutingService)
    (key : String) (env : RouteEnv) (w : World) :
    ((s.ProcessTransaction rt uuid key env w).1.db.transactions = w.db.transactions ∨
     ∃ id, (s.ProcessTransaction rt uuid key env w).1.db.transactions =
       w.db.transactions.map (fun t =>
         if t.ID = id then { t with Status := "processing", UpdatedAt := env.dbNow } else t)) ∧
    (s.ProcessTransaction rt uuid key env w).1.db.settlements = w.db.settlements := by
  cases hp : uuid.Parse (TrimSpace key) with
  | error e => rw [ProcessTransaction_unparsable rt uuid s key env w e hp]; simp
  | ok id =>
    cases hU : env.updateFault with
    | some e => rw [ProcessTransaction_update_failed rt uuid s key env w id e hp hU]; simp
    | none =>
      rw [ProcessTransaction_updated rt uuid s key env w id hp hU, UpdateStatus_ok]
      refine ⟨Or.inr ⟨id, ?_⟩, ?_⟩ <;> cases s.bus <;> simp [Publish]

/-- What `CreateTransaction` does to the tables: it changes nothing, or it appends one
pending row; it never touches the settlements. -/
theorem CreateTransaction_tables (rt : Runtime) (s : TransactionService)
    (input : CreateTransactionDTO) (env : CreateEnv) (w : World) :
    ((s.CreateTransaction rt input env w).1.db.transactions = w.db.transactions ∨
     (s.CreateTransaction rt input env w).1.db.transactions =
       w.db.transactions ++ [TransactionService.newTransaction rt input env]) ∧
    (s.CreateTransaction rt input env w).1.db.settlements = w.db.settlements := by
  simp only [TransactionService.CreateTransaction,
    PostgresTransactionRepository.CreateTransaction]
  by_cases ha : input.Amount ≤ 0
  · simp [ha]
  · by_cases hc : allowedCurrencies (ToUpper rt input.Currency) = true
    · cases hf : env.insertFault <;> cases hb : s.bus <;>
        simp [ha, hc, hf, hb, Publish, TransactionService.newTransaction]
    · simp [ha, hc]

/-- What `ProcessSettlement` does to the tables: it leaves the transactions alone and
appends at most one settlement, or it appends a settlement that refers to
some id and sets the rows of that id to completed. -/
theorem ProcessSettlement_tables (rt : Runtime) (s : SettlementService) (ctx : Context)
    (payload : Bytes) (env : SettleEnv) (w : World) :
    ((s.ProcessSettlement rt ctx payload env w).1.db.transactions = w.db.transactions ∧
      ((s.ProcessSettlement rt ctx payload env w).1.db.settlements = w.db.settlements ∨
       ∃ row, (s.ProcessSettlement rt ctx payload env w).1.db.settlements =
         w.db.settlements ++ [row])) ∨
    (∃ id row, row.ExternalReference = id.String ∧
      (s.ProcessSettlement rt ctx payload env w).1.db.transactions =
        w.db.transactions.map (fun t =>
          if t.ID = id then { t with Status := "completed", UpdatedAt := env.dbNow } else t) ∧
      (s.ProcessSettlement rt ctx payload env w).1.db.settlements =
        w.db.settlements ++ [row]) := by
  cases hd : rt.UnmarshalSettlementPayload payload with
  | error e => rw [ProcessSettlement_undecodable rt s ctx payload env w e hd]; simp
  | ok sp =>
    by_cases h : retryCountOf ctx < 3
    · apply ProcessSettlement_attempt_cases rt s ctx payload sp env w
        (fun r => (r.1.db.transactions = w.db.transactions ∧
            (r.1.db.settlements = w.db.settlements ∨
             ∃ row, r.1.db.settlements = w.db.settlements ++ [row])) ∨
          (∃ (id : UUID) (row : Settlements), row.ExternalReference = id.String ∧
            r.1.db.transactions = w.db.transactions.map (fun t =>
              if t.ID = id then { t with Status := "completed", UpdatedAt := env.dbNow }
              else t) ∧
            r.1.db.settlements = w.db.settlements ++ [row])) hd h
      · intro db1 t err hG
        have hdb := GetByID_db sp.TransactionID env.fetchFault w.db
        rw [hG] at hdb
        simp only at hdb
        simp [hdb]
      · intro db1 hG
        have hdb := GetByID_db sp.TransactionID env.fetchFault w.db
        rw [hG] at hdb
        simp only at hdb
        simp [hdb]
      · intro db1 tx db2 a err hG hA
        have hdb := GetByID_db sp.TransactionID env.fetchFault w.db
        rw [hG] at hdb
        simp only at hdb
        have hfr := GetOrCreate_frame tx.MerchantID tx.Currency env.account db1
        rw [hA] at hfr
        simp only at hfr
        simp [hfr.1, hfr.2.1, hdb]
      · intro db1 tx db2 acct e hG hA _
        have hdb := GetByID_db sp.TransactionID env.fetchFault w.db
        rw [hG] at hdb
        simp only at hdb
        have hfr := GetOrCreate_frame tx.MerchantID tx.Currency env.account db1
        rw [hA] at hfr
        simp only at hfr
        simp [hfr.1, hfr.2.1, hdb]
      · intro db1 tx db2 acct hG hA hI
        have hdb := GetByID_db sp.TransactionID env.fetchFault w.db
        rw [hG] at hdb
        simp only at hdb
        have hfr := GetOrCreate_frame tx.MerchantID tx.Currency env.account db1
        rw [hA] at hfr
        simp only at hfr
        have hid := (GetByID_some_id sp.TransactionID env.fetchFault w.db tx (by rw [hG])).1
        cases hU : env.updateFault with
        | some e =>
          rw [finishAttempt_update_failed rt s tx _ env _ e hU]
          left
          simp [hfr.1, hfr.2.1, hdb]
        | none =>
          rw [finishAttempt_updated rt s tx _ env _ hU, UpdateStatus_ok]
          right
          refine ⟨tx.ID, newSettlement sp tx acct env, ?_, ?_, ?_⟩
          · simp [newSettlement, hid]
          · cases s.bus <;> simp [Publish, hfr.1, hdb]
          · cases s.bus <;> simp [Publish, hfr.2.1, hdb]
    · have h3 : 3 ≤ retryCountOf ctx := not_lt.mp h
      rw [ProcessSettlement_exhausted rt s ctx payload sp env w hd h3]
      left
      cases s.bus <;> simp [Publish]

/-- A row at position `i` stays at position `i` under a status update, with its id; its
status is kept or is the new one. -/
theorem getElem?_setStatus (l : List Transaction) (id : UUID) (status : String) (now : Time)
    (i : Nat) (t : Transaction) (h : l[i]? = some t) :
    ∃ t', (l.map (fun t =>
        if t.ID = id then { t with Status := status, UpdatedAt := now } else t))[i]? = some t' ∧
      t'.ID = t.ID ∧ t'.Amount = t.Amount ∧ t'.Currency = t.Currency ∧
      (t'.Status = t.Status ∨ t'.Status = status) ∧
      (t.ID = id → t'.Status = status) ∧ (t.ID ≠ id → t' = t) := by
  refine ⟨if t.ID = id then { t with Status := status, UpdatedAt := now } else t, ?_, ?_⟩
  · simp [List.getElem?_map, h]
  · by_cases hid : t.ID = id <;> simp [hid]

/-! ### Status transitions -/

/-- C11, as stated, fails: a transaction is created, routed and settled, which leaves it
completed; a replayed `ProcessTransaction` for its id then changes its status
from completed to processing, which is none of the three edges. -/
theorem C11_completed_reset_counterexample :
    (runSteps sampleRuntime sampleUuidLib sampleLife emptyWorld).db.transactions.map
        (fun t => (t.ID, t.Status)) = [(⟨1⟩, "completed")] ∧
    (Step.run sampleRuntime sampleUuidLib
        (.route ⟨true⟩ (UUID.String ⟨1⟩) sampleRouteEnv)
        (runSteps sampleRuntime sampleUuidLib sampleLife emptyWorld)).db.transactions.map
        (fun t => (t.ID, t.Status)) = [(⟨1⟩, "processing")] := by
  refine ⟨?_, ?_⟩ <;> decide

/-- C11, amended: every row of the transactions table keeps its place and its id under
each step, and its status changes only as follows: `CreateTransaction`
changes no existing row; `ProcessTransaction` keeps the status or sets it to
processing; `ProcessSettlement` keeps the status or sets it to completed.
The prior status is not looked at, and no step sets failed. -/
theorem C11_status_changes (rt : Runtime) (uuid : UuidLib) (w : World) (i : Nat)
    (t : Transaction) (h : w.db.transactions[i]? = some t) :
    (∀ (s : TransactionService) (input : CreateTransactionDTO) (env : CreateEnv),
      (s.CreateTransaction rt input env w).1.db.transactions[i]? = some t) ∧
    (∀ (s : RoutingService) (key : String) (env : RouteEnv),
      ∃ t', (s.ProcessTransaction rt uuid key env w).1.db.transactions[i]? = some t' ∧
        t'.ID = t.ID ∧ (t'.Status = t.Status ∨ t'.Status = "processing")) ∧
    (∀ (s : SettlementService) (ctx : Context) (payload : Bytes) (env : SettleEnv),
      ∃ t', (s.ProcessSettlement rt ctx payload env w).1.db.transactions[i]? = some t' ∧
        t'.ID = t.ID ∧ (t'.Status = t.Status ∨ t'.Status = "completed")) := by
  refine ⟨?_, ?_, ?_⟩
  · intro s input env
    rcases (CreateTransaction_tables rt s input env w).1 with h1 | h1
    · rw [h1]; exact h
    · rw [h1, List.getElem?_append_left (List.getElem?_eq_some.mp h).1]; exact h
  · intro s key env
    rcases (ProcessTransaction_tables rt uuid s key env w).1 with h1 | ⟨id, h1⟩
    · rw [h1]; exact ⟨t, h, rfl, Or.inl rfl⟩
    · rw [h1]
      obtain ⟨t', e1, e2, _, _, e3, _⟩ := getElem?_setStatus _ id "processing" env.dbNow i t h
      exact ⟨t', e1, e2, e3⟩
  · intro s ctx payload env
    rcases ProcessSettlement_tables rt s ctx payload env w with ⟨h1, _⟩ | ⟨id, row, _, h1, _⟩
    · rw [h1]; exact ⟨t, h, rfl, Or.inl rfl⟩
    · rw [h1]
      obtain ⟨t', e1, e2, _, _, e3, _⟩ := getElem?_setStatus _ id "completed" env.dbNow i t h
      exact ⟨t', e1, e2, e3⟩

theorem C11_status_changes_witness :
    sampleWorld.db.transactions[0]? = some sampleTransaction ∧
    (TransactionService.CreateTransaction sampleRuntime ⟨true⟩ (sampleInput 1500 "NGN")
      sampleCreateEnv sampleWorld).1.db.transactions[0]? = some sampleTransaction :=
  ⟨rfl, (C11_status_changes sampleRuntime sampleUuidLib sampleWorld 0 sampleTransaction rfl).1
    ⟨true⟩ (sampleInput 1500 "NGN") sampleCreateEnv⟩

/-- C12, as stated, fails: replaying `transaction.created` for the completed
transaction 1 sets its status to processing. -/
theorem C12_replay_resets_completed_counterexample :
    completedWorld.db.transactions.map (fun t => (t.ID, t.Status)) = [(⟨1⟩, "completed")] ∧
    (RoutingService.ProcessTransaction sampleRuntime sampleUuidLib ⟨true⟩ (UUID.String ⟨1⟩)
        sampleRouteEnv completedWorld).2 = none ∧
    (RoutingService.ProcessTransaction sampleRuntime sampleUuidLib ⟨true⟩ (UUID.String ⟨1⟩)
        sampleRouteEnv completedWorld).1.db.transactions.map (fun t => (t.ID, t.Status)) =
      [(⟨1⟩, "processing")] := by
  refine ⟨?_, ?_, ?_⟩ <;> decide

/-- C12, amended: when `ProcessTransaction` is called with the id of a transaction, a
row of that id whose status is processing keeps status processing; when the
status update succeeds every row of that id, whatever its status was
(completed and failed included), has status processing afterwards; when the
update fails no row changes. -/
theorem C12_replay_sets_processing (rt : Runtime) (uuid : UuidLib) (s : RoutingService)
    (key : String) (env : RouteEnv) (w : World) (id : UUID) (i : Nat) (t : Transaction)
    (hp : uuid.Parse (TrimSpace key) = .ok id)
    (h : w.db.transactions[i]? = some t) (hid : t.ID = id) :
    ∃ t', (s.ProcessTransaction rt uuid key env w).1.db.transactions[i]? = some t' ∧
      t'.ID = id ∧
      (t.Status = "processing" → t'.Status = "processing") ∧
      (env.updateFault = none → t'.Status = "processing") ∧
      (env.updateFault ≠ none → t' = t) := by
  cases hU : env.updateFault with
  | some e =>
    rw [ProcessTransaction_update_failed rt uuid s key env w id e hp hU]
    exact ⟨t, by simpa using h, hid, fun h1 => h1, fun h1 => by simp at h1, fun _ => rfl⟩
  | none =>
    rw [ProcessTransaction_updated rt uuid s key env w id hp hU, UpdateStatus_ok]
    obtain ⟨t', e1, e2, _, _, _, e3, _⟩ :=
      getElem?_setStatus w.db.transactions id "processing" env.dbNow i t h
    refine ⟨t', ?_, e2.trans hid, fun _ => e3 hid, fun _ => e3 hid, fun h1 => absurd rfl h1⟩
    cases s.bus <;> simpa [Publish] using e1

theorem C12_replay_sets_processing_witness :
    sampleUuidLib.Parse (TrimSpace (UUID.String ⟨1⟩)) = .ok ⟨1⟩ ∧
    sampleWorld.db.transactions[0]? = some sampleTransaction ∧
    sampleTransaction.ID = ⟨1⟩ ∧
    sampleTransaction.Status = "processing" ∧
    (RoutingService.ProcessTransaction sampleRuntime sampleUuidLib ⟨true⟩ (UUID.String ⟨1⟩)
        sampleRouteEnv sampleWorld).1.db.transactions.map (fun t => t.Status) =
      ["processing"] :=
  ⟨rfl, rfl, rfl, rfl,
   (C12_replay_sets_processing sampleRuntime sampleUuidLib ⟨true⟩ (UUID.String ⟨1⟩)
      sampleRouteEnv sampleWorld ⟨1⟩ 0 sampleTransaction rfl rfl rfl).elim
     (fun _ _ => by decide)⟩

/-! ### Terminal transactions have a settlement -/

theorem terminalHaveSettlement_step (rt : Runtime) (uuid : UuidLib) (st : Step) (w : World)
    (h : terminalHaveSettlement w) : terminalHaveSettlement (st.run rt uuid w) := by
  cases st with
  | create s input env =>
    intro t ht hterm
    have htab := CreateTransaction_tables rt s input env w
    simp only [Step.run] at ht ⊢
    rw [htab.2]
    rcases htab.1 with h1 | h1
    · rw [h1] at ht; exact h t ht hterm
    · rw [h1, List.mem_append, List.mem_singleton] at ht
      rcases ht with ht | ht
      · exact h t ht hterm
      · subst ht
        simp [TransactionService.newTransaction, TransactionStatusPending] at hterm
  | route s key env =>
    intro t ht hterm
    have htab := ProcessTransaction_tables rt uuid s key env w
    simp only [Step.run] at ht ⊢
    rw [htab.2]
    rcases htab.1 with h1 | ⟨id, h1⟩
    · rw [h1] at ht; exact h t ht hterm
    · rw [h1, List.mem_map] at ht
      obtain ⟨t0, ht0, rfl⟩ := ht
      by_cases hid : t0.ID = id
      · simp [hid] at hterm
      · simp only [hid, if_false] at hterm ⊢
        exact h t0 ht0 hterm
  | settle s ctx payload env =>
    intro t ht hterm
    simp only [Step.run] at ht ⊢
    rcases ProcessSettlement_tables rt s ctx payload env w with
      ⟨h1, h2⟩ | ⟨id, row, hrow, h1, h2⟩
    · rw [h1] at ht
      obtain ⟨s0, hs0, hs1⟩ := h t ht hterm
      rcases h2 with h2 | ⟨row, h2⟩
      · rw [h2]; exact ⟨s0, hs0, hs1⟩
      · rw [h2]; exact ⟨s0, List.mem_append_left _ hs0, hs1⟩
    · rw [h1, List.mem_map] at ht
      obtain ⟨t0, ht0, rfl⟩ := ht
      rw [h2]
      by_cases hid : t0.ID = id
      · refine ⟨row, by simp, ?_⟩
        simp [hid, hrow]
      · simp only [hid, if_false] at hterm ⊢
        obtain ⟨s0, hs0, hs1⟩ := h t0 ht0 hterm
        exact ⟨s0, List.mem_append_left _ hs0, hs1⟩

/-- C13: in every world reachable from empty stores by `CreateTransaction`,
`ProcessTransaction` and `ProcessSettlement` steps, with any inputs and any
failing store or bus call, every transaction whose status is completed or
failed has a settlement row whose external reference is its id. -/
theorem C13_terminal_have_settlement (rt : Runtime) (uuid : UuidLib) (w : World)
    (h : Reachable rt uuid w) :
    ∀ t ∈ w.db.transactions, t.Status = "completed" ∨ t.Status = "failed" →
      ∃ s ∈ w.db.settlements, s.ExternalReference = t.ID.String := by
  induction h with
  | init bus deadLetters => intro t ht; simp at ht
  | step st w _ ih => exact terminalHaveSettlement_step rt uuid st w ih

theorem C13_terminal_have_settlement_witness :
    Reachable sampleRuntime sampleUuidLib
      (runSteps sampleRuntime sampleUuidLib sampleLife emptyWorld) ∧
    (runSteps sampleRuntime sampleUuidLib sampleLife emptyWorld).db.transactions.map
      (fun t => t.Status) = ["completed"] ∧
    ∀ t ∈ (runSteps sampleRuntime sampleUuidLib sampleLife emptyWorld).db.transactions,
      t.Status = "completed" ∨ t.Status = "failed" →
      ∃ s ∈ (runSteps sampleRuntime sampleUuidLib sampleLife emptyWorld).db.settlements,
        s.ExternalReference = t.ID.String :=
  have hr : Reachable sampleRuntime sampleUuidLib
      (runSteps sampleRuntime sampleUuidLib sampleLife emptyWorld) :=
    Reachable.step (.settle ⟨true⟩ Context.Background "p1" sampleSettleEnv) _
      (Reachable.step (.route ⟨true⟩ (UUID.String ⟨1⟩) sampleRouteEnv) _
        (Reachable.step (.create ⟨true⟩ (sampleInput 1500 "NGN") sampleCreateEnv) _
          (Reachable.init [] [])))
  ⟨hr, by decide, C13_terminal_have_settlement sampleRuntime sampleUuidLib _ hr⟩

/-! ### Errors of the stores and of the bus -/

/-- C14: in a call of `ProcessSettlement` below the retry limit, an error of the
transaction fetch, of the merchant account get-or-create or of the settlement
insert makes the call return failure (the error wrapped), with no transaction
changed and no publish made; after a failed fetch or a failed account call
the settlements table is unchanged too. -/
theorem C14_store_errors_fail_the_attempt (rt : Runtime) (s : SettlementService)
    (ctx : Context) (payload : Bytes) (sp : SettlementPayload) (env : SettleEnv) (w : World)
    (hwf : rt.UnmarshalSettlementPayload payload = .ok sp) (hlt : retryCountOf ctx < 3) :
    (∀ e, env.fetchFault = some e →
      (s.ProcessSettlement rt ctx payload env w).2 =
        .returned (some (.wrap "failed to fetch transaction" (.lib e))) ∧
      (s.ProcessSettlement rt ctx payload env w).1.db.transactions = w.db.transactions ∧
      (s.ProcessSettlement rt ctx payload env w).1.db.settlements = w.db.settlements ∧
      (s.ProcessSettlement rt ctx payload env w).1.db.accounts = w.db.accounts ∧
      (s.ProcessSettlement rt ctx payload env w).1.bus = w.bus) ∧
    (∀ db1 tx db2 a err,
      PostgresTransactionRepository.GetByID sp.TransactionID env.fetchFault w.db =
        (db1, some tx, none) →
      PostgresAccountRepository.GetOrCreateMerchantAccount tx.MerchantID tx.Currency
        env.account db1 = (db2, a, some err) →
      (s.ProcessSettlement rt ctx payload env w).2 =
        .returned (some (.wrap "failed to get/create merchant account" err)) ∧
      (s.ProcessSettlement rt ctx payload env w).1.db.transactions = w.db.transactions ∧
      (s.ProcessSettlement rt ctx payload env w).1.db.settlements = w.db.settlements ∧
      (s.ProcessSettlement rt ctx payload env w).1.bus = w.bus) ∧
    (∀ db1 tx db2 acct e,
      PostgresTransactionRepository.GetByID sp.TransactionID env.fetchFault w.db =
        (db1, some tx, none) →
      PostgresAccountRepository.GetOrCreateMerchantAccount tx.MerchantID tx.Currency
        env.account db1 = (db2, some acct, none) →
      env.insertFault = some e →
      (s.ProcessSettlement rt ctx payload env w).2 =
        .returned (some (.wrap "failed to create settlement attempt" (.lib e))) ∧
      (s.ProcessSettlement rt ctx payload env w).1.db.transactions = w.db.transactions ∧
      (s.ProcessSettlement rt ctx payload env w).1.db.settlements = w.db.settlements ∧
      (s.ProcessSettlement rt ctx payload env w).1.bus = w.bus) := by
  refine ⟨?_, ?_, ?_⟩
  · intro e he
    have hG : PostgresTransactionRepository.GetByID sp.TransactionID env.fetchFault w.db =
        (w.db.logged (.selectTransaction sp.TransactionID), none, some (.lib e)) := by
      rw [he, GetByID_fault]
    rw [ProcessSettlement_fetch_failed rt s ctx payload sp env w hwf hlt _ _ _ hG]
    simp
  · intro db1 tx db2 a err hG hA
    have hdb := GetByID_db sp.TransactionID env.fetchFault w.db
    rw [hG] at hdb
    simp only at hdb
    have hfr := GetOrCreate_frame tx.MerchantID tx.Currency env.account db1
    rw [hA] at hfr
    simp only at hfr
    rw [ProcessSettlement_account_failed rt s ctx payload sp env w hwf hlt db1 tx hG db2 a err hA]
    simp [hfr.1, hfr.2.1, hdb]
  · intro db1 tx db2 acct e hG hA hI
    have hdb := GetByID_db sp.TransactionID env.fetchFault w.db
    rw [hG] at hdb
    simp only at hdb
    have hfr := GetOrCreate_frame tx.MerchantID tx.Currency env.account db1
    rw [hA] at hfr
    simp only at hfr
    rw [ProcessSettlement_insert_failed rt s ctx payload sp env w hwf hlt db1 tx hG db2 acct hA
      e hI]
    simp [hfr.1, hfr.2.1, hdb]

theorem C14_store_errors_fail_the_attempt_witness :
    sampleRuntime.UnmarshalSettlementPayload "p1" = .ok samplePayload ∧
    retryCountOf Context.Background < 3 ∧
    fetchFailsEnv.fetchFault = some "connection refused" ∧
    (SettlementService.ProcessSettlement sampleRuntime ⟨true⟩ Context.Background "p1"
        fetchFailsEnv sampleWorld).2 =
      .returned (some (.wrap "failed to fetch transaction" (.lib "connection refused"))) :=
  ⟨rfl, by decide, rfl,
   ((C14_store_errors_fail_the_attempt sampleRuntime ⟨true⟩ Context.Background "p1"
      samplePayload fetchFailsEnv sampleWorld rfl (by decide)).1 "connection refused" rfl).1⟩

/-- C15: one delivery in the dispatch loop of the RabbitMQ bus.  The retry count is 0
when the headers or the `x-death` header are absent, and the `count` of the
first `x-death` entry when that is present; the handler is called once, with
a context whose `retry_count` is that count; the delivery is acked iff the
handler returns nil, negatively acked with requeue iff it returns an error
and the count is below 3, and negatively acked without requeue iff it returns
an error and the count is at least 3, upon which the broker dead-letters the
message to `dlq.<topic>`. -/
theorem C15_ack_policy {ε : Type} (topic : String) (handler : HandlerFn ε) (m : Delivery)
    (env : ε) (w : World) :
    (m.Headers = none → m.retryCount = 0) ∧
    (∀ h, m.Headers = some h → AmqpTable.get h "x-death" = none → m.retryCount = 0) ∧
    (∀ h death rest c, m.Headers = some h →
      AmqpTable.get h "x-death" = some (.list (.table death :: rest)) →
      AmqpTable.get death "count" = some (.int64 c) → m.retryCount = c) ∧
    m.msgCtx.Value "retry_count" = some (.int m.retryCount) ∧
    (RabbitMQBus.dispatch topic handler m env w).1 =
      (handler m.msgCtx topic m.RoutingKey m.Body env w).1 ∧
    ((RabbitMQBus.dispatch topic handler m env w).2 = some .ack ↔
      (handler m.msgCtx topic m.RoutingKey m.Body env w).2 = .returned none) ∧
    ((RabbitMQBus.dispatch topic handler m env w).2 = some (.nack true) ↔
      (handler m.msgCtx topic m.RoutingKey m.Body env w).2.isFailure = true ∧
        m.retryCount < 3) ∧
    ((RabbitMQBus.dispatch topic handler m env w).2 = some (.nack false) ↔
      (handler m.msgCtx topic m.RoutingKey m.Body env w).2.isFailure = true ∧
        3 ≤ m.retryCount) ∧
    brokerSettle topic m (some (.nack false)) w =
      { w with deadLetters := w.deadLetters ++ [⟨"dlq." ++ topic, m.RoutingKey, m.Body⟩] } := by
  refine ⟨?_, ?_, ?_, ?_, ?_, ?_, ?_, ?_, rfl⟩
  · intro h; simp [Delivery.retryCount, h]
  · intro h hh hx; simp [Delivery.retryCount, hh, hx]
  · intro h death rest c hh hx hc; simp [Delivery.retryCount, hh, hx, hc]
  · simp [Delivery.msgCtx, Context.WithValue, Context.Value]
  all_goals
    rcases hh : handler m.msgCtx topic m.RoutingKey m.Body env w with ⟨w1, o⟩
    have hh2 : handler (Context.Background.WithValue "retry_count" (.int m.retryCount)) topic
        m.RoutingKey m.Body env w = (w1, o) := hh
    simp only [RabbitMQBus.dispatch, hh2]
    rcases o with (_ | err) | _ <;> by_cases h3 : m.retryCount ≥ 3 <;>
      simp [h3, Outcome.isFailure] <;> omega

/-- C16: `ProcessTransaction` returns an error exactly when the trimmed key does not
parse as a UUID or the status update fails.  In both cases it makes no
publish; when the key does not parse, the world is left as it was, with no
statement sent to the store. -/
theorem C16_routing_failures (rt : Runtime) (uuid : UuidLib) (s : RoutingService)
    (key : String) (env : RouteEnv) (w : World) :
    ((s.ProcessTransaction rt uuid key env w).2 ≠ none ↔
      (∃ e, uuid.Parse (TrimSpace key) = .error e) ∨
      ((∃ id, uuid.Parse (TrimSpace key) = .ok id) ∧ env.updateFault ≠ none)) ∧
    ((s.ProcessTransaction rt uuid key env w).2 ≠ none →
      (s.ProcessTransaction rt uuid key env w).1.bus = w.bus) ∧
    (∀ e, uuid.Parse (TrimSpace key) = .error e →
      s.ProcessTransaction rt uuid key env w = (w, some (.lib e))) := by
  cases hp : uuid.Parse (TrimSpace key) with
  | error e =>
    rw [ProcessTransaction_unparsable rt uuid s key env w e hp]
    simp
  | ok id =>
    cases hU : env.updateFault with
    | some e =>
      rw [ProcessTransaction_update_failed rt uuid s key env w id e hp hU]
      simp
    | none =>
      rw [ProcessTransaction_updated rt uuid s key env w id hp hU]
      simp

/-- C17: when the trimmed key parses as id X and the status update succeeds,
`ProcessTransaction` returns nil, every row with id X has status processing
afterwards (other rows are unchanged), and with a bus exactly one publish is
made, on `settlement.requested` with routing key X, whose payload encodes a
document with `transaction_id` X, `routing` equal to route
"simulated-acquirer" and priority "normal", and a `requested_at` time. -/
theorem C17_routing_success (rt : Runtime) (uuid : UuidLib) (s : RoutingService)
    (key : String) (env : RouteEnv) (w : World) (id : UUID)
    (hp : uuid.Parse (TrimSpace key) = .ok id) (hU : env.updateFault = none)
    (hbus : s.bus = true) :
    (s.ProcessTransaction rt uuid key env w).2 = none ∧
    (s.ProcessTransaction rt uuid key env w).1.db.transactions =
      w.db.transactions.map (fun t =>
        if t.ID = id then { t with Status := "processing", UpdatedAt := env.dbNow } else t) ∧
    (∀ t ∈ (s.ProcessTransaction rt uuid key env w).1.db.transactions,
      t.ID = id → t.Status = "processing") ∧
    (s.ProcessTransaction rt uuid key env w).1.bus =
      w.bus ++ [⟨⟨"settlement.requested", id.String,
        rt.Marshal (settlementRequestedPayload id env.requestedAt)⟩,
        libErr env.publishFault⟩] ∧
    (settlementRequestedPayload id env.requestedAt).get "transaction_id" =
      some (.str id.String) ∧
    (settlementRequestedPayload id env.requestedAt).get "routing" =
      some (.obj [("route", .str "simulated-acquirer"), ("priority", .str "normal")]) ∧
    (settlementRequestedPayload id env.requestedAt).get "requested_at" =
      some (.time env.requestedAt) := by
  rw [ProcessTransaction_updated rt uuid s key env w id hp hU, UpdateStatus_ok]
  simp only [hbus, if_true, Publish]
  refine ⟨trivial, trivial, ?_, trivial, ?_, ?_, ?_⟩
  · intro t ht hid
    simp only [List.mem_map] at ht
    obtain ⟨t0, _, rfl⟩ := ht
    by_cases h0 : t0.ID = id
    · simp [h0]
    · simp [h0] at hid
  · simp [settlementRequestedPayload, Json.get]
  · simp [settlementRequestedPayload, Json.get, List.find?, routingInfo]
  · simp [settlementRequestedPayload, Json.get, List.find?]

theorem C17_routing_success_witness :
    sampleUuidLib.Parse (TrimSpace (UUID.String ⟨1⟩)) = .ok ⟨1⟩ ∧
    sampleRouteEnv.updateFault = none ∧
    (RoutingService.ProcessTransaction sampleRuntime sampleUuidLib ⟨true⟩ (UUID.String ⟨1⟩)
      sampleRouteEnv sampleWorld).2 = none :=
  ⟨rfl, rfl,
   (C17_routing_success sampleRuntime sampleUuidLib ⟨true⟩ (UUID.String ⟨1⟩) sampleRouteEnv
      sampleWorld ⟨1⟩ rfl rfl rfl).1⟩

/-- The result and the database after `ProcessSettlement` do not depend on the error
the bus returns for the outcome event. -/
theorem ProcessSettlement_publishFault (rt : Runtime) (s : SettlementService) (ctx : Context)
    (payload : Bytes) (env : SettleEnv) (w : World) (f : Option String) :
    (s.ProcessSettlement rt ctx payload { env with publishFault := f } w).2 =
      (s.ProcessSettlement rt ctx payload env w).2 ∧
    (s.ProcessSettlement rt ctx payload { env with publishFault := f } w).1.db =
      (s.ProcessSettlement rt ctx payload env w).1.db := by
  cases hd : rt.UnmarshalSettlementPayload payload with
  | error e =>
    rw [ProcessSettlement_undecodable rt s ctx payload env w e hd,
      ProcessSettlement_undecodable rt s ctx payload _ w e hd]
    exact ⟨rfl, rfl⟩
  | ok sp =>
    by_cases h : retryCountOf ctx < 3
    · rcases hG : PostgresTransactionRepository.GetByID sp.TransactionID env.fetchFault w.db
        with ⟨db1, t, ferr⟩
      have hG' : PostgresTransactionRepository.GetByID sp.TransactionID
          ({ env with publishFault := f } : SettleEnv).fetchFault w.db = (db1, t, ferr) := hG
      cases ferr with
      | some err =>
        rw [ProcessSettlement_fetch_failed rt s ctx payload sp env w hd h db1 t err hG,
          ProcessSettlement_fetch_failed rt s ctx payload sp _ w hd h db1 t err hG']
        exact ⟨rfl, rfl⟩
      | none =>
        cases t with
        | none =>
          rw [ProcessSettlement_absent rt s ctx payload sp env w hd h db1 hG,
            ProcessSettlement_absent rt s ctx payload sp _ w hd h db1 hG']
          exact ⟨rfl, rfl⟩
        | some tx =>
          rcases hA : PostgresAccountRepository.GetOrCreateMerchantAccount tx.MerchantID
            tx.Currency env.account db1 with ⟨db2, a, aerr⟩
          have hA' : PostgresAccountRepository.GetOrCreateMerchantAccount tx.MerchantID
              tx.Currency ({ env with publishFault := f } : SettleEnv).account db1 =
              (db2, a, aerr) := hA
          cases aerr with
          | some err =>
            rw [ProcessSettlement_account_failed rt s ctx payload sp env w hd h db1 tx hG db2 a
                err hA,
              ProcessSettlement_account_failed rt s ctx payload sp _ w hd h db1 tx hG' db2 a
                err hA']
            exact ⟨rfl, rfl⟩
          | none =>
            cases a with
            | none =>
              have hf := (GetOrCreate_frame tx.MerchantID tx.Currency env.account db1).2.2
              rw [hA] at hf
              exact absurd rfl hf
            | some acct =>
              rcases Option.eq_none_or_eq_some env.insertFault with hI | ⟨e, hI⟩
              · have hI' : ({ env with publishFault := f } : SettleEnv).insertFault = none := hI
                rw [ProcessSettlement_inserted rt s ctx payload sp env w hd h db1 tx hG db2
                    acct hA hI,
                  ProcessSettlement_inserted rt s ctx payload sp _ w hd h db1 tx hG' db2 acct
                    hA' hI']
                rcases Option.eq_none_or_eq_some env.updateFault with hU | ⟨e, hU⟩
                · have hU' : ({ env with publishFault := f } : SettleEnv).updateFault = none :=
                    hU
                  rw [finishAttempt_updated rt s tx _ env _ hU,
                    finishAttempt_updated rt s tx _ _ _ hU']
                  cases s.bus <;> exact ⟨rfl, rfl⟩
                · have hU' : ({ env with publishFault := f } : SettleEnv).updateFault =
                    some e := hU
                  rw [finishAttempt_update_failed rt s tx _ env _ e hU,
                    finishAttempt_update_failed rt s tx _ _ _ e hU']
                  exact ⟨rfl, rfl⟩
              · have hI' : ({ env with publishFault := f } : SettleEnv).insertFault = some e :=
                  hI
                rw [ProcessSettlement_insert_failed rt s ctx payload sp env w hd h db1 tx hG
                    db2 acct hA e hI,
                  ProcessSettlement_insert_failed rt s ctx payload sp _ w hd h db1 tx hG' db2
                    acct hA' e hI']
                exact ⟨rfl, rfl⟩
    · have h3 : 3 ≤ retryCountOf ctx := not_lt.mp h
      rw [ProcessSettlement_exhausted rt s ctx payload sp env w hd h3,
        ProcessSettlement_exhausted rt s ctx payload sp _ w hd h3]
      cases s.bus <;> exact ⟨rfl, rfl⟩

/-- C18: the error `bus.Publish` returns for an emitted event is never propagated.  For
`CreateTransaction` (`transaction.created`), `ProcessTransaction`
(`settlement.requested`) and `ProcessSettlement` (`settlement.completed`, and
`settlement.failed` if it were ever sent), the returned value and the whole
database are the same whatever that error is; and when the input is valid
and no store call fails, the returned value is success. -/
theorem C18_publish_errors_swallowed (rt : Runtime) (uuid : UuidLib) (w : World)
    (f : Option String) :
    (∀ (s : TransactionService) (input : CreateTransactionDTO) (env : CreateEnv),
      (s.CreateTransaction rt input { env with publishFault := f } w).2 =
        (s.CreateTransaction rt input env w).2 ∧
      (s.CreateTransaction rt input { env with publishFault := f } w).1.db =
        (s.CreateTransaction rt input env w).1.db ∧
      (0 < input.Amount → ToUpper rt input.Currency = "NGN" → env.insertFault = none →
        (s.CreateTransaction rt input { env with publishFault := f } w).2 =
          (env.newID, none))) ∧
    (∀ (s : RoutingService) (key : String) (env : RouteEnv),
      (s.ProcessTransaction rt uuid key { env with publishFault := f } w).2 =
        (s.ProcessTransaction rt uuid key env w).2 ∧
      (s.ProcessTransaction rt uuid key { env with publishFault := f } w).1.db =
        (s.ProcessTransaction rt uuid key env w).1.db ∧
      (∀ id, uuid.Parse (TrimSpace key) = .ok id → env.updateFault = none →
        (s.ProcessTransaction rt uuid key { env with publishFault := f } w).2 = none)) ∧
    (∀ (s : SettlementService) (ctx : Context) (payload : Bytes) (env : SettleEnv),
      (s.ProcessSettlement rt ctx payload { env with publishFault := f } w).2 =
        (s.ProcessSettlement rt ctx payload env w).2 ∧
      (s.ProcessSettlement rt ctx payload { env with publishFault := f } w).1.db =
        (s.ProcessSettlement rt ctx payload env w).1.db ∧
      (∀ sp tx, rt.UnmarshalSettlementPayload payload = .ok sp → retryCountOf ctx < 3 →
        w.db.transactions.find? (fun t => t.ID = sp.TransactionID) = some tx →
        env.fetchFault = none → env.account.lookupFault = none →
        env.account.insertFault = none → env.insertFault = none → env.updateFault = none →
        (s.ProcessSettlement rt ctx payload { env with publishFault := f } w).2 =
          .returned none)) := by
  refine ⟨?_, ?_, ?_⟩
  · intro s input env
    simp only [TransactionService.CreateTransaction,
      PostgresTransactionRepository.CreateTransaction, TransactionService.newTransaction]
    by_cases ha : input.Amount ≤ 0
    · simp [ha]
    · by_cases hc : ToUpper rt input.Currency = "NGN"
      · cases hf : env.insertFault <;> cases hb : s.bus <;>
          simp [ha, hc, hf, hb, Publish, allowedCurrencies]
      · simp [ha, hc, allowedCurrencies]
  · intro s key env
    simp only [RoutingService.ProcessTransaction, PostgresTransactionRepository.UpdateStatus]
    cases uuid.Parse (TrimSpace key) <;> cases env.updateFault <;> cases s.bus <;>
      simp [Publish]
  · intro s ctx payload env
    have hpf := ProcessSettlement_publishFault rt s ctx payload env w f
    refine ⟨hpf.1, hpf.2, ?_⟩
    intro sp tx hwf hlt hfind hF hL hAI hI hU
    obtain ⟨_, h1, _⟩ := ProcessSettlement_happy rt s ctx payload sp
      { env with publishFault := f } w tx hwf hlt hfind hF hL hAI hI hU
    exact h1

theorem C18_publish_errors_swallowed_witness :
    (TransactionService.CreateTransaction sampleRuntime ⟨true⟩ (sampleInput 1500 "NGN")
      { sampleCreateEnv with publishFault := some "channel closed" } emptyWorld).2 =
      (sampleCreateEnv.newID, none) ∧
    (SettlementService.ProcessSettlement sampleRuntime ⟨true⟩ Context.Background "p1"
      { sampleSettleEnv with publishFault := some "channel closed" } sampleWorld).2 =
      .returned none :=
  ⟨((C18_publish_errors_swallowed sampleRuntime sampleUuidLib emptyWorld
      (some "channel closed")).1 ⟨true⟩ (sampleInput 1500 "NGN") sampleCreateEnv).2.2
      (by decide) rfl rfl,
   ((C18_publish_errors_swallowed sampleRuntime sampleUuidLib sampleWorld
      (some "channel closed")).2.2 ⟨true⟩ Context.Background "p1" sampleSettleEnv).2.2
      samplePayload sampleTransaction rfl (by decide) rfl rfl rfl rfl rfl rfl⟩

/-! ### Reconciliation job -/

theorem runReconcile_query_failed (ac : AlertClient) (env : ReconEnv) (st : ReconState)
    (e : String) (h : env.queryFault = some e) :
    runReconcile ac env st = (st, some (.lib e)) := by
  simp only [runReconcile, h]

theorem runReconcile_query_ok (ac : AlertClient) (env : ReconEnv) (st : ReconState)
    (h : env.queryFault = none) :
    runReconcile ac env st = reconcileRows ac (deliveredRows env st) st := by
  simp only [runReconcile, h]

/-- Every call of `SendWarning` is recorded as a call with severity warning. -/
theorem SendWarning_calls (ac : AlertClient) (service message : String)
    (details : Option JsonMap) (env : AlertEnv) (log : AlertLog) :
    (ac.SendWarning service message details env log).1.calls =
      log.calls ++ [⟨service, "warning", message, details⟩] := by
  simp only [AlertClient.SendWarning, AlertClient.SendAlert, SeverityWarning]
  by_cases hurl : ac.webhookURL = ""
  · simp [hurl]
  · cases env.requestFault <;> cases env.doFault <;>
      by_cases hs : env.statusCode ≥ 400 <;> simp [hurl, hs]

/-- The alerts posted after a call of `SendWarning` with a webhook and a request that
can be built: exactly one more, whatever the delivery does. -/
theorem SendWarning_posts (ac : AlertClient) (service message : String)
    (details : Option JsonMap) (env : AlertEnv) (log : AlertLog)
    (hurl : ac.webhookURL ≠ "") (hreq : env.requestFault = none) :
    (ac.SendWarning service message details env log).1.posts.map (fun p => p.alert) =
      log.posts.map (fun p => p.alert) ++
        [{ Service := service, Severity := "warning", Message := message, Details := details,
           Timestamp := env.now }] := by
  simp only [AlertClient.SendWarning, AlertClient.SendAlert, hurl, if_false, hreq,
    SeverityWarning]
  cases env.doFault with
  | some e => simp
  | none => by_cases hs : env.statusCode ≥ 400 <;> simp [hs]

/-- With no webhook URL `SendWarning` posts nothing and returns nil. -/
theorem SendWarning_silent (ac : AlertClient) (service message : String)
    (details : Option JsonMap) (env : AlertEnv) (log : AlertLog)
    (hurl : ac.webhookURL = "") :
    (ac.SendWarning service message details env log).1.posts = log.posts ∧
    (ac.SendWarning service message details env log).2 = none := by
  simp [AlertClient.SendWarning, AlertClient.SendAlert, hurl]

/-- One row that matches is skipped. -/
theorem reconcileRows_match (ac : AlertClient) (row : ReconRow) (env : RowEnv)
    (rest : List (ReconRow × RowEnv)) (st : ReconState)
    (hs : env.scanFault = none) (heq : row.expected = row.actual) :
    reconcileRows ac ((row, env) :: rest) st = reconcileRows ac rest st := by
  simp only [reconcileRows, hs, heq, ne_eq, not_true_eq_false, if_false]

/-- One row that mismatches and whose insert succeeds: the record is appended, the
alert client is called, the loop goes on. -/
theorem reconcileRows_mismatch (ac : AlertClient) (row : ReconRow) (env : RowEnv)
    (rest : List (ReconRow × RowEnv)) (st : ReconState)
    (hs : env.scanFault = none) (hne : row.expected ≠ row.actual)
    (hi : env.insertFault = none) :
    reconcileRows ac ((row, env) :: rest) st =
      reconcileRows ac rest
        { st with
          reconciliation_logs := st.reconciliation_logs ++ [expectedRecord (row, env)],
          alerts := (ac.SendWarning "reconcile-job" "Transaction amount mismatch detected"
            (some (alertDetails row.id row.expected row.actual
              (wrapInt64 (row.expected - row.actual)))) env.alert st.alerts).1 } := by
  simp only [reconcileRows, hs, hne, ne_eq, not_false_eq_true, if_true,
    insertReconciliationLog, hi, expectedRecord]

theorem reconcileRows_scan_failed (ac : AlertClient) (row : ReconRow) (env : RowEnv)
    (rest : List (ReconRow × RowEnv)) (st : ReconState) (e : String)
    (hs : env.scanFault = some e) :
    reconcileRows ac ((row, env) :: rest) st = (st, some (.lib e)) := by
  simp only [reconcileRows, hs]

theorem reconcileRows_insert_failed (ac : AlertClient) (row : ReconRow) (env : RowEnv)
    (rest : List (ReconRow × RowEnv)) (st : ReconState) (e : String)
    (hs : env.scanFault = none) (hne : row.expected ≠ row.actual)
    (hi : env.insertFault = some e) :
    reconcileRows ac ((row, env) :: rest) st = (st, some (.lib e)) := by
  simp only [reconcileRows, hs, hne, ne_eq, not_false_eq_true, if_true,
    insertReconciliationLog, hi]

/-- Rows without a storage error are all processed: the loop then goes on with the
rows that follow. -/
theorem reconcileRows_append (ac : AlertClient) (pre rest : List (ReconRow × RowEnv))
    (st : ReconState)
    (hok : ∀ r ∈ pre, r.2.scanFault = none ∧ r.2.insertFault = none) :
    reconcileRows ac (pre ++ rest) st = reconcileRows ac rest (reconcileRows ac pre st).1 := by
  induction pre generalizing st with
  | nil => simp [reconcileRows]
  | cons r pre ih =>
    obtain ⟨row, env⟩ := r
    have hr := hok (row, env) (List.mem_cons_self _ _)
    have hpre : ∀ r ∈ pre, r.2.scanFault = none ∧ r.2.insertFault = none :=
      fun r hr => hok r (List.mem_cons_of_mem _ hr)
    by_cases heq : row.expected = row.actual
    · rw [List.cons_append, reconcileRows_match ac row env _ st hr.1 heq,
        reconcileRows_match ac row env _ st hr.1 heq]
      exact ih st hpre
    · rw [List.cons_append, reconcileRows_mismatch ac row env _ st hr.1 heq hr.2,
        reconcileRows_mismatch ac row env _ st hr.1 heq hr.2]
      exact ih _ hpre

theorem reconcileRows_ok (ac : AlertClient) (rows : List (ReconRow × RowEnv))
    (st : ReconState)
    (hok : ∀ r ∈ rows, r.2.scanFault = none ∧ r.2.insertFault = none) :
    (reconcileRows ac rows st).2 = none ∧ (reconcileRows ac rows st).1.db = st.db := by
  induction rows generalizing st with
  | nil => simp [reconcileRows]
  | cons r rows ih =>
    obtain ⟨row, env⟩ := r
    have hr := hok (row, env) (List.mem_cons_self _ _)
    have hrows : ∀ r ∈ rows, r.2.scanFault = none ∧ r.2.insertFault = none :=
      fun r hr => hok r (List.mem_cons_of_mem _ hr)
    by_cases heq : row.expected = row.actual
    · rw [reconcileRows_match ac row env _ st hr.1 heq]
      exact ih st hrows
    · rw [reconcileRows_mismatch ac row env _ st hr.1 heq hr.2]
      exact ih _ hrows

theorem wrapInt64_of_inRange (x : Int) (h1 : -2 ^ 63 ≤ x) (h2 : x < 2 ^ 63) :
    wrapInt64 x = x := by
  unfold wrapInt64
  have h3 : (x + 2 ^ 63) % 2 ^ 64 = x + 2 ^ 63 :=
    Int.emod_eq_of_lt (by omega) (by omega)
  omega

/-! ### Paging -/

theorem scanRows_length {α : Type} (scanFault : Nat → Option String) (rows rs : List α)
    (i : Nat) (h : scanRows scanFault rows i = .ok rs) : rs.length = rows.length := by
  induction rows generalizing rs i with
  | nil => simp [scanRows] at h; simp [← h]
  | cons r rest ih =>
    simp only [scanRows] at h
    cases hs : scanFault i with
    | some e => simp [hs] at h
    | none =>
      simp only [hs] at h
      cases hr : scanRows scanFault rest (i + 1) with
      | error err => simp [hr] at h
      | ok rs1 =>
        simp only [hr, Except.ok.injEq] at h
        subst h
        simp [ih rs1 (i + 1) hr]

theorem scanRows_noFault {α : Type} (rows : List α) (i : Nat) :
    scanRows (fun _ => none) rows i = .ok rows := by
  induction rows generalizing i with
  | nil => rfl
  | cons r rest ih => simp [scanRows, ih]

theorem collectRows_length {α : Type} (env : ListEnv) (selected : List α) :
    (collectRows env selected).1.length ≤ selected.length := by
  simp only [collectRows]
  cases hi : env.iterFault with
  | none =>
    simp only
    cases hr : scanRows env.scanFault selected 0 with
    | error err => simp
    | ok rs => simp [scanRows_length _ _ _ _ hr]
  | some ke =>
    obtain ⟨k, e⟩ := ke
    simp only
    cases hr : scanRows env.scanFault (selected.take k) 0 <;> simp

theorem selectPage_length {α : Type} (createdAt : α → Time) (table : List α)
    (limit offset : Int) :
    (selectPage createdAt table limit offset).length =
      min limit.toNat (table.length - offset.toNat) := by
  simp [selectPage, List.length_take, List.length_drop, List.length_insertionSort]

theorem statedLimit_eq (limit : Int) :
    (if (if limit ≤ 0 then 10 else limit) > 100 then 100 else (if limit ≤ 0 then 10 else limit))
      = statedLimit limit := by
  unfold statedLimit
  split_ifs <;> omega

/-- C21: for every limit and offset, `List` of the transaction store and `List` of the
settlement store send their query with the effective limit (the limit itself
when it lies in 1..100, 10 when it is zero or negative, 100 when it is above
100, so always within 1..100) and the effective offset max(offset, 0), and
return at most that many rows; when nothing fails they return
min(effective limit, rows after the offset) rows.  So limit 0 gives at most
10 rows, limit 1000 at most 100, and limit 200 over 150 rows exactly 100. -/
theorem C21_paging_clamped (limit offset : Int) (env : ListEnv) (db : DB) :
    (1 ≤ statedLimit limit ∧ statedLimit limit ≤ 100) ∧
    (1 ≤ limit → limit ≤ 100 → statedLimit limit = limit) ∧
    (limit ≤ 0 → statedLimit limit = 10) ∧ (100 < limit → statedLimit limit = 100) ∧
    (PostgresTransactionRepository.List limit offset env db).1.log =
      db.log ++ [.listTransactions (statedLimit limit) (max offset 0)] ∧
    (PostgresSettlementRepository.List limit offset env db).1.log =
      db.log ++ [.listSettlements (statedLimit limit) (max offset 0)] ∧
    (PostgresTransactionRepository.List limit offset env db).2.1.length ≤
      (statedLimit limit).toNat ∧
    (PostgresSettlementRepository.List limit offset env db).2.1.length ≤
      (statedLimit limit).toNat ∧
    (PostgresTransactionRepository.List limit offset sampleListEnv db).2.1.length =
      min (statedLimit limit).toNat (db.transactions.length - (max offset 0).toNat) ∧
    (PostgresSettlementRepository.List limit offset sampleListEnv db).2.1.length =
      min (statedLimit limit).toNat (db.settlements.length - (max offset 0).toNat) ∧
    (PostgresTransactionRepository.List 0 offset env db).2.1.length ≤ 10 ∧
    (PostgresTransactionRepository.List 1000 offset env db).2.1.length ≤ 100 ∧
    (db.transactions.length = 150 →
      (PostgresTransactionRepository.List 200 0 sampleListEnv db).2.1.length = 100) := by
  have hoff : (if offset < 0 then 0 else offset) = max offset 0 := by
    split_ifs <;> omega
  have hT : ∀ (l : Int) (e : ListEnv),
      (PostgresTransactionRepository.List l offset e db).2.1.length ≤ (statedLimit l).toNat := by
    intro l e
    simp only [PostgresTransactionRepository.List, statedLimit_eq, hoff]
    cases e.queryFault with
    | some x => simp
    | none =>
      refine le_trans (collectRows_length e _) ?_
      rw [selectPage_length]
      exact min_le_left _ _
  have hS : ∀ (l : Int) (e : ListEnv),
      (PostgresSettlementRepository.List l offset e db).2.1.length ≤ (statedLimit l).toNat := by
    intro l e
    simp only [PostgresSettlementRepository.List, statedLimit_eq, hoff]
    cases e.queryFault with
    | some x => simp
    | none =>
      refine le_trans (collectRows_length e _) ?_
      rw [selectPage_length]
      exact min_le_left _ _
  have hTok : ∀ (l o : Int),
      (PostgresTransactionRepository.List l o sampleListEnv db).2.1.length =
        min (statedLimit l).toNat (db.transactions.length - (max o 0).toNat) := by
    intro l o
    have ho : (if o < 0 then 0 else o) = max o 0 := by split_ifs <;> omega
    simp only [PostgresTransactionRepository.List, statedLimit_eq, ho, sampleListEnv,
      collectRows, scanRows_noFault, selectPage_length, DB.logged_transactions]
  refine ⟨?_, ?_, ?_, ?_, ?_, ?_, hT limit env, hS limit env, hTok limit offset, ?_, ?_, ?_, ?_⟩
  · unfold statedLimit; split_ifs <;> omega
  · intro h1 h2; unfold statedLimit; split_ifs <;> omega
  · intro h; simp [statedLimit, h]
  · intro h; unfold statedLimit; split_ifs <;> omega
  · simp only [PostgresTransactionRepository.List, statedLimit_eq, hoff]
    cases env.queryFault <;> simp
  · simp only [PostgresSettlementRepository.List, statedLimit_eq, hoff]
    cases env.queryFault <;> simp
  · simp only [PostgresSettlementRepository.List, statedLimit_eq, hoff, sampleListEnv,
      collectRows, scanRows_noFault, selectPage_length, DB.logged_settlements]
  · exact hT 0 env
  · exact hT 1000 env
  · intro h150
    rw [hTok 200 0, h150]
    decide

/-! ### Account store -/

/-- The lookup predicate of `GetByOwnerID` for merchant accounts. -/
theorem find?_append_new_account (accounts : List AccountRow) (row : AccountRow) (owner : UUID)
    (hnone : accounts.find? (fun r => r.owner_id = owner ∧
      r.account_type = AccountTypeMerchant) = none)
    (hrow : row.owner_id = owner ∧ row.account_type = AccountTypeMerchant) :
    (accounts ++ [row]).find? (fun r => r.owner_id = owner ∧
      r.account_type = AccountTypeMerchant) = some row := by
  rw [List.find?_append, hnone]
  simp [List.find?, hrow.1, hrow.2]

theorem filter_eq_nil_of_find?_none (accounts : List AccountRow) (owner : UUID)
    (hnone : accounts.find? (fun r => r.owner_id = owner ∧
      r.account_type = AccountTypeMerchant) = none) :
    accounts.filter (fun r => r.owner_id = owner ∧ r.account_type = AccountTypeMerchant) = [] := by
  rw [List.filter_eq_nil_iff]
  intro r hr
  have := List.find?_eq_none.mp hnone r hr
  exact this

/-- One call of the account store keeps "at most one merchant account per owner". -/
theorem GetOrCreate_keeps_one_per_owner (merchantID : UUID) (currency : String)
    (env : AccountEnv) (db : DB) (h : oneMerchantAccountPerOwner db) :
    oneMerchantAccountPerOwner
      (PostgresAccountRepository.GetOrCreateMerchantAccount merchantID currency env db).1 := by
  cases hl : env.lookupFault with
  | some e => rw [GetOrCreate_lookup_fault _ _ _ _ e hl]; exact h
  | none =>
    cases hr : db.accounts.find? (fun r => r.owner_id = merchantID ∧
      r.account_type = AccountTypeMerchant) with
    | some r => rw [GetOrCreate_found _ _ _ _ r hl hr]; exact h
    | none =>
      cases hi : env.insertFault with
      | some e => rw [GetOrCreate_insert_fault _ _ _ _ e hl hr hi]; exact h
      | none =>
        rw [GetOrCreate_inserted _ _ _ _ hl hr hi]
        intro owner
        simp only [List.filter_append]
        by_cases ho : merchantID = owner
        · subst ho
          rw [filter_eq_nil_of_find?_none _ _ hr]
          simp [List.filter_cons]
        · have := h owner
          simpa [List.filter_cons, ho] using this

theorem getOrCreateMany_keeps_one_per_owner (calls : List (UUID × String × AccountEnv))
    (db : DB) (h : oneMerchantAccountPerOwner db) :
    oneMerchantAccountPerOwner (getOrCreateMany calls db) := by
  induction calls generalizing db with
  | nil => exact h
  | cons c rest ih =>
    obtain ⟨owner, currency, env⟩ := c
    exact ih _ (GetOrCreate_keeps_one_per_owner owner currency env db h)

/-- C22: `GetOrCreateMerchantAccount(owner, currency)`, called one call at a time.  When
the lookup finds a merchant account of the owner it returns that account and
sends no insert; when it finds none and the insert succeeds, the table gains
one row with that owner, account type merchant and the given currency, and
that account is returned.  A second call for the same owner that follows a
successful first call returns the same account id.  Each call keeps "at most
one merchant account per owner", so after any sequence of calls from a table
without accounts there is at most one merchant account per owner. -/
theorem C22_get_or_create (owner : UUID) (currency : String) (env : AccountEnv) (db : DB) :
    (∀ r, env.lookupFault = none →
      db.accounts.find? (fun r => r.owner_id = owner ∧
        r.account_type = AccountTypeMerchant) = some r →
      PostgresAccountRepository.GetOrCreateMerchantAccount owner currency env db =
        (db.logged (.selectAccount owner AccountTypeMerchant), some r.toAccounts, none) ∧
      (PostgresAccountRepository.GetOrCreateMerchantAccount owner currency env db).1.accounts =
        db.accounts ∧
      r.toAccounts.OwnerID = owner ∧ r.toAccounts.AccountType = "merchant") ∧
    (env.lookupFault = none →
      db.accounts.find? (fun r => r.owner_id = owner ∧
        r.account_type = AccountTypeMerchant) = none →
      env.insertFault = none →
      (PostgresAccountRepository.GetOrCreateMerchantAccount owner currency env db).1.accounts =
        db.accounts ++ [⟨env.newID, owner, "merchant", "merchant", currency, env.dbNow,
          env.dbNow⟩] ∧
      (PostgresAccountRepository.GetOrCreateMerchantAccount owner currency env db).2 =
        (some ⟨env.newID, owner, "merchant", currency, env.dbNow, env.dbNow⟩, none)) ∧
    (∀ (a1 : Accounts) (currency2 : String) (env2 : AccountEnv),
      (PostgresAccountRepository.GetOrCreateMerchantAccount owner currency env db).2 =
        (some a1, none) →
      env2.lookupFault = none →
      ∃ a2, (PostgresAccountRepository.GetOrCreateMerchantAccount owner currency2 env2
          (PostgresAccountRepository.GetOrCreateMerchantAccount owner currency env db).1).2 =
          (some a2, none) ∧
        a2.ID = a1.ID ∧
        (PostgresAccountRepository.GetOrCreateMerchantAccount owner currency2 env2
          (PostgresAccountRepository.GetOrCreateMerchantAccount owner currency env
            db).1).1.accounts =
          (PostgresAccountRepository.GetOrCreateMerchantAccount owner currency env
            db).1.accounts) ∧
    (oneMerchantAccountPerOwner db →
      oneMerchantAccountPerOwner
        (PostgresAccountRepository.GetOrCreateMerchantAccount owner currency env db).1) ∧
    (∀ calls : List (UUID × String × AccountEnv),
      db.accounts = [] → oneMerchantAccountPerOwner (getOrCreateMany calls db)) := by
  refine ⟨?_, ?_, ?_, ?_, ?_⟩
  · intro r hl hr
    rw [GetOrCreate_found _ _ _ _ r hl hr]
    have hp := List.find?_some hr
    simp only [decide_eq_true_eq] at hp
    exact ⟨rfl, rfl, hp.1, hp.2⟩
  · intro hl hr hi
    rw [GetOrCreate_inserted _ _ _ _ hl hr hi]
    exact ⟨rfl, rfl⟩
  · intro a1 currency2 env2 h1 hl2
    cases hl : env.lookupFault with
    | some e => rw [GetOrCreate_lookup_fault _ _ _ _ e hl] at h1; simp at h1
    | none =>
      cases hr : db.accounts.find? (fun r => r.owner_id = owner ∧
        r.account_type = AccountTypeMerchant) with
      | some r =>
        rw [GetOrCreate_found _ _ _ _ r hl hr] at h1 ⊢
        simp only [Prod.mk.injEq, Option.some.injEq, and_true] at h1
        have hr2 : (db.logged (.selectAccount owner AccountTypeMerchant)).accounts.find?
            (fun r => r.owner_id = owner ∧ r.account_type = AccountTypeMerchant) = some r := hr
        rw [GetOrCreate_found _ _ _ _ r hl2 hr2]
        exact ⟨r.toAccounts, rfl, by rw [h1], rfl⟩
      | none =>
        cases hi : env.insertFault with
        | some e => rw [GetOrCreate_insert_fault _ _ _ _ e hl hr hi] at h1; simp at h1
        | none =>
          rw [GetOrCreate_inserted _ _ _ _ hl hr hi] at h1 ⊢
          simp only [Prod.mk.injEq, Option.some.injEq, and_true] at h1
          have hr2 := find?_append_new_account db.accounts
            ⟨env.newID, owner, "merchant", AccountTypeMerchant, currency, env.dbNow, env.dbNow⟩
            owner hr ⟨rfl, rfl⟩
          rw [GetOrCreate_found _ _ _ _ _ hl2 hr2]
          exact ⟨_, rfl, by rw [← h1]; rfl, rfl⟩
  · exact GetOrCreate_keeps_one_per_owner owner currency env db
  · intro calls hempty
    apply getOrCreateMany_keeps_one_per_owner
    intro o
    simp [hempty]

theorem C22_get_or_create_witness :
    (PostgresAccountRepository.GetOrCreateMerchantAccount ⟨8⟩ "NGN" sampleSettleEnv.account
        emptyWorld.db).1.accounts =
      emptyWorld.db.accounts ++ [⟨⟨20⟩, ⟨8⟩, "merchant", "merchant", "NGN", 11, 11⟩] ∧
    (PostgresAccountRepository.GetOrCreateMerchantAccount ⟨8⟩ "NGN" sampleSettleEnv.account
        emptyWorld.db).2 = (some ⟨⟨20⟩, ⟨8⟩, "merchant", "NGN", 11, 11⟩, none) :=
  (C22_get_or_create ⟨8⟩ "NGN" sampleSettleEnv.account emptyWorld.db).2.1 rfl rfl rfl

/-- C23, as stated, fails: two callers ask for the merchant account of owner 8 on a
table without accounts.  The first creates account 20.  The second looked up
before that insert, found nothing, and its own insert hits the unique key: it
returns the insert's error and no account, after the lookup and the insert
and without a second lookup. -/
theorem C23_collision_fails_counterexample :
    (PostgresAccountRepository.GetOrCreateMerchantAccount ⟨8⟩ "NGN" sampleSettleEnv.account
        emptyWorld.db).2 = (some ⟨⟨20⟩, ⟨8⟩, "merchant", "NGN", 11, 11⟩, none) ∧
    (PostgresAccountRepository.GetOrCreateMerchantAccount ⟨8⟩ "NGN" collidingAccountEnv
        emptyWorld.db).2 =
      (none, some (.lib "duplicate key value violates unique constraint")) ∧
    (PostgresAccountRepository.GetOrCreateMerchantAccount ⟨8⟩ "NGN" collidingAccountEnv
        emptyWorld.db).1.log.length = 2 := by
  refine ⟨?_, ?_, ?_⟩ <;> rfl

/-- C23, amended: when the lookup of `GetOrCreateMerchantAccount` finds no merchant
account of the owner and the insert then returns an error (as it does when it
collides on the unique key), the call returns that error and no account; the
statements sent are the lookup and the insert, with no lookup after the
insert, and the call adds no account. -/
theorem C23_collision_returns_error (owner : UUID) (currency : String) (env : AccountEnv)
    (db : DB) (e : String)
    (hl : env.lookupFault = none)
    (hr : db.accounts.find? (fun r => r.owner_id = owner ∧
      r.account_type = AccountTypeMerchant) = none)
    (hi : env.insertFault = some e) :
    (PostgresAccountRepository.GetOrCreateMerchantAccount owner currency env db).2 =
      (none, some (.lib e)) ∧
    (PostgresAccountRepository.GetOrCreateMerchantAccount owner currency env db).1.log =
      db.log ++ [.selectAccount owner AccountTypeMerchant,
        .insertAccount ⟨env.newID, owner, "merchant", "merchant", currency, env.dbNow,
          env.dbNow⟩] ∧
    (PostgresAccountRepository.GetOrCreateMerchantAccount owner currency env db).1.accounts =
      db.accounts := by
  rw [GetOrCreate_insert_fault _ _ _ _ e hl hr hi]
  refine ⟨rfl, ?_, rfl⟩
  simp [AccountTypeMerchant]

theorem C23_collision_returns_error_witness :
    collidingAccountEnv.lookupFault = none ∧
    emptyWorld.db.accounts.find? (fun r => r.owner_id = (⟨8⟩ : UUID) ∧
      r.account_type = AccountTypeMerchant) = none ∧
    collidingAccountEnv.insertFault = some "duplicate key value violates unique constraint" ∧
    (PostgresAccountRepository.GetOrCreateMerchantAccount ⟨8⟩ "NGN" collidingAccountEnv
        emptyWorld.db).2 =
      (none, some (.lib "duplicate key value violates unique constraint")) :=
  ⟨rfl, rfl, rfl,
   (C23_collision_returns_error ⟨8⟩ "NGN" collidingAccountEnv emptyWorld.db
      "duplicate key value violates unique constraint" rfl rfl rfl).1⟩

/-- C24, as stated, fails: owner 8 has a merchant account in "USD"; the call for owner 8
and currency "NGN" returns that account, whose currency is "USD". -/
theorem C24_other_currency_counterexample :
    (PostgresAccountRepository.GetOrCreateMerchantAccount ⟨8⟩ "NGN" sampleSettleEnv.account
        dollarAccountDB).2 =
      (some ⟨⟨21⟩, ⟨8⟩, "merchant", "USD", 5, 5⟩, none) ∧
    ¬ ((⟨⟨21⟩, ⟨8⟩, "merchant", "USD", 5, 5⟩ : Accounts).Currency = "NGN") := by
  refine ⟨rfl, by decide⟩

/-- C24, amended: the merchant account is keyed by owner and account type.  Of a call
that returns an account: when the lookup found none, the account is the one
just created and has the requested currency; when the lookup found a merchant
account of the owner, that account is returned with its own id and currency,
whatever currency was requested. -/
theorem C24_keyed_by_owner (owner : UUID) (currency : String) (env : AccountEnv) (db : DB)
    (a : Accounts)
    (h : (PostgresAccountRepository.GetOrCreateMerchantAccount owner currency env db).2 =
      (some a, none)) :
    (db.accounts.find? (fun r => r.owner_id = owner ∧
        r.account_type = AccountTypeMerchant) = none →
      a.Currency = currency ∧ a.ID = env.newID ∧ a.OwnerID = owner) ∧
    (∀ r, db.accounts.find? (fun r => r.owner_id = owner ∧
        r.account_type = AccountTypeMerchant) = some r →
      a.Currency = r.currency ∧ a.ID = r.id ∧ a.OwnerID = owner) := by
  cases hl : env.lookupFault with
  | some e => rw [GetOrCreate_lookup_fault _ _ _ _ e hl] at h; simp at h
  | none =>
    refine ⟨?_, ?_⟩
    · intro hr
      cases hi : env.insertFault with
      | some e => rw [GetOrCreate_insert_fault _ _ _ _ e hl hr hi] at h; simp at h
      | none =>
        rw [GetOrCreate_inserted _ _ _ _ hl hr hi] at h
        simp only [Prod.mk.injEq, Option.some.injEq, and_true] at h
        subst h
        exact ⟨rfl, rfl, rfl⟩
    · intro r hr
      rw [GetOrCreate_found _ _ _ _ r hl hr] at h
      simp only [Prod.mk.injEq, Option.some.injEq, and_true] at h
      subst h
      have hp := List.find?_some hr
      simp only [decide_eq_true_eq] at hp
      exact ⟨rfl, rfl, hp.1⟩

theorem C24_keyed_by_owner_witness :
    (PostgresAccountRepository.GetOrCreateMerchantAccount ⟨8⟩ "NGN" sampleSettleEnv.account
        dollarAccountDB).2 = (some ⟨⟨21⟩, ⟨8⟩, "merchant", "USD", 5, 5⟩, none) ∧
    dollarAccountDB.accounts.find? (fun r => r.owner_id = (⟨8⟩ : UUID) ∧
      r.account_type = AccountTypeMerchant) = some dollarAccountRow ∧
    (⟨⟨21⟩, ⟨8⟩, "merchant", "USD", 5, 5⟩ : Accounts).Currency = dollarAccountRow.currency :=
  ⟨rfl, rfl,
   ((C24_keyed_by_owner ⟨8⟩ "NGN" sampleSettleEnv.account dollarAccountDB
      ⟨⟨21⟩, ⟨8⟩, "merchant", "USD", 5, 5⟩ rfl).2 dollarAccountRow rfl).1⟩

/-! ### Remaining claims on the services -/

/-- C30: when the input is valid (positive amount, upper-cased currency "NGN") and the
store's insert returns an error, `CreateTransaction` returns that error with
the nil id, makes no publish and adds no row; the insert is the one statement
sent. -/
theorem C30_store_failure_on_create (rt : Runtime) (s : TransactionService)
    (input : CreateTransactionDTO) (env : CreateEnv) (w : World) (e : String)
    (hamt : 0 < input.Amount) (hcur : ToUpper rt input.Currency = "NGN")
    (hfail : env.insertFault = some e) :
    (s.CreateTransaction rt input env w).2 = (UUID.Nil, some (.lib e)) ∧
    (s.CreateTransaction rt input env w).1.bus = w.bus ∧
    (s.CreateTransaction rt input env w).1.db.transactions = w.db.transactions ∧
    (s.CreateTransaction rt input env w).1.db.log =
      w.db.log ++ [.insertTransaction (TransactionService.newTransaction rt input env)] := by
  have hna : ¬ input.Amount ≤ 0 := not_le.mpr hamt
  simp [TransactionService.CreateTransaction, hna, allowedCurrencies, hcur,
    PostgresTransactionRepository.CreateTransaction, hfail]

theorem C30_store_failure_on_create_witness :
    0 < (sampleInput 1500 "NGN").Amount ∧
    ToUpper sampleRuntime (sampleInput 1500 "NGN").Currency = "NGN" ∧
    (TransactionService.CreateTransaction sampleRuntime ⟨true⟩ (sampleInput 1500 "NGN")
        { sampleCreateEnv with insertFault := some "connection refused" } emptyWorld).2 =
      (UUID.Nil, some (.lib "connection refused")) :=
  ⟨by decide, rfl,
   (C30_store_failure_on_create sampleRuntime ⟨true⟩ (sampleInput 1500 "NGN")
      { sampleCreateEnv with insertFault := some "connection refused" } emptyWorld
      "connection refused" (by decide) rfl rfl).1⟩

/-- What `ProcessSettlement` does to the transactions, in terms of its payload: nothing
when the payload does not decode; otherwise nothing, or the rows of the
payload's transaction id are set to completed. -/
theorem ProcessSettlement_transactions (rt : Runtime) (s : SettlementService) (ctx : Context)
    (payload : Bytes) (env : SettleEnv) (w : World) :
    (∀ e, rt.UnmarshalSettlementPayload payload = .error e →
      (s.ProcessSettlement rt ctx payload env w).1.db.transactions = w.db.transactions) ∧
    (∀ sp, rt.UnmarshalSettlementPayload payload = .ok sp →
      (s.ProcessSettlement rt ctx payload env w).1.db.transactions = w.db.transactions ∨
      (s.ProcessSettlement rt ctx payload env w).1.db.transactions =
        w.db.transactions.map (fun t =>
          if t.ID = sp.TransactionID then
            { t with Status := "completed", UpdatedAt := env.dbNow }
          else t)) := by
  refine ⟨?_, ?_⟩
  · intro e hd
    rw [ProcessSettlement_undecodable rt s ctx payload env w e hd]
  · intro sp hd
    by_cases h : retryCountOf ctx < 3
    · apply ProcessSettlement_attempt_cases rt s ctx payload sp env w
        (fun r => r.1.db.transactions = w.db.transactions ∨
          r.1.db.transactions = w.db.transactions.map (fun t =>
            if t.ID = sp.TransactionID then
              { t with Status := "completed", UpdatedAt := env.dbNow }
            else t)) hd h
      · intro db1 t err hG
        have hdb := GetByID_db sp.TransactionID env.fetchFault w.db
        rw [hG] at hdb
        simp only at hdb
        simp [hdb]
      · intro db1 hG
        have hdb := GetByID_db sp.TransactionID env.fetchFault w.db
        rw [hG] at hdb
        simp only at hdb
        simp [hdb]
      · intro db1 tx db2 a err hG hA
        have hdb := GetByID_db sp.TransactionID env.fetchFault w.db
        rw [hG] at hdb
        simp only at hdb
        have hfr := GetOrCreate_frame tx.MerchantID tx.Currency env.account db1
        rw [hA] at hfr
        simp only at hfr
        simp [hfr.1, hdb]
      · intro db1 tx db2 acct e hG hA _
        have hdb := GetByID_db sp.TransactionID env.fetchFault w.db
        rw [hG] at hdb
        simp only at hdb
        have hfr := GetOrCreate_frame tx.MerchantID tx.Currency env.account db1
        rw [hA] at hfr
        simp only at hfr
        simp [hfr.1, hdb]
      · intro db1 tx db2 acct hG hA hI
        have hdb := GetByID_db sp.TransactionID env.fetchFault w.db
        rw [hG] at hdb
        simp only at hdb
        have hfr := GetOrCreate_frame tx.MerchantID tx.Currency env.account db1
        rw [hA] at hfr
        simp only at hfr
        have hid := (GetByID_some_id sp.TransactionID env.fetchFault w.db tx (by rw [hG])).1
        cases hU : env.updateFault with
        | some e =>
          rw [finishAttempt_update_failed rt s tx _ env _ e hU]
          left
          simp [hfr.1, hdb]
        | none =>
          rw [finishAttempt_updated rt s tx _ env _ hU, UpdateStatus_ok]
          right
          cases s.bus <;> simp [Publish, hfr.1, hdb, hid]
    · have h3 : 3 ≤ retryCountOf ctx := not_lt.mp h
      rw [ProcessSettlement_exhausted rt s ctx payload sp env w hd h3]
      left
      cases s.bus <;> simp [Publish]

/-- Every call of `Publish` that `ProcessSettlement` makes is on `settlement.completed`
or on `dlq.settlement.requested`. -/
theorem ProcessSettlement_publishedOn_other (rt : Runtime) (s : SettlementService)
    (ctx : Context) (payload : Bytes) (env : SettleEnv) (w : World) (topic : String)
    (h1 : topic ≠ "settlement.completed") (h2 : topic ≠ "dlq.settlement.requested") :
    (s.ProcessSettlement rt ctx payload env w).1.publishedOn topic = w.publishedOn topic := by
  by_cases h : retryCountOf ctx < 3
  · exact ProcessSettlement_publishedOn_of_lt rt s ctx payload env w topic h h1
  · have h3 : 3 ≤ retryCountOf ctx := not_lt.mp h
    cases hd : rt.UnmarshalSettlementPayload payload with
    | error e => rw [ProcessSettlement_undecodable rt s ctx payload env w e hd]
    | ok sp =>
      rw [ProcessSettlement_exhausted rt s ctx payload sp env w hd h3]
      cases s.bus
      · rfl
      · simp [World.publishedOn, Publish, List.filter_append, Ne.symm h2]

/-- No call of `ProcessSettlement` sends a status update to failed. -/
theorem ProcessSettlement_no_failed_update (rt : Runtime) (s : SettlementService)
    (ctx : Context) (payload : Bytes) (env : SettleEnv) (w : World) (id : UUID)
    (hmem : DbCall.updateTransactionStatus id "failed" ∈
      (s.ProcessSettlement rt ctx payload env w).1.db.log) :
    DbCall.updateTransactionStatus id "failed" ∈ w.db.log := by
  cases hd : rt.UnmarshalSettlementPayload payload with
  | error e =>
    rw [ProcessSettlement_undecodable rt s ctx payload env w e hd] at hmem
    exact hmem
  | ok sp =>
    by_cases h : retryCountOf ctx < 3
    · revert hmem
      apply ProcessSettlement_attempt_cases rt s ctx payload sp env w
        (fun r => DbCall.updateTransactionStatus id "failed" ∈ r.1.db.log →
          DbCall.updateTransactionStatus id "failed" ∈ w.db.log) hd h
      · intro db1 t err hG hmem
        have hdb := GetByID_db sp.TransactionID env.fetchFault w.db
        rw [hG] at hdb
        simp only at hdb
        simpa [hdb] using hmem
      · intro db1 hG hmem
        have hdb := GetByID_db sp.TransactionID env.fetchFault w.db
        rw [hG] at hdb
        simp only at hdb
        simpa [hdb] using hmem
      · intro db1 tx db2 a err hG hA hmem
        have hdb := GetByID_db sp.TransactionID env.fetchFault w.db
        rw [hG] at hdb
        simp only at hdb
        have hlog := GetOrCreate_log tx.MerchantID tx.Currency env.account db1
        rw [hA] at hlog
        simp only at hlog
        rcases hlog with hl | ⟨row, hl⟩ <;> simpa [hl, hdb] using hmem
      · intro db1 tx db2 acct e hG hA _ hmem
        have hdb := GetByID_db sp.TransactionID env.fetchFault w.db
        rw [hG] at hdb
        simp only at hdb
        have hlog := GetOrCreate_log tx.MerchantID tx.Currency env.account db1
        rw [hA] at hlog
        simp only at hlog
        rcases hlog with hl | ⟨row, hl⟩ <;> simpa [hl, hdb] using hmem
      · intro db1 tx db2 acct hG hA _ hmem
        have hdb := GetByID_db sp.TransactionID env.fetchFault w.db
        rw [hG] at hdb
        simp only at hdb
        have hlog := GetOrCreate_log tx.MerchantID tx.Currency env.account db1
        rw [hA] at hlog
        simp only at hlog
        rw [(finishAttempt_log rt s tx _ env _).1] at hmem
        rcases hlog with hl | ⟨row, hl⟩ <;> simpa [hl, hdb] using hmem
    · have h3 : 3 ≤ retryCountOf ctx := not_lt.mp h
      rw [ProcessSettlement_exhausted rt s ctx payload sp env w hd h3] at hmem
      cases hb : s.bus <;> simpa [hb, Publish] using hmem

/-- C29: `simulateSettlementProcessing` is true for every settlement.  So for every
input, `ProcessSettlement` makes no publish on `settlement.failed`, sends no
status update to failed, and leaves each transaction with the status it had
or with status completed. -/
theorem C29_never_failed (rt : Runtime) (s : SettlementService) (ctx : Context)
    (payload : Bytes) (env : SettleEnv) (w : World) :
    (∀ settlement, s.simulateSettlementProcessing settlement = true) ∧
    (s.ProcessSettlement rt ctx payload env w).1.publishedOn "settlement.failed" =
      w.publishedOn "settlement.failed" ∧
    (∀ id, DbCall.updateTransactionStatus id "failed" ∈
        (s.ProcessSettlement rt ctx payload env w).1.db.log →
      DbCall.updateTransactionStatus id "failed" ∈ w.db.log) ∧
    (∀ (i : Nat) (t : Transaction), w.db.transactions[i]? = some t →
      ∃ t', (s.ProcessSettlement rt ctx payload env w).1.db.transactions[i]? = some t' ∧
        (t'.Status = t.Status ∨ t'.Status = "completed")) := by
  refine ⟨fun _ => rfl, ?_, ?_, ?_⟩
  · exact ProcessSettlement_publishedOn_other rt s ctx payload env w _ (by decide) (by decide)
  · intro id hmem
    exact ProcessSettlement_no_failed_update rt s ctx payload env w id hmem
  · intro i t h
    rcases ProcessSettlement_tables rt s ctx payload env w with ⟨h1, _⟩ | ⟨id, row, _, h1, _⟩
    · rw [h1]; exact ⟨t, h, Or.inl rfl⟩
    · rw [h1]
      obtain ⟨t', e1, _, _, _, e3, _⟩ :=
        getElem?_setStatus w.db.transactions id "completed" env.dbNow i t h
      exact ⟨t', e1, e3⟩

/-! ### Settlements refer to transactions -/

/-- Every settlement in the store after `ProcessSettlement` was there before or refers
to a transaction that was there before. -/
theorem ProcessSettlement_settlements (rt : Runtime) (s : SettlementService) (ctx : Context)
    (payload : Bytes) (env : SettleEnv) (w : World) (r : Settlements)
    (hr : r ∈ (s.ProcessSettlement rt ctx payload env w).1.db.settlements) :
    r ∈ w.db.settlements ∨ ∃ t ∈ w.db.transactions, r.ExternalReference = t.ID.String := by
  cases hd : rt.UnmarshalSettlementPayload payload with
  | error e =>
    rw [ProcessSettlement_undecodable rt s ctx payload env w e hd] at hr
    exact Or.inl hr
  | ok sp =>
    by_cases h : retryCountOf ctx < 3
    · revert hr
      apply ProcessSettlement_attempt_cases rt s ctx payload sp env w
        (fun res => r ∈ res.1.db.settlements →
          r ∈ w.db.settlements ∨
            ∃ t ∈ w.db.transactions, r.ExternalReference = t.ID.String) hd h
      · intro db1 t err hG hr
        have hdb := GetByID_db sp.TransactionID env.fetchFault w.db
        rw [hG] at hdb
        simp only at hdb
        left; simpa [hdb] using hr
      · intro db1 hG hr
        have hdb := GetByID_db sp.TransactionID env.fetchFault w.db
        rw [hG] at hdb
        simp only at hdb
        left; simpa [hdb] using hr
      · intro db1 tx db2 a err hG hA hr
        have hdb := GetByID_db sp.TransactionID env.fetchFault w.db
        rw [hG] at hdb
        simp only at hdb
        have hfr := GetOrCreate_frame tx.MerchantID tx.Currency env.account db1
        rw [hA] at hfr
        simp only at hfr
        left; simpa [hfr.2.1, hdb] using hr
      · intro db1 tx db2 acct e hG hA _ hr
        have hdb := GetByID_db sp.TransactionID env.fetchFault w.db
        rw [hG] at hdb
        simp only at hdb
        have hfr := GetOrCreate_frame tx.MerchantID tx.Currency env.account db1
        rw [hA] at hfr
        simp only at hfr
        left; simpa [hfr.2.1, hdb] using hr
      · intro db1 tx db2 acct hG hA _ hr
        have hdb := GetByID_db sp.TransactionID env.fetchFault w.db
        rw [hG] at hdb
        simp only at hdb
        have hfr := GetOrCreate_frame tx.MerchantID tx.Currency env.account db1
        rw [hA] at hfr
        simp only at hfr
        have hid := GetByID_some_id sp.TransactionID env.fetchFault w.db tx (by rw [hG])
        rw [(finishAttempt_log rt s tx _ env _).2] at hr
        simp only [hfr.2.1, hdb, DB.logged_settlements, List.mem_append,
          List.mem_singleton] at hr
        rcases hr with hr | hr
        · exact Or.inl hr
        · right
          refine ⟨tx, hid.2, ?_⟩
          rw [hr, hid.1]
          rfl
    · have h3 : 3 ≤ retryCountOf ctx := not_lt.mp h
      rw [ProcessSettlement_exhausted rt s ctx payload sp env w hd h3] at hr
      left
      cases hb : s.bus <;> simpa [hb, Publish] using hr

theorem settlementsReferToTransactions_step (rt : Runtime) (uuid : UuidLib) (st : Step)
    (w : World) (h : settlementsReferToTransactions w) :
    settlementsReferToTransactions (st.run rt uuid w) := by
  have hkeep : ∀ (id : UUID) (status : String) (now : Time) (r : Settlements),
      (∃ t ∈ w.db.transactions, r.ExternalReference = t.ID.String) →
      ∃ t ∈ w.db.transactions.map (fun t =>
          if t.ID = id then { t with Status := status, UpdatedAt := now } else t),
        r.ExternalReference = t.ID.String := by
    intro id status now r ⟨t, ht, hrt⟩
    refine ⟨_, List.mem_map_of_mem _ ht, ?_⟩
    by_cases hid : t.ID = id <;> simp [hid, hrt]
  cases st with
  | create s input env =>
    intro r hr
    have htab := CreateTransaction_tables rt s input env w
    simp only [Step.run] at hr ⊢
    rw [htab.2] at hr
    obtain ⟨t, ht, hrt⟩ := h r hr
    rcases htab.1 with h1 | h1
    · rw [h1]; exact ⟨t, ht, hrt⟩
    · rw [h1]; exact ⟨t, List.mem_append_left _ ht, hrt⟩
  | route s key env =>
    intro r hr
    have htab := ProcessTransaction_tables rt uuid s key env w
    simp only [Step.run] at hr ⊢
    rw [htab.2] at hr
    rcases htab.1 with h1 | ⟨id, h1⟩
    · rw [h1]; exact h r hr
    · rw [h1]; exact hkeep id _ _ r (h r hr)
  | settle s ctx payload env =>
    intro r hr
    simp only [Step.run] at hr ⊢
    have hold : ∃ t ∈ w.db.transactions, r.ExternalReference = t.ID.String := by
      rcases ProcessSettlement_settlements rt s ctx payload env w r hr with h0 | h0
      · exact h r h0
      · exact h0
    rcases ProcessSettlement_tables rt s ctx payload env w with ⟨h1, _⟩ | ⟨id, _, _, h1, _⟩
    · rw [h1]; exact hold
    · rw [h1]; exact hkeep id _ _ r hold

/-- In every world reachable from empty stores, every settlement row refers to a
transaction in the store. -/
theorem settlementsReferToTransactions_reachable (rt : Runtime) (uuid : UuidLib) (w : World)
    (hw : Reachable rt uuid w) : settlementsReferToTransactions w := by
  induction hw with
  | init bus deadLetters =>
    intro r hr
    simp at hr
  | step st w _ ih => exact settlementsReferToTransactions_step rt uuid st w ih

/-- C27 (the code departs from the claim): when the payload decodes, the retry count is
below 3, the fetch returns no error and no row has the payload's transaction
id, `ProcessSettlement` does not return: it panics on the nil transaction
right after the fetch, having sent only the select.  No account and no
settlement row is created, and in every world reachable from empty stores
every settlement row refers to a transaction in the store.  On the empty
world, for the payload of transaction 1, the worker's handler panics and the
delivery is not settled. -/
theorem C27_absent_transaction_panics (rt : Runtime) (uuid : UuidLib)
    (s : SettlementService) (ctx : Context) (payload : Bytes) (sp : SettlementPayload)
    (env : SettleEnv) (w : World) :
    (rt.UnmarshalSettlementPayload payload = .ok sp → retryCountOf ctx < 3 →
      env.fetchFault = none →
      w.db.transactions.find? (fun t => t.ID = sp.TransactionID) = none →
      s.ProcessSettlement rt ctx payload env w =
        ({ w with db := w.db.logged (.selectTransaction sp.TransactionID) }, .panicked)) ∧
    (∀ w0, Reachable rt uuid w0 → settlementsReferToTransactions w0) ∧
    settlementWorkerOutcome sampleRuntime (sampleDelivery 0) sampleSettleEnv emptyWorld =
      .panicked ∧
    (RabbitMQBus.dispatch "settlement.requested"
      (settlementRequestedHandler sampleRuntime workerSettlementService) (sampleDelivery 0)
      sampleSettleEnv emptyWorld).2 = none := by
  refine ⟨?_, settlementsReferToTransactions_reachable rt uuid, by decide, by decide⟩
  intro hwf hlt hF hfind
  have hG : PostgresTransactionRepository.GetByID sp.TransactionID env.fetchFault w.db =
      (w.db.logged (.selectTransaction sp.TransactionID), none, none) := by
    rw [hF, GetByID_ok, hfind]
  exact ProcessSettlement_absent rt s ctx payload sp env w hwf hlt _ hG

/-! ### Frame of the status updates -/

/-- A row under the status update of `UpdateStatus`: it keeps every field but status and
update time, and a row of another id is kept whole. -/
theorem getElem?_setStatus_frame (l : List Transaction) (id : UUID) (status : String)
    (now : Time) (i : Nat) (t : Transaction) (h : l[i]? = some t) :
    ∃ t', (l.map (fun t =>
        if t.ID = id then { t with Status := status, UpdatedAt := now } else t))[i]? = some t' ∧
      { t' with Status := t.Status, UpdatedAt := t.UpdatedAt } = t ∧
      (t.ID ≠ id → t' = t) := by
  refine ⟨if t.ID = id then { t with Status := status, UpdatedAt := now } else t, ?_, ?_⟩
  · simp [List.getElem?_map, h]
  · by_cases hid : t.ID = id
    · rw [if_pos hid]
      exact ⟨rfl, fun hne => absurd hid hne⟩
    · rw [if_neg hid]
      exact ⟨rfl, fun _ => rfl⟩

/-- What `ProcessTransaction` does to the transactions, in terms of its key: nothing when
the key does not parse; otherwise nothing, or the rows of the parsed id are
set to processing. -/
theorem ProcessTransaction_transactions (rt : Runtime) (uuid : UuidLib) (s : RoutingService)
    (key : String) (env : RouteEnv) (w : World) :
    (∀ e, uuid.Parse (TrimSpace key) = .error e →
      (s.ProcessTransaction rt uuid key env w).1.db.transactions = w.db.transactions) ∧
    (∀ id, uuid.Parse (TrimSpace key) = .ok id →
      (s.ProcessTransaction rt uuid key env w).1.db.transactions = w.db.transactions ∨
      (s.ProcessTransaction rt uuid key env w).1.db.transactions =
        w.db.transactions.map (fun t =>
          if t.ID = id then { t with Status := "processing", UpdatedAt := env.dbNow }
          else t)) := by
  refine ⟨?_, ?_⟩
  · intro e hp
    rw [ProcessTransaction_unparsable rt uuid s key env w e hp]
  · intro id hp
    cases hU : env.updateFault with
    | some e =>
      rw [ProcessTransaction_update_failed rt uuid s key env w id e hp hU]
      left
      simp
    | none =>
      rw [ProcessTransaction_updated rt uuid s key env w id hp hU, UpdateStatus_ok]
      right
      cases s.bus <;> simp [Publish]

/-- C25: let `t` be the transaction at position `i` of the table.  After `UpdateStatus`,
after `ProcessTransaction` and after `ProcessSettlement`, whatever their
inputs, the table has the same number of rows and the row at position `i`
differs from `t` at most in status and update time: id, amount, currency,
user, merchant, metadata and creation time are those of `t`.  When `t` is not
the addressed transaction (the id passed, the id parsed from the key, the id
in the payload), or no id can be read from the key or payload, the row is `t`
unchanged. -/
theorem C25_only_status_changes (rt : Runtime) (uuid : UuidLib) (w : World) (i : Nat)
    (t : Transaction) (h : w.db.transactions[i]? = some t) :
    (∀ (id : UUID) (status : String) (now : Time) (fault : Option String),
      (PostgresTransactionRepository.UpdateStatus id status now fault w.db).1.transactions.length
        = w.db.transactions.length ∧
      ∃ t', (PostgresTransactionRepository.UpdateStatus id status now fault
          w.db).1.transactions[i]? = some t' ∧
        { t' with Status := t.Status, UpdatedAt := t.UpdatedAt } = t ∧
        (t.ID ≠ id → t' = t)) ∧
    (∀ (s : RoutingService) (key : String) (env : RouteEnv),
      (s.ProcessTransaction rt uuid key env w).1.db.transactions.length
        = w.db.transactions.length ∧
      ∃ t', (s.ProcessTransaction rt uuid key env w).1.db.transactions[i]? = some t' ∧
        { t' with Status := t.Status, UpdatedAt := t.UpdatedAt } = t ∧
        (∀ id, uuid.Parse (TrimSpace key) = .ok id → t.ID ≠ id → t' = t) ∧
        (∀ e, uuid.Parse (TrimSpace key) = .error e → t' = t)) ∧
    (∀ (s : SettlementService) (ctx : Context) (payload : Bytes) (env : SettleEnv),
      (s.ProcessSettlement rt ctx payload env w).1.db.transactions.length
        = w.db.transactions.length ∧
      ∃ t', (s.ProcessSettlement rt ctx payload env w).1.db.transactions[i]? = some t' ∧
        { t' with Status := t.Status, UpdatedAt := t.UpdatedAt } = t ∧
        (∀ sp, rt.UnmarshalSettlementPayload payload = .ok sp →
          t.ID ≠ sp.TransactionID → t' = t) ∧
        (∀ e, rt.UnmarshalSettlementPayload payload = .error e → t' = t)) := by
  refine ⟨?_, ?_, ?_⟩
  · intro id status now fault
    cases fault with
    | some e =>
      rw [UpdateStatus_fault]
      exact ⟨by simp, t, by simpa using h, rfl, fun _ => rfl⟩
    | none =>
      rw [UpdateStatus_ok]
      refine ⟨by simp, ?_⟩
      simpa using getElem?_setStatus_frame w.db.transactions id status now i t h
  · intro s key env
    cases hp : uuid.Parse (TrimSpace key) with
    | error e =>
      rw [(ProcessTransaction_transactions rt uuid s key env w).1 e hp]
      exact ⟨rfl, t, h, rfl, fun _ h0 => (nomatch h0), fun _ _ => rfl⟩
    | ok id =>
      rcases (ProcessTransaction_transactions rt uuid s key env w).2 id hp with h1 | h1
      · rw [h1]
        exact ⟨rfl, t, h, rfl, fun _ _ _ => rfl, fun _ _ => rfl⟩
      · rw [h1]
        obtain ⟨t', e1, e2, e3⟩ :=
          getElem?_setStatus_frame w.db.transactions id "processing" env.dbNow i t h
        refine ⟨by simp, t', e1, e2, ?_, fun _ h0 => nomatch h0⟩
        intro id2 h0 hne
        cases h0
        exact e3 hne
  · intro s ctx payload env
    cases hd : rt.UnmarshalSettlementPayload payload with
    | error e =>
      rw [(ProcessSettlement_transactions rt s ctx payload env w).1 e hd]
      exact ⟨rfl, t, h, rfl, fun _ h0 => (nomatch h0), fun _ _ => rfl⟩
    | ok sp =>
      rcases (ProcessSettlement_transactions rt s ctx payload env w).2 sp hd with h1 | h1
      · rw [h1]
        exact ⟨rfl, t, h, rfl, fun _ _ _ => rfl, fun _ _ => rfl⟩
      · rw [h1]
        obtain ⟨t', e1, e2, e3⟩ :=
          getElem?_setStatus_frame w.db.transactions sp.TransactionID "completed"
            env.dbNow i t h
        refine ⟨by simp, t', e1, e2, ?_, fun _ h0 => nomatch h0⟩
        intro sp2 h0 hne
        cases h0
        exact e3 hne

/-- C25 at the completed transaction of the sample world, position 0. -/
theorem C25_only_status_changes_witness :
    completedWorld.db.transactions[0]? = some completedTransaction ∧
    ∃ t', (RoutingService.ProcessTransaction sampleRuntime sampleUuidLib ⟨true⟩
        (UUID.String ⟨1⟩) sampleRouteEnv completedWorld).1.db.transactions[0]? = some t' ∧
      { t' with Status := completedTransaction.Status,
                UpdatedAt := completedTransaction.UpdatedAt } = completedTransaction :=
  ⟨rfl,
   let ⟨t', e1, e2, _⟩ :=
     ((C25_only_status_changes sampleRuntime sampleUuidLib completedWorld 0
        completedTransaction rfl).2.1 ⟨true⟩ (UUID.String ⟨1⟩) sampleRouteEnv).2
   ⟨t', e1, e2⟩⟩

/-! ### The in-memory bus -/

/-- C26: on a closed in-memory bus `Subscribe` returns the error "bus closed" and leaves
the bus as it was.  `Close` returns nil, marks the bus closed and leaves no
subscription on any topic; after `Close`, whatever subscriptions are then
attempted, `Publish` on any topic starts no handler and returns nil.  On an
open bus `Subscribe` returns nil, appends the handler to the handlers of its
topic, leaves the handlers of every other topic as they were and leaves the
bus open; a new bus is open. -/
theorem C26_closed_bus (H : Type) (m : memoryBus H) (topic key : String) (payload : Bytes)
    (handler : H) (attempts : List (String × H)) :
    (m.closed = true → m.Subscribe topic handler = (m, some (.errorf "bus closed"))) ∧
    m.Close.2 = none ∧ m.Close.1.closed = true ∧ (∀ t, m.Close.1.subs t = []) ∧
    (m.Close.1.subscribeAll attempts) = m.Close.1 ∧
    (m.Close.1.subscribeAll attempts).Publish topic key payload = ([], none) ∧
    (m.closed = false →
      (m.Subscribe topic handler).2 = none ∧
      (m.Subscribe topic handler).1.subs topic = m.subs topic ++ [handler] ∧
      (∀ t, t ≠ topic → (m.Subscribe topic handler).1.subs t = m.subs t) ∧
      (m.Subscribe topic handler).1.closed = false ∧
      (m.Subscribe topic handler).1.Publish topic key payload =
        (m.subs topic ++ [handler], none)) ∧
    (NewInMemoryBus : memoryBus H).closed = false := by
  have hall : ∀ (l : List (String × H)) (b : memoryBus H), b.closed = true →
      b.subscribeAll l = b := by
    intro l
    induction l with
    | nil => intro b _; rfl
    | cons a rest ih =>
      intro b hb
      obtain ⟨tp, hd⟩ := a
      simp only [memoryBus.subscribeAll, memoryBus.Subscribe, hb, if_true]
      exact ih b hb
  refine ⟨?_, rfl, rfl, fun _ => rfl, hall attempts _ rfl, ?_, ?_, rfl⟩
  · intro hc
    simp [memoryBus.Subscribe, hc]
  · rw [hall attempts _ rfl]
    simp [memoryBus.Publish, memoryBus.Close]
  · intro ho
    refine ⟨?_, ?_, ?_, ?_, ?_⟩
    · simp [memoryBus.Subscribe, ho]
    · simp [memoryBus.Subscribe, ho]
    · intro t ht
      simp [memoryBus.Subscribe, ho, ht]
    · simp [memoryBus.Subscribe, ho]
    · simp [memoryBus.Subscribe, memoryBus.Publish, ho]

/-! ### Repeated settlement attempts and reconciliation -/

/-- Membership in the accumulator loop of `List.eraseDups`. -/
theorem mem_eraseDups_loop {α : Type} [BEq α] [LawfulBEq α] (a : α) :
    ∀ (l acc : List α), a ∈ List.eraseDups.loop l acc ↔ a ∈ l ∨ a ∈ acc := by
  intro l
  induction l with
  | nil => intro acc; simp [List.eraseDups.loop]
  | cons b rest ih =>
    intro acc
    cases hb : List.elem b acc with
    | true =>
      simp only [List.eraseDups.loop, hb, ih, List.mem_cons]
      have hmem : b ∈ acc := List.elem_iff.mp hb
      constructor
      · rintro (h | h)
        · exact Or.inl (Or.inr h)
        · exact Or.inr h
      · rintro ((h | h) | h)
        · exact Or.inr (h ▸ hmem)
        · exact Or.inl h
        · exact Or.inr h
    | false =>
      simp only [List.eraseDups.loop, hb, ih, List.mem_cons]
      tauto

/-- The list `List.eraseDups` keeps every element. -/
theorem mem_eraseDups {α : Type} [BEq α] [LawfulBEq α] (a : α) (l : List α) :
    a ∈ l.eraseDups ↔ a ∈ l := by
  simp [List.eraseDups, mem_eraseDups_loop]

/-- The first match of a predicate that exactly one element satisfies. -/
theorem find?_of_filter_singleton {α : Type} (p : α → Bool) (l : List α) (x : α)
    (h : l.filter p = [x]) : l.find? p = some x := by
  induction l with
  | nil => simp at h
  | cons a rest ih =>
    by_cases hp : p a = true
    · simp [List.filter_cons, hp] at h
      obtain ⟨rfl, _⟩ := h
      simp [List.find?_cons, hp]
    · simp [List.filter_cons, hp] at h
      simp [List.find?_cons, hp, ih h]

/-- The rows of one id after the status update of that id. -/
theorem filter_setStatus (l : List Transaction) (id : UUID) (status : String) (now : Time)
    (tx : Transaction) (h : l.filter (fun t => t.ID = id) = [tx]) :
    (l.map (fun t =>
        if t.ID = id then { t with Status := status, UpdatedAt := now } else t)).filter
      (fun t => t.ID = id) = [{ tx with Status := status, UpdatedAt := now }] := by
  have hid : tx.ID = id := by
    have hm : tx ∈ l.filter (fun t => t.ID = id) := by rw [h]; simp
    simpa using (List.mem_filter.mp hm).2
  rw [List.filter_map]
  have hfun : ((fun t : Transaction => decide (t.ID = id)) ∘ (fun t =>
        if t.ID = id then { t with Status := status, UpdatedAt := now } else t)) =
      (fun t : Transaction => decide (t.ID = id)) := by
    funext t
    by_cases ht : t.ID = id <;> simp [ht]
  rw [hfun, h]
  simp [hid]

/-- One call of `ProcessSettlement` without store fault for a payload whose transaction
has exactly one row: it returns nil, completes that row and appends one
settlement for it. -/
theorem ProcessSettlement_once (rt : Runtime) (s : SettlementService) (ctx : Context)
    (payload : Bytes) (sp : SettlementPayload) (env : SettleEnv) (w : World)
    (tx : Transaction)
    (hwf : rt.UnmarshalSettlementPayload payload = .ok sp) (h : retryCountOf ctx < 3)
    (hone : w.db.transactions.filter (fun t => t.ID = sp.TransactionID) = [tx])
    (hf : env.noStoreFault) :
    ∃ acct : Accounts,
      (s.ProcessSettlement rt ctx payload env w).2 = .returned none ∧
      (s.ProcessSettlement rt ctx payload env w).1.db.transactions.filter
          (fun t => t.ID = sp.TransactionID) =
        [{ tx with Status := "completed", UpdatedAt := env.dbNow }] ∧
      (s.ProcessSettlement rt ctx payload env w).1.db.settlements =
        w.db.settlements ++ [newSettlement sp tx acct env] := by
  have hid : tx.ID = sp.TransactionID := by
    have hm : tx ∈ w.db.transactions.filter (fun t => t.ID = sp.TransactionID) := by
      rw [hone]; simp
    simpa using (List.mem_filter.mp hm).2
  obtain ⟨hF, hL, hAI, hI, hU⟩ := hf
  obtain ⟨acct, h1, h2, h3, _⟩ := ProcessSettlement_happy rt s ctx payload sp env w tx hwf h
    (find?_of_filter_singleton _ _ _ hone) hF hL hAI hI hU
  refine ⟨acct, h1, ?_, h3⟩
  have h4 := filter_setStatus w.db.transactions sp.TransactionID "completed" env.dbNow tx hone
  rw [h2]
  simp only [hid] at h4 ⊢
  exact h4

/-- The amounts of the settlements that refer to one transaction, after one more
settlement for it is appended. -/
theorem settlementAmounts_append (l : List Settlements) (sp : SettlementPayload)
    (tx : Transaction) (acct : Accounts) (env : SettleEnv) :
    ((l ++ [newSettlement sp tx acct env]).filter
        (fun r => r.ExternalReference = sp.TransactionID.String)).map (fun r => r.Amount) =
      (l.filter (fun r => r.ExternalReference = sp.TransactionID.String)).map
        (fun r => r.Amount) ++ [tx.Amount] := by
  simp [List.filter_append, newSettlement]

/-- A run of `ProcessSettlement` calls without store fault for a payload whose
transaction has exactly one row: that row stays the only one of its id, with
its amount, and each call adds one settlement of that amount for it. -/
theorem settleAll_attempts (rt : Runtime) (s : SettlementService) (ctx : Context)
    (payload : Bytes) (sp : SettlementPayload)
    (hwf : rt.UnmarshalSettlementPayload payload = .ok sp) (h : retryCountOf ctx < 3)
    (envs : List SettleEnv) :
    ∀ (w : World) (tx : Transaction),
      w.db.transactions.filter (fun t => t.ID = sp.TransactionID) = [tx] →
      (∀ env ∈ envs, env.noStoreFault) →
      (∃ tx', (settleAll rt s ctx payload envs w).db.transactions.filter
            (fun t => t.ID = sp.TransactionID) = [tx'] ∧
          tx'.ID = tx.ID ∧ tx'.Amount = tx.Amount ∧
          (tx.Status = "completed" ∨ envs ≠ [] → tx'.Status = "completed")) ∧
      (((settleAll rt s ctx payload envs w).db.settlements.filter
          (fun r => r.ExternalReference = sp.TransactionID.String)).map (fun r => r.Amount) =
        (w.db.settlements.filter
          (fun r => r.ExternalReference = sp.TransactionID.String)).map (fun r => r.Amount) ++
          List.replicate envs.length tx.Amount) ∧
      (∀ (k : Nat) (env : SettleEnv), envs[k]? = some env →
        (s.ProcessSettlement rt ctx payload env
          (settleAll rt s ctx payload (envs.take k) w)).2 = .returned none) := by
  induction envs with
  | nil =>
    intro w tx hone _
    exact ⟨⟨tx, hone, rfl, rfl, fun h0 => h0.elim id (fun h1 => absurd rfl h1)⟩,
      by simp [settleAll],
      fun k env hk => by simp at hk⟩
  | cons e rest ih =>
    intro w tx hone hf
    obtain ⟨acct, h1, h2, h3⟩ := ProcessSettlement_once rt s ctx payload sp e w tx hwf h hone
      (hf e (List.mem_cons_self _ _))
    obtain ⟨⟨tx', i1, i2, i3, i6⟩, i4, i5⟩ := ih (s.ProcessSettlement rt ctx payload e w).1 _ h2
      (fun env hm => hf env (List.mem_cons_of_mem _ hm))
    refine ⟨⟨tx', i1, i2, i3, fun _ => i6 (Or.inl rfl)⟩, ?_, ?_⟩
    · simp only [settleAll]
      rw [i4, h3, settlementAmounts_append]
      simp [List.replicate_succ]
    · intro k env hk
      cases k with
      | zero =>
        simp only [List.getElem?_cons_zero, Option.some.injEq] at hk
        subst hk
        simpa [settleAll] using h1
      | succ k =>
        simp only [List.getElem?_cons_succ] at hk
        simpa [settleAll] using i5 k env hk


/-- The row the reconciliation query returns for a terminal transaction that is the
only row of its id: its amount as expected, the sum of the amounts of the
settlements that refer to it as actual. -/
theorem reconcileQuery_row (db : DB) (id : UUID) (tx : Transaction)
    (hone : db.transactions.filter (fun t => t.ID = id) = [tx])
    (hst : tx.Status = "completed" ∨ tx.Status = "failed") :
    ({ id := id.String, expected := tx.Amount,
       actual := ((db.settlements.filter (fun r => r.ExternalReference = id.String)).map
         (fun r => r.Amount)).sum } : ReconRow) ∈ reconcileQuery db := by
  have hm : tx ∈ db.transactions.filter (fun t => t.ID = id) := by rw [hone]; simp
  have hmem : tx ∈ db.transactions := (List.mem_filter.mp hm).1
  have hid : tx.ID = id := by simpa using (List.mem_filter.mp hm).2
  have hmembers : (db.transactions.filter
      (fun t => t.Status = "completed" ∨ t.Status = "failed")).filter
        (fun t => t.ID = id ∧ t.Amount = tx.Amount) = [tx] := by
    have hswap : (db.transactions.filter
        (fun t => t.Status = "completed" ∨ t.Status = "failed")).filter
          (fun t => t.ID = id ∧ t.Amount = tx.Amount) =
        (db.transactions.filter (fun t => t.ID = id)).filter
          (fun t => (t.Status = "completed" ∨ t.Status = "failed") ∧ t.Amount = tx.Amount) := by
      rw [List.filter_filter, List.filter_filter]
      congr 1
      funext t
      simp only [Bool.decide_and, Bool.decide_or]
      cases decide (t.ID = id) <;> cases decide (t.Amount = tx.Amount) <;>
        cases (decide (t.Status = "completed") || decide (t.Status = "failed")) <;> rfl
    rw [hswap, hone]
    simp [hst]
  simp only [reconcileQuery, List.mem_map]
  refine ⟨(id, tx.Amount), ?_, ?_⟩
  · rw [mem_eraseDups]
    simp only [List.mem_map, List.mem_filter]
    exact ⟨tx, ⟨hmem, by simpa using hst⟩, by rw [hid]⟩
  · simp only [hmembers]
    simp

/-- The records and alert calls of the loop of `runReconcile` over rows that meet no
storage error. -/
theorem reconcileRows_records (ac : AlertClient) (rows : List (ReconRow × RowEnv)) :
    ∀ st : ReconState, (∀ r ∈ rows, r.2.scanFault = none ∧ r.2.insertFault = none) →
      (reconcileRows ac rows st).1.reconciliation_logs =
        st.reconciliation_logs ++
          (rows.filter (fun r => r.1.expected ≠ r.1.actual)).map expectedRecord ∧
      (reconcileRows ac rows st).1.alerts.calls =
        st.alerts.calls ++
          (rows.filter (fun r => r.1.expected ≠ r.1.actual)).map expectedAlertCall := by
  induction rows with
  | nil => intro st _; simp [reconcileRows]
  | cons r rows ih =>
    intro st hok
    obtain ⟨row, env⟩ := r
    have hr := hok (row, env) (List.mem_cons_self _ _)
    have hrows : ∀ r ∈ rows, r.2.scanFault = none ∧ r.2.insertFault = none :=
      fun r hr => hok r (List.mem_cons_of_mem _ hr)
    by_cases heq : row.expected = row.actual
    · rw [reconcileRows_match ac row env _ st hr.1 heq]
      obtain ⟨i1, i2⟩ := ih st hrows
      rw [i1, i2]
      simp [List.filter_cons, heq]
    · rw [reconcileRows_mismatch ac row env _ st hr.1 heq hr.2]
      obtain ⟨i1, i2⟩ := ih _ hrows
      rw [i1, i2]
      simp only [SendWarning_calls]
      simp [List.filter_cons, heq, expectedAlertCall, alertDetails]

/-- A mismatching row of the query gets its record and its alert call in a run of
`runReconcile` that meets no storage error. -/
theorem runReconcile_reports (ac : AlertClient) (env : ReconEnv) (st : ReconState)
    (row : ReconRow) (hq : env.queryFault = none) (hit : env.iterFault = none)
    (hok : ∀ i, (env.rowEnv i).scanFault = none ∧ (env.rowEnv i).insertFault = none)
    (hrow : row ∈ reconcileQuery st.db) (hne : row.expected ≠ row.actual) :
    (runReconcile ac env st).2 = none ∧
    ∃ i, expectedRecord (row, env.rowEnv i) ∈
        (runReconcile ac env st).1.reconciliation_logs ∧
      expectedAlertCall (row, env.rowEnv i) ∈ (runReconcile ac env st).1.alerts.calls := by
  have hall : ∀ r ∈ deliveredRows env st, r.2.scanFault = none ∧ r.2.insertFault = none := by
    intro r hr
    simp only [deliveredRows, List.mem_map] at hr
    obtain ⟨ir, _, rfl⟩ := hr
    exact hok ir.1
  rw [runReconcile_query_ok ac env st hq]
  refine ⟨(reconcileRows_ok ac _ st hall).1, ?_⟩
  obtain ⟨i, hi⟩ := List.mem_iff_getElem?.mp hrow
  have hd : (row, env.rowEnv i) ∈ deliveredRows env st := by
    simp only [deliveredRows, hit, List.mem_map]
    exact ⟨(i, row), List.mk_mem_enum_iff_getElem?.mpr hi, rfl⟩
  obtain ⟨h1, h2⟩ := reconcileRows_records ac (deliveredRows env st) st hall
  refine ⟨i, ?_, ?_⟩
  · rw [h1]
    exact List.mem_append_right _ (List.mem_map_of_mem _
      (List.mem_filter.mpr ⟨hd, by simpa using hne⟩))
  · rw [h2]
    exact List.mem_append_right _ (List.mem_map_of_mem _
      (List.mem_filter.mpr ⟨hd, by simpa using hne⟩))

/-- C28: let a payload be processed by `envs.length ≥ 2` calls of `ProcessSettlement`,
none meeting a store fault, for a transaction that has one row, of amount
`a > 0`, and no settlement yet.  Every call returns nil.  Afterwards the
settlements that refer to the transaction are `n` rows of amount `a`; the
reconciliation query returns for it the row with expected `a` and actual
`n * a`; these differ, and the `int64` difference is `-(n - 1) * a`.  A run of
`runReconcile` that meets no storage error returns nil, inserts for that row
a mismatch record with these amounts and hands the alert client a warning
with that difference. -/
theorem C28_duplicate_attempts_mismatch (rt : Runtime) (s : SettlementService)
    (ctx : Context) (payload : Bytes) (sp : SettlementPayload) (envs : List SettleEnv)
    (w : World) (tx : Transaction)
    (hwf : rt.UnmarshalSettlementPayload payload = .ok sp) (hlt : retryCountOf ctx < 3)
    (hfaults : ∀ env ∈ envs, env.noStoreFault) (hn : 2 ≤ envs.length)
    (hone : w.db.transactions.filter (fun t => t.ID = sp.TransactionID) = [tx])
    (ha : 0 < tx.Amount)
    (hfresh : w.db.settlements.filter
      (fun r => r.ExternalReference = sp.TransactionID.String) = [])
    (hbound : (envs.length : Int) * tx.Amount < 2 ^ 63) :
    (∀ (k : Nat) (env : SettleEnv), envs[k]? = some env →
      (s.ProcessSettlement rt ctx payload env
        (settleAll rt s ctx payload (envs.take k) w)).2 = .returned none) ∧
    ((settleAll rt s ctx payload envs w).db.settlements.filter
        (fun r => r.ExternalReference = sp.TransactionID.String)).map (fun r => r.Amount) =
      List.replicate envs.length tx.Amount ∧
    ({ id := sp.TransactionID.String, expected := tx.Amount,
       actual := (envs.length : Int) * tx.Amount } : ReconRow) ∈
      reconcileQuery (settleAll rt s ctx payload envs w).db ∧
    tx.Amount ≠ (envs.length : Int) * tx.Amount ∧
    wrapInt64 (tx.Amount - (envs.length : Int) * tx.Amount) =
      -(((envs.length : Int) - 1) * tx.Amount) ∧
    (∀ (ac : AlertClient) (renv : ReconEnv) (st : ReconState),
      st.db = (settleAll rt s ctx payload envs w).db →
      renv.queryFault = none → renv.iterFault = none →
      (∀ i, (renv.rowEnv i).scanFault = none ∧ (renv.rowEnv i).insertFault = none) →
      (runReconcile ac renv st).2 = none ∧
      ∃ i,
        ({ id := (renv.rowEnv i).newID, entity_type := "transactions",
           entity_id := sp.TransactionID.String, expected_amount := tx.Amount,
           actual_amount := (envs.length : Int) * tx.Amount, status := "mismatch",
           notes := "automated-check", created_at := (renv.rowEnv i).dbNow } :
          ReconciliationLog) ∈ (runReconcile ac renv st).1.reconciliation_logs ∧
        ({ service := "reconcile-job", severity := "warning",
           message := "Transaction amount mismatch detected",
           details := some [("transaction_id", .str sp.TransactionID.String),
             ("expected_amount", .num tx.Amount),
             ("actual_amount", .num ((envs.length : Int) * tx.Amount)),
             ("difference", .num (-(((envs.length : Int) - 1) * tx.Amount)))] } :
          AlertCall) ∈ (runReconcile ac renv st).1.alerts.calls) := by
  obtain ⟨⟨tx', i1, i2, i3, i4⟩, i5, i6⟩ :=
    settleAll_attempts rt s ctx payload sp hwf hlt envs w tx hone hfaults
  have hne0 : envs ≠ [] := by
    intro h0
    rw [h0] at hn
    simp at hn
  have hamounts : ((settleAll rt s ctx payload envs w).db.settlements.filter
        (fun r => r.ExternalReference = sp.TransactionID.String)).map (fun r => r.Amount) =
      List.replicate envs.length tx.Amount := by
    rw [i5, hfresh]
    simp
  have hrow : (⟨sp.TransactionID.String, tx.Amount, (envs.length : Int) * tx.Amount⟩ :
      ReconRow) ∈ reconcileQuery (settleAll rt s ctx payload envs w).db := by
    have h0 := reconcileQuery_row (settleAll rt s ctx payload envs w).db sp.TransactionID tx'
      i1 (Or.inl (i4 (Or.inr hne0)))
    rw [hamounts, i3, List.sum_replicate, nsmul_eq_mul] at h0
    exact h0
  have h2 : (2 : Int) ≤ (envs.length : Int) := by exact_mod_cast hn
  have hdiff : tx.Amount ≠ (envs.length : Int) * tx.Amount := by
    intro h0
    nlinarith
  have hwrap : wrapInt64 (tx.Amount - (envs.length : Int) * tx.Amount) =
      -(((envs.length : Int) - 1) * tx.Amount) := by
    rw [wrapInt64_of_inRange]
    · ring
    · nlinarith
    · nlinarith
  refine ⟨i6, hamounts, hrow, hdiff, hwrap, ?_⟩
  intro ac renv st hdb hq hit hok
  rw [← hdb] at hrow
  obtain ⟨r1, i, r2, r3⟩ := runReconcile_reports ac renv st _ hq hit hok hrow hdiff
  refine ⟨r1, i, r2, ?_⟩
  simp only [expectedAlertCall, hwrap] at r3
  exact r3

/-- C28 for two attempts on the sample transaction of amount 1500. -/
theorem C28_duplicate_attempts_mismatch_witness :
    ((settleAll sampleRuntime ⟨true⟩ Context.Background "p1"
        [sampleSettleEnv, redeliveredSettleEnv] sampleWorld).db.settlements.filter
        (fun r => r.ExternalReference = UUID.String ⟨1⟩)).map (fun r => r.Amount) =
      [1500, 1500] ∧
    ({ id := UUID.String ⟨1⟩, expected := 1500, actual := 3000 } : ReconRow) ∈
      reconcileQuery (settleAll sampleRuntime ⟨true⟩ Context.Background "p1"
        [sampleSettleEnv, redeliveredSettleEnv] sampleWorld).db ∧
    wrapInt64 (1500 - 3000) = -1500 :=
  have h := C28_duplicate_attempts_mismatch sampleRuntime ⟨true⟩ Context.Background "p1"
    samplePayload [sampleSettleEnv, redeliveredSettleEnv] sampleWorld sampleTransaction
    rfl (by decide) (by simp [SettleEnv.noStoreFault, sampleSettleEnv, redeliveredSettleEnv])
    (by decide) rfl (by decide) rfl (by decide)
  ⟨h.2.1, h.2.2.1, by decide⟩

/-! ### The reconciliation job, end to end -/

/-- The alerts posted by the loop of `runReconcile` over rows that meet no storage
error, with a webhook configured and requests that can be built. -/
theorem reconcileRows_posts (ac : AlertClient) (hurl : ac.webhookURL ≠ "")
    (rows : List (ReconRow × RowEnv)) :
    ∀ st : ReconState, (∀ r ∈ rows, r.2.scanFault = none ∧ r.2.insertFault = none) →
      (∀ r ∈ rows, r.2.alert.requestFault = none) →
      (reconcileRows ac rows st).1.alerts.posts.map (fun p => p.alert) =
        st.alerts.posts.map (fun p => p.alert) ++
          (rows.filter (fun r => r.1.expected ≠ r.1.actual)).map expectedAlert := by
  induction rows with
  | nil => intro st _ _; simp [reconcileRows]
  | cons r rows ih =>
    intro st hok hreq
    obtain ⟨row, env⟩ := r
    have hr := hok (row, env) (List.mem_cons_self _ _)
    have hq : env.alert.requestFault = none := hreq (row, env) (List.mem_cons_self _ _)
    have hrows : ∀ r ∈ rows, r.2.scanFault = none ∧ r.2.insertFault = none :=
      fun r hr => hok r (List.mem_cons_of_mem _ hr)
    have hreqs : ∀ r ∈ rows, r.2.alert.requestFault = none :=
      fun r hr => hreq r (List.mem_cons_of_mem _ hr)
    by_cases heq : row.expected = row.actual
    · rw [reconcileRows_match ac row env _ st hr.1 heq, ih st hrows hreqs]
      simp [List.filter_cons, heq]
    · rw [reconcileRows_mismatch ac row env _ st hr.1 heq hr.2, ih _ hrows hreqs]
      simp only [SendWarning_posts ac _ _ _ env.alert st.alerts hurl hq]
      simp [List.filter_cons, heq, expectedAlert, expectedAlertCall, alertDetails]

/-- With no webhook URL the loop of `runReconcile` posts nothing. -/
theorem reconcileRows_silent (ac : AlertClient) (hurl : ac.webhookURL = "")
    (rows : List (ReconRow × RowEnv)) :
    ∀ st : ReconState, (reconcileRows ac rows st).1.alerts.posts = st.alerts.posts := by
  induction rows with
  | nil => intro st; simp [reconcileRows]
  | cons r rows ih =>
    intro st
    obtain ⟨row, env⟩ := r
    cases hs : env.scanFault with
    | some e => rw [reconcileRows_scan_failed ac row env rows st e hs]
    | none =>
      by_cases heq : row.expected = row.actual
      · rw [reconcileRows_match ac row env _ st hs heq, ih st]
      · cases hi : env.insertFault with
        | some e => rw [reconcileRows_insert_failed ac row env rows st e hs heq hi]
        | none =>
          rw [reconcileRows_mismatch ac row env _ st hs heq hi, ih _]
          exact (SendWarning_silent ac _ _ _ env.alert st.alerts hurl).1

/-- The rows the loop of `runReconcile` gets are those of the query, or the first `k`
of them when the result set fails after `k` rows. -/
theorem deliveredRows_rows (env : ReconEnv) (st : ReconState) :
    (env.iterFault = none →
      (deliveredRows env st).map (fun r => r.1) = reconcileQuery st.db) ∧
    (∀ k, env.iterFault = some k →
      (deliveredRows env st).map (fun r => r.1) = (reconcileQuery st.db).take k) := by
  have hmap : ∀ l : List ReconRow,
      (l.enum.map (fun (ir : Nat × ReconRow) => (ir.2, env.rowEnv ir.1))).map (fun r => r.1)
        = l := by
    intro l
    rw [List.map_map]
    have : ((fun (r : ReconRow × RowEnv) => r.1) ∘
        (fun (ir : Nat × ReconRow) => (ir.2, env.rowEnv ir.1))) = Prod.snd := by
      funext ir; rfl
    rw [this, List.enum_map_snd]
  refine ⟨?_, ?_⟩
  · intro h
    simp only [deliveredRows, h]
    exact hmap _
  · intro k h
    simp only [deliveredRows, h]
    exact hmap _

/-- Delivered rows whose inputs hold no scan and no insert error. -/
theorem deliveredRows_ok (env : ReconEnv) (st : ReconState)
    (hok : ∀ i, (env.rowEnv i).scanFault = none ∧ (env.rowEnv i).insertFault = none) :
    ∀ r ∈ deliveredRows env st, r.2.scanFault = none ∧ r.2.insertFault = none := by
  intro r hr
  simp only [deliveredRows, List.mem_map] at hr
  obtain ⟨ir, _, rfl⟩ := hr
  exact hok ir.1


/-- C19, as stated, fails: the job runs with no alert webhook configured over a
database whose query returns one row, with expected 1000 and actual 0.
`runReconcile` returns nil and inserts the mismatch record, but no alert is
posted. -/
theorem C19_no_webhook_counterexample :
    reconcileQuery sampleReconState.db = [sampleReconRow] ∧
    sampleReconRow.expected = 1000 ∧ sampleReconRow.actual = 0 ∧
    (runReconcile silentAlertClient sampleReconEnv sampleReconState).2 = none ∧
    (runReconcile silentAlertClient sampleReconEnv sampleReconState).1.reconciliation_logs =
      [{ id := ⟨40⟩, entity_type := "transactions", entity_id := UUID.String ⟨1⟩,
         expected_amount := 1000, actual_amount := 0, status := "mismatch",
         notes := "automated-check", created_at := 51 }] ∧
    (runReconcile silentAlertClient sampleReconEnv sampleReconState).1.alerts.posts.length
      = 0 := by
  refine ⟨?_, rfl, rfl, ?_, ?_, ?_⟩ <;> decide

/-- C19, amended: a run of `runReconcile` whose query succeeds and whose rows meet no
scan and no insert error returns nil.  The rows it processes are those of the
query (all of them when the result set is read to its end).  The records it
inserts are, in order, one for each processed row with expected different
from actual (entity type transactions, status mismatch, notes
"automated-check", that expected and actual) and none for the other rows.
For each such row, and for no other, it calls `SendWarning` once, with the
transaction id, expected, actual and their `int64` difference as details.
With a webhook URL configured and requests that can be built, each call
posts one warning alert with those details to the webhook; with no webhook
URL nothing is posted. -/
theorem C19_records_and_alerts (ac : AlertClient) (env : ReconEnv) (st : ReconState)
    (hq : env.queryFault = none)
    (hok : ∀ i, (env.rowEnv i).scanFault = none ∧ (env.rowEnv i).insertFault = none) :
    (runReconcile ac env st).2 = none ∧
    (env.iterFault = none →
      (deliveredRows env st).map (fun r => r.1) = reconcileQuery st.db) ∧
    (runReconcile ac env st).1.reconciliation_logs =
      st.reconciliation_logs ++
        ((deliveredRows env st).filter (fun r => r.1.expected ≠ r.1.actual)).map
          expectedRecord ∧
    (runReconcile ac env st).1.alerts.calls =
      st.alerts.calls ++
        ((deliveredRows env st).filter (fun r => r.1.expected ≠ r.1.actual)).map
          expectedAlertCall ∧
    (ac.webhookURL ≠ "" → (∀ i, (env.rowEnv i).alert.requestFault = none) →
      (runReconcile ac env st).1.alerts.posts.map (fun p => p.alert) =
        st.alerts.posts.map (fun p => p.alert) ++
          ((deliveredRows env st).filter (fun r => r.1.expected ≠ r.1.actual)).map
            expectedAlert) ∧
    (ac.webhookURL = "" → (runReconcile ac env st).1.alerts.posts = st.alerts.posts) ∧
    (∀ r : ReconRow × RowEnv,
      expectedRecord r =
        { id := r.2.newID, entity_type := "transactions", entity_id := r.1.id,
          expected_amount := r.1.expected, actual_amount := r.1.actual, status := "mismatch",
          notes := "automated-check", created_at := r.2.dbNow } ∧
      expectedAlertCall r =
        { service := "reconcile-job", severity := SeverityWarning,
          message := "Transaction amount mismatch detected",
          details := some [("transaction_id", .str r.1.id),
            ("expected_amount", .num r.1.expected), ("actual_amount", .num r.1.actual),
            ("difference", .num (wrapInt64 (r.1.expected - r.1.actual)))] } ∧
      expectedAlert r =
        { Service := "reconcile-job", Severity := SeverityWarning,
          Message := "Transaction amount mismatch detected",
          Details := some [("transaction_id", .str r.1.id),
            ("expected_amount", .num r.1.expected), ("actual_amount", .num r.1.actual),
            ("difference", .num (wrapInt64 (r.1.expected - r.1.actual)))],
          Timestamp := r.2.alert.now } ∧
      (-2 ^ 63 ≤ r.1.expected - r.1.actual → r.1.expected - r.1.actual < 2 ^ 63 →
        wrapInt64 (r.1.expected - r.1.actual) = r.1.expected - r.1.actual)) := by
  have hall := deliveredRows_ok env st hok
  obtain ⟨h1, h2⟩ := reconcileRows_records ac (deliveredRows env st) st hall
  rw [runReconcile_query_ok ac env st hq]
  refine ⟨(reconcileRows_ok ac _ st hall).1, (deliveredRows_rows env st).1, h1, h2, ?_, ?_, ?_⟩
  · intro hurl hreq
    refine reconcileRows_posts ac hurl _ st hall ?_
    intro r hr
    simp only [deliveredRows, List.mem_map] at hr
    obtain ⟨ir, _, rfl⟩ := hr
    exact hreq ir.1
  · intro hurl
    exact reconcileRows_silent ac hurl _ st
  · intro r
    exact ⟨rfl, rfl, rfl, fun h1 h2 => wrapInt64_of_inRange _ h1 h2⟩

/-- C19, amended, on the database whose query returns expected 1000 and actual 0, with a
webhook configured. -/
theorem C19_records_and_alerts_witness :
    reconcileQuery sampleReconState.db = [sampleReconRow] ∧
    (runReconcile sampleAlertClient sampleReconEnv sampleReconState).1.reconciliation_logs =
      [{ id := ⟨40⟩, entity_type := "transactions", entity_id := UUID.String ⟨1⟩,
         expected_amount := 1000, actual_amount := 0, status := "mismatch",
         notes := "automated-check", created_at := 51 }] ∧
    (runReconcile sampleAlertClient sampleReconEnv sampleReconState).1.alerts.posts.map
        (fun p => p.alert) =
      [{ Service := "reconcile-job", Severity := "warning",
         Message := "Transaction amount mismatch detected",
         Details := some [("transaction_id", .str (UUID.String ⟨1⟩)),
           ("expected_amount", .num 1000), ("actual_amount", .num 0),
           ("difference", .num 1000)],
         Timestamp := 50 }] :=
  have h := C19_records_and_alerts sampleAlertClient sampleReconEnv sampleReconState rfl
    (fun _ => ⟨rfl, rfl⟩)
  ⟨by decide, by rw [h.2.2.1]; decide,
   by rw [h.2.2.2.2.1 (by decide) (fun _ => rfl)]; rfl⟩

/-- C20 (the code departs from the claim): an error that ends the result set early is
not returned.  When the query succeeds and `rows.Next()` stops after `k` rows
because of an error, `runReconcile` processes those `k` rows and returns nil
if they meet no scan and no insert error: it never reads `rows.Err()`.  On a
database whose query returns one row with expected 1000 and actual 0, a
result set that fails before that row makes the job return nil with no
record and no alert.  The `List` methods of the transaction and settlement
stores, on a result set that fails the same way, return an error.  The
errors the job does look at are returned: that of the query with nothing
done, that of a row scan or of a record insert with the state left by the
rows before. -/
theorem C20_iteration_error_swallowed (ac : AlertClient) (env : ReconEnv) (st : ReconState) :
    (∀ k, env.queryFault = none → env.iterFault = some k →
      (∀ i, (env.rowEnv i).scanFault = none ∧ (env.rowEnv i).insertFault = none) →
      (runReconcile ac env st).2 = none ∧
      (deliveredRows env st).map (fun r => r.1) = (reconcileQuery st.db).take k ∧
      (runReconcile ac env st).1.reconciliation_logs =
        st.reconciliation_logs ++
          ((deliveredRows env st).filter (fun r => r.1.expected ≠ r.1.actual)).map
            expectedRecord) ∧
    (reconcileQuery sampleReconState.db = [sampleReconRow] ∧
      sampleReconRow.expected ≠ sampleReconRow.actual ∧
      (runReconcile ac brokenIterationReconEnv sampleReconState).2 = none ∧
      (runReconcile ac brokenIterationReconEnv sampleReconState).1.reconciliation_logs = [] ∧
      (runReconcile ac brokenIterationReconEnv sampleReconState).1.alerts.calls = []) ∧
    (∀ (limit offset : Int) (lenv : ListEnv) (db : DB) (k : Nat) (e : String),
      lenv.queryFault = none → lenv.iterFault = some (k, e) →
      (∃ err, (PostgresTransactionRepository.List limit offset lenv db).2 = ([], some err)) ∧
      (∃ err, (PostgresSettlementRepository.List limit offset lenv db).2 = ([], some err))) ∧
    (∀ (limit offset : Int) (db : DB),
      (PostgresTransactionRepository.List limit offset brokenIterationListEnv db).2 =
        ([], some (.lib "connection reset")) ∧
      (PostgresSettlementRepository.List limit offset brokenIterationListEnv db).2 =
        ([], some (.lib "connection reset"))) ∧
    (∀ e, env.queryFault = some e → runReconcile ac env st = (st, some (.lib e))) ∧
    (∀ (pre post : List (ReconRow × RowEnv)) (row : ReconRow) (renv : RowEnv) (e : String),
      env.queryFault = none → deliveredRows env st = pre ++ (row, renv) :: post →
      (∀ r ∈ pre, r.2.scanFault = none ∧ r.2.insertFault = none) →
      renv.scanFault = some e →
      runReconcile ac env st = ((reconcileRows ac pre st).1, some (.lib e))) ∧
    (∀ (pre post : List (ReconRow × RowEnv)) (row : ReconRow) (renv : RowEnv) (e : String),
      env.queryFault = none → deliveredRows env st = pre ++ (row, renv) :: post →
      (∀ r ∈ pre, r.2.scanFault = none ∧ r.2.insertFault = none) →
      renv.scanFault = none → row.expected ≠ row.actual → renv.insertFault = some e →
      runReconcile ac env st = ((reconcileRows ac pre st).1, some (.lib e))) := by
  have hlist : ∀ {α : Type} (lenv : ListEnv) (k : Nat) (e : String) (sel : List α),
      lenv.iterFault = some (k, e) → ∃ err, collectRows lenv sel = ([], some err) := by
    intro α lenv k e sel hi
    simp only [collectRows, hi]
    cases scanRows lenv.scanFault (sel.take k) 0 with
    | error err => exact ⟨err, rfl⟩
    | ok rs => exact ⟨.lib e, rfl⟩
  refine ⟨?_, ⟨by decide, by decide, rfl, rfl, rfl⟩, ?_, ?_, ?_, ?_, ?_⟩
  · intro k hq hi hok
    have hall := deliveredRows_ok env st hok
    rw [runReconcile_query_ok ac env st hq]
    exact ⟨(reconcileRows_ok ac _ st hall).1, (deliveredRows_rows env st).2 k hi,
      (reconcileRows_records ac _ st hall).1⟩
  · intro limit offset lenv db k e hq hi
    simp only [PostgresTransactionRepository.List, PostgresSettlementRepository.List, hq]
    exact ⟨hlist lenv k e _ hi, hlist lenv k e _ hi⟩
  · intro limit offset db
    exact ⟨rfl, rfl⟩
  · intro e h
    exact runReconcile_query_failed ac env st e h
  · intro pre post row renv e hq hd hpre hs
    rw [runReconcile_query_ok ac env st hq, hd, reconcileRows_append ac pre _ st hpre,
      reconcileRows_scan_failed ac row renv post _ e hs]
  · intro pre post row renv e hq hd hpre hs hne hi
    rw [runReconcile_query_ok ac env st hq, hd, reconcileRows_append ac pre _ st hpre,
      reconcileRows_insert_failed ac row renv post _ e hs hne hi]

end PaymentGateway
